import Mathlib

/-!
# Payment and administration lambdas: a shallow embedding

Verification development for the lambdas of the repository:

* `src/lambda/momo-ipn-handler/index.mjs` (the IPN / webhook handler),
* `src/lambda/momo-payment-creation/index.mjs` (the creation handler),
* `src/lambda/test-events/generate-momo-signature.cjs` (the generator of signed
  test notifications),
* `src/lambda/file-upload/index.mjs` (the validation of an upload request),
* `src/lambda/admin-operations/manage-coaches.js` (the handler, the admin check
  and the listing of coaches),
* `src/lambda/admin-operations/admin-list-users.js` (the listing of users).

JavaScript values are embedded as the tree type `JsVal`.  Handlers are written in
the monad `Js`, a state-and-exception monad over a trace of observable effects
(console lines and outgoing HTTP requests).  The outside world (the answers of
the HTTP collaborators and the clock) is a parameter `World`, the collaborators
reached through `axios` and through the Cognito client are the parameters `Axios`
and `Cognito`; the runtime
library functions that the handlers call (`crypto.createHmac`, `JSON.parse`,
`Buffer.from(.., 'base64').toString('utf8')`, `Date.prototype.toISOString`) are
the fields of a parameter `Platform`: the general theorems hold for every
platform.  The concrete `nodePlatform` implements these functions the way Node.js
behaves, and concrete runs are evaluated on it.

Numbers are integers (`Int`): JSON numbers with a fraction or an exponent are
outside the model.  An integer stands for its number value, the nearest double:
`numberToString` is `Number::toString` of that value (decimal digits below
`2^53`, the shortest digits that determine the double above, with an exponent
from `10^21` on).  Strings are Lean strings, that is well-formed Unicode.

String conversion.  ECMAScript `ToString` returns for every primitive and for
every array or object that inherits `toString`; it throws a `TypeError` for an
object with an own property `toString`, whose value, coming from JSON, cannot be
called.  `JsVal.convertible` is the test, `JsVal.toText` the conversion with its
exception, and `JsVal.toStr` the string when there is one.  In a handler the
conversion is made with `Js.texts` where a value is converted for the first time
(a log line, a template literal, `String(..)`, `JSON.parse(..)`, `parseInt(..)`);
later conversions of the same value use `toStr`.  The claims of the authorizer
are strings, see `authorizerClaim`.
-/

namespace Momo

/-! ## Number values

A JSON number is kept as an integer `n`; the JavaScript value it stands for is
the number value of `n`: the IEEE 754 double nearest to `n`, ties to even,
infinite from `2^1024 - 2^970` on.  Below `2^53` every integer is its own
number value. -/

/-- The binary exponent `e` of a natural number: `n / 2^e` has 53 bits when
    `2^53 ≤ n`, and `e = 0` below.  The first argument bounds the search. -/
def binaryExponent : Nat → Nat → Nat
  | 0, _ => 0
  | fuel + 1, n => if n < 2 ^ 53 then 0 else binaryExponent fuel (n / 2) + 1

/-- The number value of a natural number, as mantissa `m` and exponent `e` (the
    value is `m * 2^e`): round to nearest, ties to even.  The largest double is
    `(2^53 - 1) * 2^971`; an exponent above 971 stands for `Infinity`. -/
def roundToNumber (n : Nat) : Nat × Nat :=
  let e := binaryExponent 1024 n
  let q := n / 2 ^ e
  let r := n % 2 ^ e
  let m := if 2 ^ e < 2 * r ∨ (2 * r = 2 ^ e ∧ q % 2 = 1) then q + 1 else q
  if m = 2 ^ 53 then (2 ^ 52, e + 1) else (m, e)

/-- Is the number value of `n` finite? -/
def finiteNumber (n : Nat) : Bool :=
  (roundToNumber n).2 ≤ 971

/-- The integer with the fewest significant decimal digits whose number value
    is the double `m * 2^e` (`2^52 ≤ m < 2^53`, `1 ≤ e`), the nearest to the
    double among those: the digits that `Number::toString` writes.  The doubles
    next to `v = m * 2^e` are `v + 2^e` and `v - 2^e` (`v - 2^(e-1)` when `m = 2^52`);
    an integer has the value `v` when it is nearer to `v` than to both, or half
    way and `m` is even. -/
def shortestDecimal (m e : Nat) : Nat :=
  let v := m * 2 ^ e
  let lo := 2 * v - (if m = 2 ^ 52 then 2 ^ (e - 1) else 2 ^ e)
  let hi := 2 * v + 2 ^ e
  let inside (c : Nat) : Bool :=
    (lo < 2 * c && 2 * c < hi) || (m % 2 == 0 && (2 * c == lo || 2 * c == hi))
  let width := (toString v).length
  let pick (k : Nat) : Option Nat :=
    let u := 10 ^ (width - k)
    let a := v / u * u
    let b := a + u
    if inside a && inside b then some (if v - a ≤ b - v then a else b)
    else if inside a then some a
    else if inside b then some b
    else none
  ((List.range 17).findSome? (fun i => pick (i + 1))).getD v

/-- The notation of `Number::toString` for an integer written with the digits
    of `c`: plain decimal up to 21 digits, with an exponent beyond. -/
def exponentNotation (c : Nat) : String :=
  let digits := (toString c).data
  if digits.length ≤ 21 then String.mk digits
  else
    match (digits.reverse.dropWhile (fun ch => ch == Char.ofNat 48)).reverse with
    | [] => "0"
    | [d] => String.mk [d] ++ "e+" ++ toString (digits.length - 1)
    | d :: rest => String.mk (d :: Char.ofNat 46 :: rest) ++ "e+" ++ toString (digits.length - 1)

/-- `Number::toString` of the number value of a natural number. -/
def naturalToString (n : Nat) : String :=
  if n < 2 ^ 53 then toString n
  else if !finiteNumber n then "Infinity"
  else exponentNotation (shortestDecimal (roundToNumber n).1 (roundToNumber n).2)

/-- `Number::toString` of the number value of an integer. -/
def numberToString (n : Int) : String :=
  if n < 0 then "-" ++ naturalToString n.natAbs else naturalToString n.natAbs

/-- Do two integers stand for the same number value (the operands of `===`)? -/
def sameNumber (a b : Int) : Bool :=
  (decide (a < 0) == decide (b < 0)) &&
    (if finiteNumber a.natAbs then roundToNumber a.natAbs == roundToNumber b.natAbs
     else !finiteNumber b.natAbs)


/-! ## JavaScript values -/

/-- JavaScript values that can reach the handlers: the JSON trees, and `undefined`
    for an absent property. -/
inductive JsVal where
  | undefined : JsVal
  | null : JsVal
  | bool (b : Bool) : JsVal
  | num (n : Int) : JsVal
  | str (s : String) : JsVal
  | arr (items : List JsVal) : JsVal
  | obj (fields : List (String × JsVal)) : JsVal

namespace JsVal

mutual
/-- The string that ECMAScript `ToString` gives for a value, when it gives one:
    the conversion applied by `'..' + v`, by a template literal and by
    `String(v)`.  On some values `ToString` throws instead, see `convertible`
    and `toText`. -/
def toStr : JsVal → String
  | .undefined => "undefined"
  | .null => "null"
  | .bool true => "true"
  | .bool false => "false"
  | .num n => numberToString n
  | .str s => s
  | .arr xs => joinItems xs
  | .obj _ => "[object Object]"
/-- `Array.prototype.join(',')`, which is what `ToString` of an array is. -/
def joinItems : List JsVal → String
  | [] => ""
  | x :: rest => itemStr x ++ joinRest rest
/-- The items after the first one, each preceded by the separator. -/
def joinRest : List JsVal → String
  | [] => ""
  | x :: rest => "," ++ itemStr x ++ joinRest rest
/-- One array item inside `join`: `undefined` and `null` give the empty string. -/
def itemStr : JsVal → String
  | .undefined => ""
  | .null => ""
  | .bool true => "true"
  | .bool false => "false"
  | .num n => numberToString n
  | .str s => s
  | .arr xs => joinItems xs
  | .obj _ => "[object Object]"
end

mutual
/-- Does `ToString` return on the value?  It throws a `TypeError` on an object
    that has an own property `toString`: the property hides the method of
    `Object.prototype`, its value, a JSON value, cannot be called, and so no
    primitive is got.  On an array it converts the items other than `undefined`
    and `null` in turn. -/
def convertible : JsVal → Bool
  | .arr xs => itemsConvertible xs
  | .obj fields => !fields.any (fun kv => kv.1 == "toString")
  | _ => true
/-- Does the conversion of every item of an array return? -/
def itemsConvertible : List JsVal → Bool
  | [] => true
  | x :: rest => convertible x && itemsConvertible rest
end

/-- ECMAScript `ToBoolean`: the falsy values are `undefined`, `null`, `false`,
    `0` and the empty string. -/
def truthy : JsVal → Bool
  | .undefined => false
  | .null => false
  | .bool b => b
  | .num n => n != 0
  | .str s => s != ""
  | .arr _ => true
  | .obj _ => true

/-- Own property lookup in the field list of an object literal as `JSON.parse`
    builds it: a later duplicate key overwrites an earlier one. -/
def lookup (name : String) : List (String × JsVal) → JsVal
  | [] => .undefined
  | (k, v) :: rest =>
    if rest.any (fun kv => kv.1 == name) then lookup name rest
    else if k == name then v else .undefined

/-- Strict equality `v === s` against a string. -/
def strictEqStr (v : JsVal) (s : String) : Bool :=
  match v with
  | .str t => t == s
  | _ => false

/-- Strict equality `v === n` against an integer constant below `2^53` (the
    handlers compare with `0`): such a constant is the number value of no other
    integer. -/
def strictEqNum (v : JsVal) (n : Int) : Bool :=
  match v with
  | .num m => m == n
  | _ => false

/-- The expression `a || b`. -/
def orElse (a b : JsVal) : JsVal := if a.truthy then a else b

end JsVal

/-! ## Errors, effects and the world -/

/-- A thrown value.  `code` and `response` are the properties that the catch
    blocks of the handlers inspect (`undefined` when the error has none, as for
    every error raised by `fetch`, `JSON.parse`, `Buffer.from` or `new Error`). -/
structure JsError where
  message : String
  code : JsVal
  response : JsVal

/-- The error `new Error(message)` and the built-in errors: no `code`, no `response`. -/
def JsError.plain (message : String) : JsError :=
  { message := message, code := .undefined, response := .undefined }

/-- ECMAScript `ToString`: the string, or the `TypeError` that is thrown. -/
def JsVal.toText (v : JsVal) : Except JsError String :=
  if v.convertible then .ok v.toStr
  else .error (.plain "Cannot convert object to primitive value")

/-- The console method used for a line. -/
inductive LogLevel where
  | log
  | warn
  | error
  deriving DecidableEq

/-- An outgoing HTTP request as handed to `fetch`: `bodyJson` is the value given
    to `JSON.stringify` for the request body. -/
structure HttpRequest where
  url : String
  method : String
  headers : List (String × JsVal)
  bodyJson : JsVal
  timeoutMs : Nat

/-- An observable effect: a console line (its first argument is recorded) or a
    call of `fetch` with a request (the call is recorded; what becomes of it is
    the answer of the world). -/
inductive Effect where
  | console (level : LogLevel) (text : String)
  | fetch (req : HttpRequest)

/-- What a `fetch` call does: it resolves to a response with a status and a body
    (reading the body with `res.text()` may itself fail), or it rejects (network
    error, or abort on time-out).  The errors of `fetch` are built-in errors: they
    carry a message and no `response` property. -/
inductive FetchOutcome where
  | response (status : Nat) (text : Except String String)
  | rejects (message : String)

/-- The environment of one invocation: the answer to each request, given the
    requests made before it, and the successive readings of the clock in
    milliseconds (readings are assumed to stay inside the range of `Date`). -/
structure World where
  fetch : List HttpRequest → HttpRequest → FetchOutcome
  now : Nat → Int

/-- Runtime library functions used by the handlers. -/
structure Platform where
  /-- The call `crypto.createHmac('sha256', key).update(msg).digest('hex')`. -/
  hmacSha256Hex : String → String → String
  /-- The call `JSON.parse(text)`. -/
  jsonParse : String → Except JsError JsVal
  /-- The call `Buffer.from(s, 'base64').toString('utf8')` on a string: never throws. -/
  base64ToUtf8 : String → String
  /-- The same call on an array or an object (read as an array-like of bytes). -/
  bufferFromArrayLike : JsVal → Except JsError String
  /-- The call `new Date(ms).toISOString()`. -/
  toISOString : Int → String

/-- State threaded through a run: the effects so far and the number of clock readings. -/
structure St where
  effects : List Effect
  clockReads : Nat

/-- The HTTP requests among a list of effects, in order. -/
def requestsOf : List Effect → List HttpRequest
  | [] => []
  | .fetch r :: rest => r :: requestsOf rest
  | .console _ _ :: rest => requestsOf rest

/-- The console lines among a list of effects, in order. -/
def linesOf : List Effect → List (LogLevel × String)
  | [] => []
  | .fetch _ :: rest => linesOf rest
  | .console l t :: rest => (l, t) :: linesOf rest

/-- Result of running a computation: a value or a thrown error, with the final state. -/
inductive Res (α : Type) where
  | ok (a : α) (s : St)
  | threw (e : JsError) (s : St)

/-- The final state of a result. -/
def Res.state {α : Type} : Res α → St
  | .ok _ s => s
  | .threw _ s => s

/-- The requests issued in a run. -/
def Res.calls {α : Type} (r : Res α) : List HttpRequest := requestsOf r.state.effects

/-- The console lines written in a run. -/
def Res.lines {α : Type} (r : Res α) : List (LogLevel × String) := linesOf r.state.effects

/-- The returned value, when the run did not throw. -/
def Res.value? {α : Type} : Res α → Option α
  | .ok a _ => some a
  | .threw _ _ => none

/-- Computations of the handlers. -/
def Js (α : Type) : Type := World → St → Res α

namespace Js

/-- Return a value. -/
def ret {α : Type} (a : α) : Js α := fun _ s => .ok a s

/-- Sequencing; a thrown error skips the continuation. -/
def andThen {α β : Type} (m : Js α) (f : α → Js β) : Js β := fun w s =>
  match m w s with
  | .ok a s1 => f a w s1
  | .threw e s1 => .threw e s1

/-- The statement `throw e`. -/
def throwErr {α : Type} (e : JsError) : Js α := fun _ s => .threw e s

/-- The block `try { m } catch (error) { h error }`. -/
def tryCatch {α : Type} (m : Js α) (h : JsError → Js α) : Js α := fun w s =>
  match m w s with
  | .ok a s1 => .ok a s1
  | .threw e s1 => h e w s1

/-- Lift a library call that either returns or throws. -/
def ofExcept {α : Type} : Except JsError α → Js α
  | .ok a => ret a
  | .error e => throwErr e

/-- A console line. -/
def console (level : LogLevel) (text : String) : Js Unit := fun _ s =>
  .ok () { s with effects := s.effects ++ [.console level text] }

/-- The expression `new Date().getTime()`: the next clock reading. -/
def clockNow : Js Int := fun w s =>
  .ok (w.now s.clockReads) { s with clockReads := s.clockReads + 1 }

/-- The conversions to a string that the evaluation of a template literal or of
    a concatenation performs on the given values, in turn: the first value that
    cannot be converted throws its `TypeError`.  The text itself is then written
    with `JsVal.toStr`. -/
def texts : List JsVal → Js Unit
  | [] => ret ()
  | v :: rest => andThen (ofExcept v.toText) (fun _ => texts rest)

end Js

instance : Monad Js where
  pure := Js.ret
  bind := Js.andThen

/-! ## Shared JavaScript operations -/

/-- Property read `v.name`: a `TypeError` on `undefined` and `null`; on an object
    its own property; `undefined` on the other values (the names read by the
    handlers are not properties of primitives or arrays). -/
def getProp (v : JsVal) (name : String) : Except JsError JsVal :=
  match v with
  | .undefined =>
    .error (.plain ("Cannot read properties of undefined (reading " ++ name ++ ")"))
  | .null => .error (.plain ("Cannot read properties of null (reading " ++ name ++ ")"))
  | .obj fields => .ok (JsVal.lookup name fields)
  | _ => .ok .undefined

/-- Optional chaining `v?.name`. -/
def getPropOpt (v : JsVal) (name : String) : JsVal :=
  match v with
  | .obj fields => JsVal.lookup name fields
  | _ => .undefined

/-- The call `JSON.parse(v)`: the argument is first converted to a string. -/
def jsonParse (P : Platform) (v : JsVal) : Except JsError JsVal := do
  let text ← v.toText
  P.jsonParse text

/-- The call `Buffer.from(v, 'base64').toString('utf8')`.  A string is decoded
    (leniently, without throwing); `undefined`, `null`, numbers and booleans are
    rejected with a `TypeError`; arrays and objects are read as array-likes. -/
def bufferFromBase64ToUtf8 (P : Platform) (v : JsVal) : Except JsError String :=
  match v with
  | .str s => .ok (P.base64ToUtf8 s)
  | .arr xs => P.bufferFromArrayLike (.arr xs)
  | .obj fs => P.bufferFromArrayLike (.obj fs)
  | _ => .error (.plain "The first argument must be of type string or an instance of Buffer, ArrayBuffer, or Array or an Array-like Object.")

/-- A resolved `fetch` response. -/
structure FetchResponse where
  status : Nat
  textResult : Except String String

/-- The property `res.ok`: status in the range 200 to 299. -/
def FetchResponse.ok (r : FetchResponse) : Bool := 200 ≤ r.status && r.status ≤ 299

/-- The call `res.text()`. -/
def FetchResponse.text (r : FetchResponse) : Js String :=
  match r.textResult with
  | .ok t => pure t
  | .error message => Js.throwErr (.plain message)

/-- Source `fetchWithTimeout(url, options, timeoutMs)` of the IPN handler: one
    `fetch` with an abort signal; it returns the response or rethrows. -/
def fetchWithTimeout (req : HttpRequest) : Js FetchResponse := fun w s =>
  let s1 : St := { s with effects := s.effects ++ [.fetch req] }
  match w.fetch (requestsOf s.effects) req with
  | .response status text => .ok { status := status, textResult := text } s1
  | .rejects message => .threw (.plain message) s1

/-! ## The IPN handler (`momo-ipn-handler/index.mjs`) -/

/-- The variables read from `process.env` by the IPN handler. -/
structure Env where
  MOMO_ACCESS_KEY : Option String
  MOMO_SECRET_KEY : Option String
  BACKEND_API_URL : Option String
  BACKEND_API_KEY : Option String

/-- The test `!x` on an environment variable: unset or empty. -/
def envFalsy : Option String → Bool
  | none => true
  | some s => s == ""

/-- An environment variable used inside a string expression. -/
def envStr : Option String → String
  | none => "undefined"
  | some s => s

/-- An environment variable as a value. -/
def envVal : Option String → JsVal
  | none => .undefined
  | some s => .str s

/-- The object returned by a handler. -/
structure Response where
  statusCode : Nat
  body : String
  deriving DecidableEq

/-- The response `{ statusCode: 204, body: '' }`. -/
def noContent : Response := { statusCode := 204, body := "" }

/-- Source `calculateExpiryDate(days)`. -/
def calculateExpiryDate (P : Platform) (days : Int) : Js String := do
  let now ← Js.clockNow
  pure (P.toISOString (now + days * 24 * 60 * 60 * 1000))

/-- The destructured fields of the parsed notification. -/
structure IpnData where
  partnerCode : JsVal
  orderId : JsVal
  requestId : JsVal
  amount : JsVal
  orderInfo : JsVal
  orderType : JsVal
  transId : JsVal
  resultCode : JsVal
  message : JsVal
  payType : JsVal
  responseTime : JsVal
  extraData : JsVal
  signature : JsVal

/-- The destructuring `const { partnerCode, .., signature } = ipnData`. -/
def destructureIpn (ipnData : JsVal) : Except JsError IpnData := do
  let partnerCode ← getProp ipnData "partnerCode"
  let orderId ← getProp ipnData "orderId"
  let requestId ← getProp ipnData "requestId"
  let amount ← getProp ipnData "amount"
  let orderInfo ← getProp ipnData "orderInfo"
  let orderType ← getProp ipnData "orderType"
  let transId ← getProp ipnData "transId"
  let resultCode ← getProp ipnData "resultCode"
  let message ← getProp ipnData "message"
  let payType ← getProp ipnData "payType"
  let responseTime ← getProp ipnData "responseTime"
  let extraData ← getProp ipnData "extraData"
  let signature ← getProp ipnData "signature"
  pure { partnerCode, orderId, requestId, amount, orderInfo, orderType, transId,
         resultCode, message, payType, responseTime, extraData, signature }

/-- The reads that open the `try` of the IPN handler:
    `JSON.parse(event.body || '\x7b\x7d')` and the destructuring of the result. -/
def readNotification (P : Platform) (event : JsVal) : Except JsError IpnData := do
  let body ← getProp event "body"
  let ipnData ← jsonParse P (body.orElse (.str "\x7b\x7d"))
  destructureIpn ipnData

/-- The values that the concatenation `rawSignature` converts to strings, in
    the order of the concatenation. -/
def canonicalValues (d : IpnData) : List JsVal :=
  [d.amount, d.extraData, d.message, d.orderId, d.orderInfo, d.orderType, d.partnerCode,
   d.payType, d.requestId, d.responseTime, d.resultCode, d.transId]

/-- The string `rawSignature` of the IPN handler, its twelve values being
    converted to strings. -/
def ipnRawSignature (accessKey : String) (d : IpnData) : String :=
  "accessKey=" ++ accessKey ++
  "&amount=" ++ d.amount.toStr ++
  "&extraData=" ++ d.extraData.toStr ++
  "&message=" ++ d.message.toStr ++
  "&orderId=" ++ d.orderId.toStr ++
  "&orderInfo=" ++ d.orderInfo.toStr ++
  "&orderType=" ++ d.orderType.toStr ++
  "&partnerCode=" ++ d.partnerCode.toStr ++
  "&payType=" ++ d.payType.toStr ++
  "&requestId=" ++ d.requestId.toStr ++
  "&responseTime=" ++ d.responseTime.toStr ++
  "&resultCode=" ++ d.resultCode.toStr ++
  "&transId=" ++ d.transId.toStr

/-- The values read from the decoded `extraData`. -/
structure ExtraData where
  userId : JsVal
  packageType : JsVal
  programId : JsVal

/-- The reads of STEP 3: decode `extraData`, parse it and read the three fields. -/
def readExtraData (P : Platform) (extraData : JsVal) : Except JsError ExtraData := do
  let text ← bufferFromBase64ToUtf8 P extraData
  let extraDataDecoded ← jsonParse P (.str text)
  let userId ← getProp extraDataDecoded "userId"
  let packageType ← getProp extraDataDecoded "packageType"
  let programId ← getProp extraDataDecoded "programId"
  pure { userId, packageType, programId }

/-- The body of the `try` of STEP 3.  The three log lines convert `userId`,
    `packageType` and `programId` to strings, which can throw. -/
def parseExtraData (P : Platform) (extraData : JsVal) : Js ExtraData := do
  let x ← Js.ofExcept (readExtraData P extraData)
  Js.texts [x.userId]
  Js.console .log ("👤 User ID: " ++ x.userId.toStr)
  Js.texts [x.packageType]
  Js.console .log ("📦 Package Type: " ++ x.packageType.toStr)
  Js.texts [x.programId.orElse (.str "N/A (direct subscription)")]
  Js.console .log
    ("🎯 Program ID: " ++ (x.programId.orElse (.str "N/A (direct subscription)")).toStr)
  if !x.userId.truthy || !x.packageType.truthy then
    Js.throwErr (.plain "Missing userId or packageType in extraData")
  else
    pure x

/-- STEP 3 with its `catch`: `none` stands for the early `return` of the catch block. -/
def stepParseExtraData (P : Platform) (extraData : JsVal) : Js (Option ExtraData) :=
  Js.tryCatch
    (do
      let x ← parseExtraData P extraData
      pure (some x))
    (fun _error => do
      Js.console .error "❌ Error parsing extraData:"
      Js.console .error ("ExtraData received: " ++ extraData.toStr)
      pure none)

/-- The request of STEP 4A. -/
def upgradeRequest (env : Env) (x : ExtraData) : HttpRequest :=
  { url := envStr env.BACKEND_API_URL ++ "/api/programs/" ++ x.programId.toStr ++
      "/upgrade-from-trial"
    method := "POST"
    headers := [("X-User-Id", x.userId), ("X-User-Group", .str "CUSTOMER"),
                ("X-API-Key", envVal env.BACKEND_API_KEY),
                ("Content-Type", .str "application/json")]
    bodyJson := .obj []
    timeoutMs := 10000 }

/-- STEP 4A: upgrade the program from trial when `programId` is truthy; any
    failure is logged and swallowed. -/
def stepUpgrade (env : Env) (x : ExtraData) : Js Unit :=
  if x.programId.truthy then do
    Js.console .log ("🔄 Upgrading program " ++ x.programId.toStr ++ " from trial...")
    Js.tryCatch
      (do
        let res ← fetchWithTimeout (upgradeRequest env x)
        if !res.ok then
          let text ← res.text
          Js.throwErr (.plain ("Program upgrade failed: " ++ toString res.status ++ " " ++ text))
        else
          Js.console .log ("✅ Program " ++ x.programId.toStr ++ " upgraded from trial successfully"))
      (fun _ => do
        Js.console .error "❌ Error upgrading program from trial:"
        Js.console .warn "⚠️ Continuing to update User Service despite Program Service error")
  else
    pure ()

/-- The object `subscriptionData` of STEP 4B, the three dates being given. -/
def subscriptionData (d : IpnData) (x : ExtraData)
    (subscriptionExpiresAt lastPaymentDate nextBillingDate : String) : JsVal :=
  .obj [("subscriptionTier", x.packageType),
        ("subscriptionStatus", .str "ACTIVE"),
        ("subscriptionExpiresAt", .str subscriptionExpiresAt),
        ("paymentMethod", .str "MOMO"),
        ("lastPaymentId", .str d.transId.toStr),
        ("lastPaymentDate", .str lastPaymentDate),
        ("lastPaymentAmount", d.amount),
        ("nextBillingDate", .str nextBillingDate),
        ("autoRenewal", .bool false)]

/-- The request of STEP 4B. -/
def patchRequest (env : Env) (x : ExtraData) (data : JsVal) : HttpRequest :=
  { url := envStr env.BACKEND_API_URL ++ "/api/user-info"
    method := "PATCH"
    headers := [("X-User-Id", x.userId), ("X-API-Key", envVal env.BACKEND_API_KEY),
                ("Content-Type", .str "application/json")]
    bodyJson := data
    timeoutMs := 10000 }

/-- The `catch` block of STEP 4B. -/
def patchCatch (d : IpnData) (x : ExtraData) (error : JsError) : Js Unit :=
  if (getPropOpt error.response "status").strictEqNum 409 then
    Js.console .log
      ("⚠️ Transaction " ++ d.transId.toStr ++ " already exists (409 Conflict) - idempotency")
  else do
    Js.console .error "❌ Error updating subscription:"
    if error.response.truthy then
      Js.console .error "User Service Error:"
    else
      pure ()
    Js.console .error
      ("⚠️ MANUAL CHECK REQUIRED: TransId " ++ d.transId.toStr ++ ", User " ++ x.userId.toStr ++
        ", Package " ++ x.packageType.toStr ++ ", Amount " ++ d.amount.toStr)

/-- STEP 4B: patch the subscription of the user; any failure is logged and swallowed. -/
def stepPatch (P : Platform) (env : Env) (d : IpnData) (x : ExtraData) : Js Unit :=
  Js.tryCatch
    (do
      let subscriptionExpiresAt ← calculateExpiryDate P 30
      let lastPaymentDate ← Js.clockNow
      let nextBillingDate ← calculateExpiryDate P 30
      let data := subscriptionData d x subscriptionExpiresAt (P.toISOString lastPaymentDate)
        nextBillingDate
      Js.console .log "📤 Updating User Service with subscription data:"
      let updateResponse ← fetchWithTimeout (patchRequest env x data)
      if !updateResponse.ok then
        let text ← updateResponse.text
        Js.throwErr
          (.plain ("User Service update failed: " ++ toString updateResponse.status ++ " " ++ text))
      else
        let _updateData ← updateResponse.text
        Js.console .log "✅ User subscription updated successfully:"
        Js.console .log
          ("🎉 User " ++ x.userId.toStr ++ " is now " ++ x.packageType.toStr ++ " member!")
        Js.console .log
          ("💳 Payment ID: " ++ d.transId.toStr ++ ", Amount: " ++ d.amount.toStr ++ " VND")
        Js.console .log ("📅 Subscription expires: " ++ subscriptionExpiresAt))
    (patchCatch d x)

/-- STEP 4: the two downstream updates on `resultCode === 0`, a log otherwise. -/
def stepProcess (P : Platform) (env : Env) (d : IpnData) (x : ExtraData) : Js Unit :=
  if d.resultCode.strictEqNum 0 then do
    Js.console .log
      ("✅ Payment successful - updating user " ++ x.userId.toStr ++ " to " ++ x.packageType.toStr)
    stepUpgrade env x
    stepPatch P env d x
  else do
    Js.console .log
      ("❌ Payment failed - ResultCode: " ++ d.resultCode.toStr ++ ", Message: " ++ d.message.toStr)
    Js.console .log
      ("Order " ++ d.orderId.toStr ++ " for user " ++ x.userId.toStr ++ " was not successful")

/-- What follows the signature check: STEP 3, STEP 4 and STEP 5. -/
def afterSignature (P : Platform) (env : Env) (d : IpnData) : Js Response := do
  Js.console .log "✅ Signature validation passed"
  let decoded ← stepParseExtraData P d.extraData
  match decoded with
  | none => pure noContent
  | some x =>
    stepProcess P env d x
    Js.console .log "✅ IPN processing complete - returning 204"
    pure noContent

/-- The body of the outer `try` of the IPN handler. -/
def handlerTry (P : Platform) (env : Env) (event : JsVal) : Js Response :=
  if envFalsy env.MOMO_ACCESS_KEY || envFalsy env.MOMO_SECRET_KEY ||
      envFalsy env.BACKEND_API_URL || envFalsy env.BACKEND_API_KEY then do
    Js.console .error "❌ Missing required environment variables"
    pure noContent
  else do
    let d ← Js.ofExcept (readNotification P event)
    Js.texts [d.orderId, d.transId, d.resultCode]
    Js.console .log
      ("📦 IPN Data - Order: " ++ d.orderId.toStr ++ ", TransId: " ++ d.transId.toStr ++
        ", ResultCode: " ++ d.resultCode.toStr)
    Js.texts (canonicalValues d)
    let rawSignature := ipnRawSignature (envStr env.MOMO_ACCESS_KEY) d
    let expectedSignature := P.hmacSha256Hex (envStr env.MOMO_SECRET_KEY) rawSignature
    Js.console .log ("🔐 Expected signature: " ++ expectedSignature)
    Js.texts [d.signature]
    Js.console .log ("🔐 Received signature: " ++ d.signature.toStr)
    if !d.signature.strictEqStr expectedSignature then do
      Js.console .error "❌ SECURITY ALERT: Invalid signature - possible security breach!"
      Js.console .error ("Raw signature string: " ++ rawSignature)
      pure noContent
    else
      afterSignature P env d

/-- Source `handler` of the IPN lambda. -/
def handler (P : Platform) (env : Env) (event : JsVal) : Js Response := do
  Js.console .log "📥 IPN Callback Received:"
  Js.tryCatch (handlerTry P env event)
    (fun _ => do
      Js.console .error "❌ Unexpected error in IPN handler:"
      Js.console .error "Error stack:"
      pure noContent)

/-- One invocation of the IPN handler, from the empty trace. -/
def runIpn (P : Platform) (env : Env) (w : World) (event : JsVal) : Res Response :=
  handler P env event w { effects := [], clockReads := 0 }

/-! ## What the IPN handler is expected to request -/

/-- The test of the environment variables that opens the handler. -/
def envMissing (env : Env) : Bool :=
  envFalsy env.MOMO_ACCESS_KEY || envFalsy env.MOMO_SECRET_KEY ||
    envFalsy env.BACKEND_API_URL || envFalsy env.BACKEND_API_KEY

/-- The value `expectedSignature` of the handler. -/
def expectedSignature (P : Platform) (env : Env) (d : IpnData) : String :=
  P.hmacSha256Hex (envStr env.MOMO_SECRET_KEY) (ipnRawSignature (envStr env.MOMO_ACCESS_KEY) d)

/-- The signature check passes: `signature !== expectedSignature` is false. -/
def signatureValid (P : Platform) (env : Env) (d : IpnData) : Bool :=
  d.signature.strictEqStr (expectedSignature P env d)

/-- The string conversions of the handler before STEP 3 return: those of the
    twelve values of `rawSignature` (among them the three of the first log line)
    and that of `signature`. -/
def IpnData.convertible (d : IpnData) : Bool :=
  (canonicalValues d).all JsVal.convertible && d.signature.convertible

/-- The string conversions of the three log lines of STEP 3 return. -/
def ExtraData.convertible (x : ExtraData) : Bool :=
  x.userId.convertible && x.packageType.convertible &&
    (x.programId.orElse (.str "N/A (direct subscription)")).convertible

/-- The outcome of STEP 3: the payload when the reads succeed, the three values
    can be written into the log lines and both `userId` and `packageType` are
    truthy. -/
def decodeExtraData (P : Platform) (extraData : JsVal) : Option ExtraData :=
  match readExtraData P extraData with
  | .ok x =>
    if !x.convertible then none
    else if !x.userId.truthy || !x.packageType.truthy then none else some x
  | .error _ => none

/-- The object `subscriptionData` when the first of its three clock readings is
    reading number `k`. -/
def patchData (P : Platform) (w : World) (d : IpnData) (x : ExtraData) (k : Nat) : JsVal :=
  subscriptionData d x (P.toISOString (w.now k + 30 * 24 * 60 * 60 * 1000))
    (P.toISOString (w.now (k + 1)))
    (P.toISOString (w.now (k + 2) + 30 * 24 * 60 * 60 * 1000))

/-- The requests of STEP 4A. -/
def upgradeCalls (env : Env) (x : ExtraData) : List HttpRequest :=
  if x.programId.truthy then [upgradeRequest env x] else []

/-- The requests of STEP 4. -/
def processCalls (P : Platform) (env : Env) (w : World) (d : IpnData) (x : ExtraData) (k : Nat) :
    List HttpRequest :=
  if d.resultCode.strictEqNum 0 then
    upgradeCalls env x ++ [patchRequest env x (patchData P w d x k)]
  else []

/-- The requests of one invocation. -/
def expectedCalls (P : Platform) (env : Env) (w : World) (event : JsVal) : List HttpRequest :=
  if envMissing env then []
  else
    match readNotification P event with
    | .error _ => []
    | .ok d =>
      if !d.convertible then []
      else if !signatureValid P env d then []
      else
        match decodeExtraData P d.extraData with
        | none => []
        | some x => processCalls P env w d x 0

/-- The requests with a given HTTP method. -/
def withMethod (method : String) (calls : List HttpRequest) : List HttpRequest :=
  calls.filter (fun r => r.method == method)

/-- A correctly signed, successful notification read by a configured handler,
    with its decoded payload; the fields of the notification can be converted
    to strings. -/
def SuccessfulNotification (P : Platform) (env : Env) (event : JsVal) (d : IpnData)
    (x : ExtraData) : Prop :=
  envMissing env = false ∧ readNotification P event = .ok d ∧ signatureValid P env d = true ∧
    d.resultCode = .num 0 ∧ decodeExtraData P d.extraData = some x ∧ d.convertible = true

/-! ## Text functions of Node.js -/

/-- The UTF-8 bytes of one character. -/
def utf8EncodeChar (c : Char) : List Nat :=
  let v := c.toNat
  if v < 128 then [v]
  else if v < 2048 then [192 + v / 64, 128 + v % 64]
  else if v < 65536 then [224 + v / 4096, 128 + v / 64 % 64, 128 + v % 64]
  else [240 + v / 262144, 128 + v / 4096 % 64, 128 + v / 64 % 64, 128 + v % 64]

/-- The call `Buffer.from(text)` (UTF-8 is the default encoding). -/
def utf8Encode : List Char → List Nat
  | [] => []
  | c :: cs => utf8EncodeChar c ++ utf8Encode cs

/-- A multi-byte sequence in progress: the bits read so far, the number of
    continuation bytes still needed and the range allowed for the next byte. -/
structure Utf8Pending where
  bits : Nat
  needed : Nat
  lower : Nat
  upper : Nat

/-- U+FFFD, which replaces every ill-formed sequence. -/
def replacementChar : Char := Char.ofNat 65533

/-- A byte read outside a sequence: an ASCII character, the start of a
    sequence, or an ill-formed byte. -/
def utf8Lead (b : Nat) : Char ⊕ Utf8Pending :=
  if b < 128 then .inl (Char.ofNat b)
  else if 194 ≤ b ∧ b ≤ 223 then .inr { bits := b - 192, needed := 1, lower := 128, upper := 191 }
  else if 224 ≤ b ∧ b ≤ 239 then
    .inr { bits := b - 224, needed := 2, lower := if b = 224 then 160 else 128,
           upper := if b = 237 then 159 else 191 }
  else if 240 ≤ b ∧ b ≤ 244 then
    .inr { bits := b - 240, needed := 3, lower := if b = 240 then 144 else 128,
           upper := if b = 244 then 143 else 191 }
  else .inl replacementChar

/-- The decoder behind `buf.toString('utf8')`: it never fails. -/
def utf8DecodeFrom : Option Utf8Pending → List Nat → List Char
  | none, [] => []
  | some _, [] => [replacementChar]
  | none, b :: rest =>
    match utf8Lead b with
    | .inl c => c :: utf8DecodeFrom none rest
    | .inr p => utf8DecodeFrom (some p) rest
  | some p, b :: rest =>
    if p.lower ≤ b ∧ b ≤ p.upper then
      if p.needed = 1 then Char.ofNat (p.bits * 64 + (b - 128)) :: utf8DecodeFrom none rest
      else
        utf8DecodeFrom
          (some { bits := p.bits * 64 + (b - 128), needed := p.needed - 1, lower := 128,
                  upper := 191 }) rest
    else
      replacementChar ::
        (match utf8Lead b with
          | .inl c => c :: utf8DecodeFrom none rest
          | .inr q => utf8DecodeFrom (some q) rest)

/-- The call `buf.toString('utf8')`. -/
def utf8Decode (bytes : List Nat) : List Char := utf8DecodeFrom none bytes

/-- The character of a 6-bit value in the standard base64 alphabet. -/
def base64Char (n : Nat) : Char :=
  if n < 26 then Char.ofNat (65 + n)
  else if n < 52 then Char.ofNat (71 + n)
  else if n < 62 then Char.ofNat (n - 4)
  else if n = 62 then Char.ofNat 43
  else Char.ofNat 47

/-- The 6-bit value of a character of the standard or of the URL-safe alphabet. -/
def base64Value (c : Char) : Option Nat :=
  let v := c.toNat
  if 65 ≤ v ∧ v ≤ 90 then some (v - 65)
  else if 97 ≤ v ∧ v ≤ 122 then some (v - 71)
  else if 48 ≤ v ∧ v ≤ 57 then some (v + 4)
  else if v = 43 ∨ v = 45 then some 62
  else if v = 47 ∨ v = 95 then some 63
  else none

/-- The call `buf.toString('base64')`: standard alphabet, padded with `=`. -/
def base64Encode : List Nat → List Char
  | a :: b :: c :: rest =>
    base64Char (a / 4) :: base64Char (a % 4 * 16 + b / 16) ::
      base64Char (b % 16 * 4 + c / 64) :: base64Char (c % 64) :: base64Encode rest
  | [a, b] => [base64Char (a / 4), base64Char (a % 4 * 16 + b / 16), base64Char (b % 16 * 4),
      Char.ofNat 61]
  | [a] => [base64Char (a / 4), base64Char (a % 4 * 16), Char.ofNat 61, Char.ofNat 61]
  | [] => []

/-- The 6-bit values read by the decoder of Node.js: a character outside the
    alphabets is skipped and reading stops at the first `=`. -/
def base64Sextets : List Char → List Nat
  | [] => []
  | c :: rest =>
    if c.toNat = 61 then []
    else
      match base64Value c with
      | some v => v :: base64Sextets rest
      | none => base64Sextets rest

/-- The bytes of a sequence of 6-bit values; an incomplete last group gives the
    bytes that it determines. -/
def base64Bytes : List Nat → List Nat
  | s0 :: s1 :: s2 :: s3 :: rest =>
    (s0 * 4 + s1 / 16) :: (s1 % 16 * 16 + s2 / 4) :: (s2 % 4 * 64 + s3) :: base64Bytes rest
  | [s0, s1, s2] => [s0 * 4 + s1 / 16, s1 % 16 * 16 + s2 / 4]
  | [s0, s1] => [s0 * 4 + s1 / 16]
  | _ => []

/-- The call `Buffer.from(text, 'base64')`: lenient, it never fails. -/
def base64Decode (cs : List Char) : List Nat := base64Bytes (base64Sextets cs)

/-- Lower-case hexadecimal digit. -/
def hexDigit (n : Nat) : Char := if n < 10 then Char.ofNat (48 + n) else Char.ofNat (87 + n)

/-- `QuoteJSONString` on one character: the quote, the backslash and the control
    characters are escaped. -/
def quoteChar (c : Char) : List Char :=
  let v := c.toNat
  if v = 34 then [Char.ofNat 92, Char.ofNat 34]
  else if v = 92 then [Char.ofNat 92, Char.ofNat 92]
  else if v = 8 then [Char.ofNat 92, Char.ofNat 98]
  else if v = 9 then [Char.ofNat 92, Char.ofNat 116]
  else if v = 10 then [Char.ofNat 92, Char.ofNat 110]
  else if v = 12 then [Char.ofNat 92, Char.ofNat 102]
  else if v = 13 then [Char.ofNat 92, Char.ofNat 114]
  else if v < 32 then
    [Char.ofNat 92, Char.ofNat 117, Char.ofNat 48, Char.ofNat 48, hexDigit (v / 16),
      hexDigit (v % 16)]
  else [c]

/-- The characters of a string, escaped, without the enclosing quotes. -/
def quoteChars : List Char → List Char
  | [] => []
  | c :: cs => quoteChar c ++ quoteChars cs

/-- `QuoteJSONString`. -/
def jsonQuote (s : String) : List Char := Char.ofNat 34 :: (quoteChars s.data ++ [Char.ofNat 34])

mutual
/-- `JSON.stringify` of a value inside an array or an object (`undefined` as an
    array item is written `null`, and so is a number that is not finite). -/
def stringifyVal : JsVal → List Char
  | .undefined => "null".data
  | .null => "null".data
  | .bool true => "true".data
  | .bool false => "false".data
  | .num n => if finiteNumber n.natAbs then (numberToString n).data else "null".data
  | .str s => jsonQuote s
  | .arr xs => Char.ofNat 91 :: (stringifyItems xs ++ [Char.ofNat 93])
  | .obj fs => Char.ofNat 123 :: (stringifyFields fs ++ [Char.ofNat 125])
/-- The items of an array, separated by commas. -/
def stringifyItems : List JsVal → List Char
  | [] => []
  | [x] => stringifyVal x
  | x :: y :: rest => stringifyVal x ++ Char.ofNat 44 :: stringifyItems (y :: rest)
/-- The properties of an object, separated by commas.  A property whose
    value is `undefined` is left out. -/
def stringifyFields : List (String × JsVal) → List Char
  | [] => []
  | (_, .undefined) :: rest => stringifyFields rest
  | (k, v) :: rest =>
    jsonQuote k ++ Char.ofNat 58 :: (stringifyVal v ++ stringifyMore rest)
/-- The properties after the first written one, each preceded by a comma. -/
def stringifyMore : List (String × JsVal) → List Char
  | [] => []
  | (_, .undefined) :: rest => stringifyMore rest
  | (k, v) :: rest =>
    Char.ofNat 44 :: (jsonQuote k ++ Char.ofNat 58 :: (stringifyVal v ++ stringifyMore rest))
end


/-- JSON white space: space, tab, line feed, carriage return. -/
def isJsonWs (c : Char) : Bool :=
  c.toNat = 32 || c.toNat = 9 || c.toNat = 10 || c.toNat = 13

/-- Skip white space. -/
def skipWs : List Char → List Char
  | [] => []
  | c :: rest => if isJsonWs c then skipWs rest else c :: rest

/-- The value of a hexadecimal digit. -/
def hexValue (c : Char) : Option Nat :=
  let v := c.toNat
  if 48 ≤ v ∧ v ≤ 57 then some (v - 48)
  else if 97 ≤ v ∧ v ≤ 102 then some (v - 87)
  else if 65 ≤ v ∧ v ≤ 70 then some (v - 55)
  else none

/-- The value of four hexadecimal digits. -/
def hex4 (a b c d : Char) : Option Nat :=
  match hexValue a, hexValue b, hexValue c, hexValue d with
  | some x, some y, some z, some t => some (x * 4096 + y * 256 + z * 16 + t)
  | _, _, _, _ => none

/-- The character denoted by a simple escape `\c`. -/
def simpleEscape (e : Char) : Option Char :=
  let v := e.toNat
  if v = 34 then some (Char.ofNat 34)
  else if v = 92 then some (Char.ofNat 92)
  else if v = 47 then some (Char.ofNat 47)
  else if v = 98 then some (Char.ofNat 8)
  else if v = 102 then some (Char.ofNat 12)
  else if v = 110 then some (Char.ofNat 10)
  else if v = 114 then some (Char.ofNat 13)
  else if v = 116 then some (Char.ofNat 9)
  else none

/-- The rest of a string literal after its opening quote: the code units of
    the string (a character written as such counts as one unit) and what
    follows the closing quote. -/
def parseStringBody : List Char → Option (List Nat × List Char)
  | [] => none
  | c :: rest =>
    if c.toNat = 34 then some ([], rest)
    else if c.toNat = 92 then
      match rest with
      | [] => none
      | e :: rest2 =>
        if e.toNat = 117 then
          match rest2 with
          | h1 :: h2 :: h3 :: h4 :: rest3 =>
            match hex4 h1 h2 h3 h4 with
            | none => none
            | some v =>
              match parseStringBody rest3 with
              | some (s, r) => some (v :: s, r)
              | none => none
          | _ => none
        else
          match simpleEscape e with
          | none => none
          | some x =>
            match parseStringBody rest2 with
            | some (s, r) => some (x.toNat :: s, r)
            | none => none
    else if c.toNat < 32 then none
    else
      match parseStringBody rest with
      | some (s, r) => some (c.toNat :: s, r)
      | none => none

/-- The character of one code unit; a lone surrogate, which a Lean string
    cannot hold, is read as U+FFFD. -/
def unitChar (v : Nat) : Char :=
  if 55296 ≤ v ∧ v ≤ 57343 then replacementChar else Char.ofNat v

/-- The characters of a sequence of code units: a high surrogate followed by a
    low surrogate is one character. -/
def unitsToChars : List Nat → List Char
  | [] => []
  | [v] => [unitChar v]
  | v :: w :: rest =>
    if 55296 ≤ v ∧ v ≤ 56319 ∧ 56320 ≤ w ∧ w ≤ 57343 then
      Char.ofNat (65536 + (v - 55296) * 1024 + (w - 56320)) :: unitsToChars rest
    else unitChar v :: unitsToChars (w :: rest)

/-- A string literal after its opening quote. -/
def parseString (cs : List Char) : Option (String × List Char) :=
  match parseStringBody cs with
  | some (units, r) => some (String.mk (unitsToChars units), r)
  | none => none

/-- Read decimal digits, accumulating their value. -/
def parseDigits : List Char → Nat → Nat × List Char
  | [], acc => (acc, [])
  | c :: rest, acc =>
    if 48 ≤ c.toNat ∧ c.toNat ≤ 57 then parseDigits rest (acc * 10 + (c.toNat - 48))
    else (acc, c :: rest)

/-- Does a fraction or an exponent follow? -/
def fractionOrExponentAhead : List Char → Bool
  | [] => false
  | c :: _ => c.toNat = 46 || c.toNat = 101 || c.toNat = 69

/-- An unsigned JSON integer: `0`, or a non-zero digit followed by digits.  A
    number with a fraction or an exponent is outside the model and is not read. -/
def parseNatural : List Char → Option (Nat × List Char)
  | [] => none
  | c :: rest =>
    if c.toNat = 48 then
      if fractionOrExponentAhead rest then none else some (0, rest)
    else if 49 ≤ c.toNat ∧ c.toNat ≤ 57 then
      let r := parseDigits rest (c.toNat - 48)
      if fractionOrExponentAhead r.2 then none else some r
    else none

/-- A JSON integer. -/
def parseNumber : List Char → Option (JsVal × List Char)
  | [] => none
  | c :: rest =>
    if c.toNat = 45 then
      match parseNatural rest with
      | some (n, r) => some (.num (-(n : Int)), r)
      | none => none
    else
      match parseNatural (c :: rest) with
      | some (n, r) => some (.num (n : Int), r)
      | none => none

/-- Remove a given word from the front of the input. -/
def dropWord : List Char → List Char → Option (List Char)
  | [], cs => some cs
  | _ :: _, [] => none
  | x :: word, c :: cs => if x = c then dropWord word cs else none

mutual
/-- A JSON value, with what follows it.  The first argument bounds the number
    of nested calls. -/
def parseValue : Nat → List Char → Option (JsVal × List Char)
  | 0, _ => none
  | fuel + 1, cs =>
    match skipWs cs with
    | [] => none
    | c :: rest =>
      if c.toNat = 123 then
        match skipWs rest with
        | [] => none
        | c2 :: rest2 =>
          if c2.toNat = 125 then some (.obj [], rest2)
          else
            match parseMembers fuel (c2 :: rest2) with
            | some (fs, r) => some (.obj fs, r)
            | none => none
      else if c.toNat = 91 then
        match skipWs rest with
        | [] => none
        | c2 :: rest2 =>
          if c2.toNat = 93 then some (.arr [], rest2)
          else
            match parseElements fuel (c2 :: rest2) with
            | some (xs, r) => some (.arr xs, r)
            | none => none
      else if c.toNat = 34 then
        match parseString rest with
        | some (s, r) => some (.str s, r)
        | none => none
      else if c.toNat = 116 then
        match dropWord "rue".data rest with
        | some r => some (.bool true, r)
        | none => none
      else if c.toNat = 102 then
        match dropWord "alse".data rest with
        | some r => some (.bool false, r)
        | none => none
      else if c.toNat = 110 then
        match dropWord "ull".data rest with
        | some r => some (.null, r)
        | none => none
      else parseNumber (c :: rest)
/-- The members of an object up to and including its closing brace. -/
def parseMembers : Nat → List Char → Option (List (String × JsVal) × List Char)
  | 0, _ => none
  | fuel + 1, cs =>
    match skipWs cs with
    | [] => none
    | q :: rest =>
      if q.toNat = 34 then
        match parseString rest with
        | none => none
        | some (k, r1) =>
          match skipWs r1 with
          | [] => none
          | colon :: r2 =>
            if colon.toNat = 58 then
              match parseValue fuel r2 with
              | none => none
              | some (v, r3) =>
                match skipWs r3 with
                | [] => none
                | d :: r4 =>
                  if d.toNat = 44 then
                    match parseMembers fuel r4 with
                    | some (fs, r5) => some ((k, v) :: fs, r5)
                    | none => none
                  else if d.toNat = 125 then some ([(k, v)], r4)
                  else none
            else none
      else none
/-- The elements of an array up to and including its closing bracket. -/
def parseElements : Nat → List Char → Option (List JsVal × List Char)
  | 0, _ => none
  | fuel + 1, cs =>
    match parseValue fuel cs with
    | none => none
    | some (v, r1) =>
      match skipWs r1 with
      | [] => none
      | d :: r2 =>
        if d.toNat = 44 then
          match parseElements fuel r2 with
          | some (xs, r3) => some (v :: xs, r3)
          | none => none
        else if d.toNat = 93 then some ([v], r2)
        else none
end

/-- A complete JSON text: one value, white space allowed around it. -/
def parseJsonText (cs : List Char) : Option JsVal :=
  match parseValue (cs.length + 1) cs with
  | some (v, rest) => if (skipWs rest).isEmpty then some v else none
  | none => none

/-- The call `JSON.parse(text)` of Node.js. -/
def nodeJsonParse (text : String) : Except JsError JsVal :=
  match parseJsonText text.data with
  | some v => .ok v
  | none => .error (.plain "Unexpected token in JSON")

/-- The call `JSON.stringify(v)` on a value other than `undefined`. -/
def jsonStringify (v : JsVal) : String := String.mk (stringifyVal v)

/-- The call `Buffer.from(text).toString('base64')`. -/
def utf8ToBase64 (text : String) : String := String.mk (base64Encode (utf8Encode text.data))

/-- The call `Buffer.from(text, 'base64').toString('utf8')` of Node.js. -/
def nodeBase64ToUtf8 (text : String) : String := String.mk (utf8Decode (base64Decode text.data))

/-- Padded base64 in the sense of RFC 4648, section 4: characters of the
    standard alphabet, at most two `=` at the very end, a length that is a
    multiple of four. -/
def wellFormedBase64 (text : String) : Bool :=
  let cs := text.data
  let body := cs.takeWhile (fun c => c.toNat != 61)
  let padding := cs.dropWhile (fun c => c.toNat != 61)
  cs.length % 4 == 0 && padding.length ≤ 2 && padding.all (fun c => c.toNat == 61) &&
    body.all (fun c => (base64Value c).isSome && c.toNat != 45 && c.toNat != 95)

/-! ## HMAC-SHA256 (`crypto.createHmac('sha256', key)`) -/

/-- Rotate a 32-bit word to the right. -/
def rotr32 (x n : Nat) : Nat := (x >>> n) ||| ((x <<< (32 - n)) &&& 4294967295)

/-- Addition of 32-bit words. -/
def add32 (a b : Nat) : Nat := (a + b) % 4294967296

/-- The round constants of SHA-256. -/
def sha256K : List Nat := [
  0x428a2f98, 0x71374491, 0xb5c0fbcf, 0xe9b5dba5, 0x3956c25b, 0x59f111f1, 0x923f82a4, 0xab1c5ed5,
  0xd807aa98, 0x12835b01, 0x243185be, 0x550c7dc3, 0x72be5d74, 0x80deb1fe, 0x9bdc06a7, 0xc19bf174,
  0xe49b69c1, 0xefbe4786, 0x0fc19dc6, 0x240ca1cc, 0x2de92c6f, 0x4a7484aa, 0x5cb0a9dc, 0x76f988da,
  0x983e5152, 0xa831c66d, 0xb00327c8, 0xbf597fc7, 0xc6e00bf3, 0xd5a79147, 0x06ca6351, 0x14292967,
  0x27b70a85, 0x2e1b2138, 0x4d2c6dfc, 0x53380d13, 0x650a7354, 0x766a0abb, 0x81c2c92e, 0x92722c85,
  0xa2bfe8a1, 0xa81a664b, 0xc24b8b70, 0xc76c51a3, 0xd192e819, 0xd6990624, 0xf40e3585, 0x106aa070,
  0x19a4c116, 0x1e376c08, 0x2748774c, 0x34b0bcb5, 0x391c0cb3, 0x4ed8aa4a, 0x5b9cca4f, 0x682e6ff3,
  0x748f82ee, 0x78a5636f, 0x84c87814, 0x8cc70208, 0x90befffa, 0xa4506ceb, 0xbef9a3f7, 0xc67178f2]

/-- The eight working words of SHA-256. -/
structure ShaState where
  a : Nat
  b : Nat
  c : Nat
  d : Nat
  e : Nat
  f : Nat
  g : Nat
  h : Nat

/-- The initial hash value. -/
def sha256Init : ShaState :=
  { a := 0x6a09e667, b := 0xbb67ae85, c := 0x3c6ef372, d := 0xa54ff53a,
    e := 0x510e527f, f := 0x9b05688c, g := 0x1f83d9ab, h := 0x5be0cd19 }

/-- One round, with round constant `k` and schedule word `w`. -/
def shaRound (s : ShaState) (k w : Nat) : ShaState :=
  match s with
  | ⟨a, b, c, d, e, f, g, h⟩ =>
    let s1 := rotr32 e 6 ^^^ rotr32 e 11 ^^^ rotr32 e 25
    let ch := (e &&& f) ^^^ ((e ^^^ 4294967295) &&& g)
    let t1 := add32 (add32 (add32 (add32 h s1) ch) k) w
    let s0 := rotr32 a 2 ^^^ rotr32 a 13 ^^^ rotr32 a 22
    let maj := (a &&& b) ^^^ (a &&& c) ^^^ (b &&& c)
    let t2 := add32 s0 maj
    ⟨add32 t1 t2, a, b, c, add32 d t1, e, f, g⟩

/-- The schedule word that follows a window of sixteen schedule words. -/
def shaNextWord (win : List Nat) : Nat :=
  match win with
  | w0 :: w1 :: _ :: _ :: _ :: _ :: _ :: _ :: _ :: w9 :: _ :: _ :: _ :: _ :: w14 :: _ =>
    let sg0 := rotr32 w1 7 ^^^ rotr32 w1 18 ^^^ (w1 >>> 3)
    let sg1 := rotr32 w14 17 ^^^ rotr32 w14 19 ^^^ (w14 >>> 10)
    add32 (add32 (add32 sg1 w9) sg0) w0
  | _ => 0

/-- The rounds for the remaining constants; `win` holds the next sixteen schedule words. -/
def shaRounds : List Nat → List Nat → ShaState → ShaState
  | [], _, s => s
  | k :: ks, win, s =>
    shaRounds ks (win.tail ++ [shaNextWord win]) (shaRound s k (win.headD 0))

/-- The compression function on one block of sixteen words. -/
def shaCompress (s : ShaState) (block : List Nat) : ShaState :=
  let r := shaRounds sha256K block s
  { a := add32 s.a r.a, b := add32 s.b r.b, c := add32 s.c r.c, d := add32 s.d r.d,
    e := add32 s.e r.e, f := add32 s.f r.f, g := add32 s.g r.g, h := add32 s.h r.h }

/-- Big-endian 32-bit words of a byte sequence. -/
def shaWords : List Nat → List Nat
  | a :: b :: c :: d :: rest => (a * 16777216 + b * 65536 + c * 256 + d) :: shaWords rest
  | _ => []

/-- Hash `n` blocks. -/
def shaBlocks : Nat → List Nat → ShaState → ShaState
  | 0, _, s => s
  | n + 1, ws, s => shaBlocks n (ws.drop 16) (shaCompress s (ws.take 16))

/-- The `k` low bytes of a number, most significant first. -/
def bigEndian (n k : Nat) : List Nat := (List.range k).reverse.map (fun i => (n >>> (8 * i)) % 256)

/-- The padding of SHA-256: a one bit, zeros, and the length in bits on eight bytes. -/
def shaPad (msg : List Nat) : List Nat :=
  msg ++ [128] ++ List.replicate ((119 - msg.length % 64) % 64) 0 ++ bigEndian (msg.length * 8) 8

/-- SHA-256 of a byte sequence. -/
def sha256 (msg : List Nat) : List Nat :=
  let p := shaPad msg
  let s := shaBlocks (p.length / 64) (shaWords p) sha256Init
  bigEndian s.a 4 ++ bigEndian s.b 4 ++ bigEndian s.c 4 ++ bigEndian s.d 4 ++
    bigEndian s.e 4 ++ bigEndian s.f 4 ++ bigEndian s.g 4 ++ bigEndian s.h 4

/-- HMAC with SHA-256 (block size 64). -/
def hmacSha256 (key msg : List Nat) : List Nat :=
  let k0 := if key.length > 64 then sha256 key else key
  let k := k0 ++ List.replicate (64 - k0.length) 0
  sha256 (k.map (fun b => b ^^^ 0x5c) ++ sha256 (k.map (fun b => b ^^^ 0x36) ++ msg))

/-- Lower-case hexadecimal text of a byte sequence. -/
def hexOfBytes : List Nat → List Char
  | [] => []
  | b :: rest => hexDigit (b / 16) :: hexDigit (b % 16) :: hexOfBytes rest

/-- The call `crypto.createHmac('sha256', key).update(msg).digest('hex')` of
    Node.js: key and message are taken as UTF-8. -/
def nodeHmacSha256Hex (key msg : String) : String :=
  String.mk (hexOfBytes (hmacSha256 (utf8Encode key.data) (utf8Encode msg.data)))

/-! ## `Date.prototype.toISOString` -/

/-- Decimal digits of a number, padded with zeros to a width. -/
def padDigits (width n : Nat) : String :=
  let s := toString n
  String.mk (List.replicate (width - s.length) (Char.ofNat 48)) ++ s

/-- Year, month and day of a day number counted from 1970-01-01 (proleptic
    Gregorian calendar). -/
def civilFromDays (days : Int) : Int × Nat × Nat :=
  let z := days + 719468
  let era := z / 146097
  let doe := (z - era * 146097).toNat
  let yoe := (doe - doe / 1460 + doe / 36524 - doe / 146096) / 365
  let doy := doe - (365 * yoe + yoe / 4 - yoe / 100)
  let mp := (5 * doy + 2) / 153
  let d := doy - (153 * mp + 2) / 5 + 1
  let m := if mp < 10 then mp + 3 else mp - 9
  let y := (yoe : Int) + era * 400
  (if m ≤ 2 then y + 1 else y, m, d)

/-- The year in ISO format: four digits, or a sign and six digits outside 0 to 9999. -/
def isoYear (y : Int) : String :=
  if 0 ≤ y ∧ y ≤ 9999 then padDigits 4 y.toNat
  else if y < 0 then "-" ++ padDigits 6 (-y).toNat
  else "+" ++ padDigits 6 y.toNat

/-- The call `new Date(ms).toISOString()` of Node.js, for a time value inside
    the range of `Date`. -/
def nodeToISOString (ms : Int) : String :=
  let days := ms / 86400000
  let rem := (ms % 86400000).toNat
  let ymd := civilFromDays days
  isoYear ymd.1 ++ "-" ++ padDigits 2 ymd.2.1 ++ "-" ++ padDigits 2 ymd.2.2 ++ "T" ++
    padDigits 2 (rem / 3600000) ++ ":" ++ padDigits 2 (rem / 60000 % 60) ++ ":" ++
    padDigits 2 (rem / 1000 % 60) ++ "." ++ padDigits 3 (rem % 1000) ++ "Z"

/-! ## The Node.js platform -/

/-- The runtime of Node.js.  Reading an array or an array-like object as a
    buffer is not modelled and stays a parameter. -/
def nodePlatform (bufferFromArrayLike : JsVal → Except JsError String) : Platform :=
  { hmacSha256Hex := nodeHmacSha256Hex
    jsonParse := nodeJsonParse
    base64ToUtf8 := nodeBase64ToUtf8
    bufferFromArrayLike := bufferFromArrayLike
    toISOString := nodeToISOString }

/-- A buffer source that accepts no array-like: the `TypeError` that Node.js
    raises for a plain object without a `length`. -/
def noArrayLike (_ : JsVal) : Except JsError String :=
  .error (.plain "The first argument must be of type string or an instance of Buffer, ArrayBuffer, or Array or an Array-like Object.")

/-- The platform used for the concrete runs below. -/
def node : Platform := nodePlatform noArrayLike

/-! ## The creation handler: the `extraData` token (`momo-payment-creation/index.mjs`) -/

/-- The token `extraData` of the creation handler:
    `Buffer.from(JSON.stringify(extraDataObj)).toString('base64')` for
    `extraDataObj = { userId: userId, packageType: packageType }`. -/
def encodeExtraData (userId packageType : JsVal) : String :=
  utf8ToBase64 (jsonStringify (.obj [("userId", userId), ("packageType", packageType)]))

/-- The package types accepted by the creation handler. -/
def packageTypes : List String := ["BASIC", "VIP", "PREMIUM"]

/-! ## Concrete environments, worlds and notifications -/

/-- An environment with the four variables set (the MoMo keys are the test
    credentials of `test-events/generate-momo-signature.cjs`). -/
def testEnv : Env :=
  { MOMO_ACCESS_KEY := some "F8BBA842ECF85"
    MOMO_SECRET_KEY := some "K951B6PE1waDMi640xX08PD3vg6EkVlz"
    BACKEND_API_URL := some "https://backend.test"
    BACKEND_API_KEY := some "backend-key" }

/-- The fields of a notification, in the order of the test event of the repository. -/
def notificationFields (amount transId resultCode : Int) (message : String)
    (extraData signature : String) : List (String × JsVal) :=
  [("partnerCode", .str "MOMO"), ("orderId", .str "MOMO1765042430139"),
   ("requestId", .str "MOMO1765042430139"), ("amount", .num amount),
   ("orderInfo", .str "Goi PREMIUM - LeafLungs"), ("orderType", .str "momo_wallet"),
   ("transId", .num transId), ("resultCode", .num resultCode), ("message", .str message),
   ("payType", .str "qr"), ("responseTime", .num 1733445600000),
   ("extraData", .str extraData), ("signature", .str signature)]

/-- The Lambda event whose body is the JSON text of the given object. -/
def eventOf (fields : List (String × JsVal)) : JsVal :=
  .obj [("body", .str (jsonStringify (.obj fields)))]

/-- The destructured fields of a notification object. -/
def ipnDataOf (fields : List (String × JsVal)) : IpnData :=
  { partnerCode := JsVal.lookup "partnerCode" fields
    orderId := JsVal.lookup "orderId" fields
    requestId := JsVal.lookup "requestId" fields
    amount := JsVal.lookup "amount" fields
    orderInfo := JsVal.lookup "orderInfo" fields
    orderType := JsVal.lookup "orderType" fields
    transId := JsVal.lookup "transId" fields
    resultCode := JsVal.lookup "resultCode" fields
    message := JsVal.lookup "message" fields
    payType := JsVal.lookup "payType" fields
    responseTime := JsVal.lookup "responseTime" fields
    extraData := JsVal.lookup "extraData" fields
    signature := JsVal.lookup "signature" fields }

/-- A signed, successful notification of a trial upgrade: the payload is
    `userId: "u1", packageType: "PREMIUM", programId: "prog-1"`. -/
def trialFields : List (String × JsVal) :=
  notificationFields 50000 4000000001 0 "Successful."
    "eyJ1c2VySWQiOiJ1MSIsInBhY2thZ2VUeXBlIjoiUFJFTUlVTSIsInByb2dyYW1JZCI6InByb2ctMSJ9"
    "b4ac40494e2974c85d5229bb1b6168731b3d7bf992b1a5f7b985b50c329c7565"

/-- The event that carries `trialFields`. -/
def trialEvent : JsVal := eventOf trialFields

/-- The notification read from `trialEvent`. -/
def trialData : IpnData := ipnDataOf trialFields

/-- The payload of `trialEvent`. -/
def trialPayload : ExtraData :=
  { userId := .str "u1", packageType := .str "PREMIUM", programId := .str "prog-1" }

/-- The same notification with a last digit of the signature changed. -/
def forgedFields : List (String × JsVal) :=
  notificationFields 50000 4000000001 0 "Successful."
    "eyJ1c2VySWQiOiJ1MSIsInBhY2thZ2VUeXBlIjoiUFJFTUlVTSIsInByb2dyYW1JZCI6InByb2ctMSJ9"
    "b4ac40494e2974c85d5229bb1b6168731b3d7bf992b1a5f7b985b50c329c7566"

/-- The event that carries `forgedFields`. -/
def forgedEvent : JsVal := eventOf forgedFields

/-- The notification read from `forgedEvent`. -/
def forgedData : IpnData := ipnDataOf forgedFields

/-- A signed notification of a failed payment (result code 1006); the payload
    is `userId: "u1", packageType: "PREMIUM"`. -/
def failedFields : List (String × JsVal) :=
  notificationFields 50000 4000000001 1006 "Transaction denied by user."
    "eyJ1c2VySWQiOiJ1MSIsInBhY2thZ2VUeXBlIjoiUFJFTUlVTSJ9"
    "3152e6e77a3699fe64d52be655e122cba58109a32622cade6fa5be65d5d7edf7"

/-- The event that carries `failedFields`. -/
def failedEvent : JsVal := eventOf failedFields

/-- The notification read from `failedEvent`. -/
def failedData : IpnData := ipnDataOf failedFields

/-- A signed, successful notification whose payload is
    `userId: "", packageType: "VIP"`: the `userId` is present and empty. -/
def emptyUserFields : List (String × JsVal) :=
  notificationFields 50000 4000000001 0 "Successful."
    "eyJ1c2VySWQiOiIiLCJwYWNrYWdlVHlwZSI6IlZJUCJ9"
    "3c13e509f98e54a96ed578f45c51d5c1d3ca58afbdc2d34c1e7c576f49f10aae"

/-- The event that carries `emptyUserFields`. -/
def emptyUserEvent : JsVal := eventOf emptyUserFields

/-- The notification read from `emptyUserEvent`. -/
def emptyUserData : IpnData := ipnDataOf emptyUserFields

/-- A signed, successful notification whose `extraData` lacks its padding: the
    base64 text of the payload `userId: "u1", packageType: "VIP"` is
    `eyJ1c2VySWQiOiJ1MSIsInBhY2thZ2VUeXBlIjoiVklQIn0=`. -/
def unpaddedFields : List (String × JsVal) :=
  notificationFields 50000 4000000001 0 "Successful."
    "eyJ1c2VySWQiOiJ1MSIsInBhY2thZ2VUeXBlIjoiVklQIn0"
    "7f99d61ef63b9804eb66968e210c9f27a57b4ce1584a1adcf873240bd728192d"

/-- The event that carries `unpaddedFields`. -/
def unpaddedEvent : JsVal := eventOf unpaddedFields

/-- The notification read from `unpaddedEvent`. -/
def unpaddedData : IpnData := ipnDataOf unpaddedFields

/-- The payload of `unpaddedEvent`. -/
def unpaddedPayload : ExtraData :=
  { userId := .str "u1", packageType := .str "VIP", programId := .undefined }

/-- A signed, successful notification whose `extraData` is the base64 text of
    `userId=u1`, which is not JSON. -/
def notJsonFields : List (String × JsVal) :=
  notificationFields 50000 4000000001 0 "Successful."
    "dXNlcklkPXUx"
    "966576a12af334e9526de1342a4d9e42d10af9454445e8135716c9ad08180b12"

/-- The event that carries `notJsonFields`. -/
def notJsonEvent : JsVal := eventOf notJsonFields

/-- The notification read from `notJsonEvent`. -/
def notJsonData : IpnData := ipnDataOf notJsonFields

/-- A successful notification without the field `message`, signed over the
    canonical string in which the absent field reads `undefined`; the payload is
    `userId: "u1", packageType: "PREMIUM"`. -/
def noMessageFields : List (String × JsVal) :=
  [("partnerCode", .str "MOMO"),
   ("orderId", .str "MOMO1765042430139"),
   ("requestId", .str "MOMO1765042430139"),
   ("amount", .num 50000),
   ("orderInfo", .str "Goi PREMIUM - LeafLungs"),
   ("orderType", .str "momo_wallet"),
   ("transId", .num 4000000001),
   ("resultCode", .num 0),
   ("payType", .str "qr"),
   ("responseTime", .num 1733445600000),
   ("extraData", .str "eyJ1c2VySWQiOiJ1MSIsInBhY2thZ2VUeXBlIjoiUFJFTUlVTSJ9"),
   ("signature", .str "be20ce0b6e91a437fdbd94b65f447160f875c3f9fd69217b7278400832653f74")]

/-- The event that carries `noMessageFields`. -/
def noMessageEvent : JsVal := eventOf noMessageFields

/-- The notification read from `noMessageEvent`. -/
def noMessageData : IpnData := ipnDataOf noMessageFields

/-- The payload of `noMessageEvent`. -/
def directPayload : ExtraData :=
  { userId := .str "u1", packageType := .str "PREMIUM", programId := .undefined }

/-- A successful notification without the field `extraData`, signed over the
    canonical string in which the absent field reads `undefined`. -/
def noExtraDataFields : List (String × JsVal) :=
  [("partnerCode", .str "MOMO"),
   ("orderId", .str "MOMO1765042430139"),
   ("requestId", .str "MOMO1765042430139"),
   ("amount", .num 50000),
   ("orderInfo", .str "Goi PREMIUM - LeafLungs"),
   ("orderType", .str "momo_wallet"),
   ("transId", .num 4000000001),
   ("resultCode", .num 0),
   ("message", .str "Successful."),
   ("payType", .str "qr"),
   ("responseTime", .num 1733445600000),
   ("signature", .str "1ec0bd1d235b12070678d70a13067d7c1ecb7205973dc048cd8e8d00ee378626")]

/-- The event that carries `noExtraDataFields`. -/
def noExtraDataEvent : JsVal := eventOf noExtraDataFields

/-- The notification read from `noExtraDataEvent`. -/
def noExtraDataData : IpnData := ipnDataOf noExtraDataFields

/-- A clock that starts on 2024-12-06T00:40:00.000Z and advances by one
    millisecond at each reading. -/
def testClock (k : Nat) : Int := 1733445600000 + k

/-- A world in which every request is answered `200 OK`. -/
def okWorld : World :=
  { fetch := fun _ _ => .response 200 (.ok "OK"), now := testClock }

/-- A world in which the upgrade request is aborted on time-out and the patch
    request is answered `409 Conflict`. -/
def conflictWorld : World :=
  { fetch := fun _ req =>
      if req.method == "PATCH" then .response 409 (.ok "Conflict")
      else .rejects "This operation was aborted"
    now := testClock }

/-- A signed, successful notification whose payload has `userId` `u1`,
    `packageType` `PREMIUM` and, as `programId`, an object with the single own
    property `toString` (of value `null`): a value that cannot be converted to a
    string. -/
def opaqueProgramFields : List (String × JsVal) :=
  notificationFields 50000 4000000001 0 "Successful."
    "eyJ1c2VySWQiOiJ1MSIsInBhY2thZ2VUeXBlIjoiUFJFTUlVTSIsInByb2dyYW1JZCI6eyJ0b1N0cmluZyI6bnVsbH19"
    "ffe9d394670db37d24af78c4f668ceab04d7803bf8324cf9ff0bbcf5a2240f80"

/-- The event that carries `opaqueProgramFields`. -/
def opaqueProgramEvent : JsVal := eventOf opaqueProgramFields

/-- The notification read from `opaqueProgramEvent`. -/
def opaqueProgramData : IpnData := ipnDataOf opaqueProgramFields

/-- The payload of `opaqueProgramEvent`. -/
def opaqueProgramPayload : ExtraData :=
  { userId := .str "u1", packageType := .str "PREMIUM",
    programId := .obj [("toString", .null)] }

/-! ## The canonical message of the specification -/

/-- The canonical message of an ordered list of fields: the texts `name=value`,
    in the order of the list, joined by `&`. -/
def canonicalString (fields : List (String × String)) : String :=
  "&".intercalate (fields.map (fun f => f.1 ++ "=" ++ f.2))

/-- The names of the notification direction that follow `accessKey`. -/
def ipnCanonicalNames : List String :=
  ["amount", "extraData", "message", "orderId", "orderInfo", "orderType", "partnerCode",
   "payType", "requestId", "responseTime", "resultCode", "transId"]

/-- The names of the creation direction. -/
def creationCanonicalNames : List String :=
  ["accessKey", "amount", "extraData", "ipnUrl", "orderId", "orderInfo", "partnerCode",
   "redirectUrl", "requestId", "requestType"]

/-- Lexicographic order on sequences of character codes: the order in which
    the default `sort` of JavaScript puts strings. -/
def codesBefore : List Nat → List Nat → Bool
  | [], [] => false
  | [], _ :: _ => true
  | _ :: _, [] => false
  | a :: as, b :: bs => a < b || (a == b && codesBefore as bs)

/-- Each name is strictly before the next one in lexicographic order. -/
def strictlyAscending : List String → Bool
  | a :: b :: rest =>
    codesBefore (a.data.map Char.toNat) (b.data.map Char.toNat) && strictlyAscending (b :: rest)
  | _ => true

/-- The canonical message of the notification direction, rebuilt from a parsed
    envelope: `accessKey` and the twelve fields read from the envelope, each
    converted to a string. -/
def ipnCanonicalOf (accessKey : String) (envelope : JsVal) : String :=
  canonicalString (("accessKey", accessKey) ::
    ipnCanonicalNames.map (fun name => (name, (getPropOpt envelope name).toStr)))

/-- The canonical message of the creation direction, rebuilt from a request
    object: the ten fields read from the request, each converted to a string. -/
def creationCanonicalOf (request : JsVal) : String :=
  canonicalString
    (creationCanonicalNames.map (fun name => (name, (getPropOpt request name).toStr)))

/-- The canonical fields of a notification other than `accessKey`. -/
inductive IpnField where
  | amount
  | extraData
  | message
  | orderId
  | orderInfo
  | orderType
  | partnerCode
  | payType
  | requestId
  | responseTime
  | resultCode
  | transId
  deriving DecidableEq

/-- The value of a canonical field of a notification. -/
def IpnData.get (d : IpnData) : IpnField → JsVal
  | .amount => d.amount
  | .extraData => d.extraData
  | .message => d.message
  | .orderId => d.orderId
  | .orderInfo => d.orderInfo
  | .orderType => d.orderType
  | .partnerCode => d.partnerCode
  | .payType => d.payType
  | .requestId => d.requestId
  | .responseTime => d.responseTime
  | .resultCode => d.resultCode
  | .transId => d.transId

/-- The notification in which one canonical field is replaced by a value; the
    other fields and `signature` stay as they are. -/
def IpnData.set (d : IpnData) (f : IpnField) (v : JsVal) : IpnData :=
  match f with
  | .amount => { d with amount := v }
  | .extraData => { d with extraData := v }
  | .message => { d with message := v }
  | .orderId => { d with orderId := v }
  | .orderInfo => { d with orderInfo := v }
  | .orderType => { d with orderType := v }
  | .partnerCode => { d with partnerCode := v }
  | .payType => { d with payType := v }
  | .requestId => { d with requestId := v }
  | .responseTime => { d with responseTime := v }
  | .resultCode => { d with resultCode := v }
  | .transId => { d with transId := v }

/-! ## The creation handler (`momo-payment-creation/index.mjs`) -/

/-- The variables read from `process.env` by the creation handler. -/
structure CreationEnv where
  MOMO_PARTNER_CODE : Option String
  MOMO_ACCESS_KEY : Option String
  MOMO_SECRET_KEY : Option String
  MOMO_ENDPOINT : Option String
  BACKEND_API_URL : Option String
  BACKEND_API_KEY : Option String
  FRONTEND_REDIRECT_URL : Option String
  IPN_URL : Option String

/-- What a call of `axios` meets: the server answers with a status and a body
    (`data` is the body as axios hands it over: the parsed JSON, or the text
    when the body is not JSON), or no answer arrives: a time-out, for which the
    error code of axios is `ECONNABORTED`, or a network failure with its own code. -/
inductive AxiosOutcome where
  | response (status : Nat) (data : JsVal)
  | noResponse (code : String) (message : String)

/-- The HTTP collaborators as seen through `axios`: the answer to each request,
    given the requests made before it. -/
structure Axios where
  request : List HttpRequest → HttpRequest → AxiosOutcome

/-- The error with which axios rejects when the status is outside 200 to 299
    (the default `validateStatus`): it carries the response.  Of the response,
    `status` and `data` are the properties read by the handler. -/
def axiosStatusError (status : Nat) (data : JsVal) : JsError :=
  { message := "Request failed with status code " ++ toString status
    code :=
      if status / 100 = 4 then .str "ERR_BAD_REQUEST"
      else if status / 100 = 5 then .str "ERR_BAD_RESPONSE"
      else .undefined
    response := .obj [("status", .num status), ("data", data)] }

/-- One call `axios.get(url, config)` or `axios.post(url, data, config)`: the
    request is recorded in the trace; the call returns the response on a status
    from 200 to 299 and throws otherwise. -/
def axiosCall (net : Axios) (req : HttpRequest) : Js JsVal := fun _ s =>
  let s1 : St := { s with effects := s.effects ++ [.fetch req] }
  match net.request (requestsOf s.effects) req with
  | .response status data =>
    if 200 ≤ status ∧ status ≤ 299 then .ok (.obj [("status", .num status), ("data", data)]) s1
    else .threw (axiosStatusError status data) s1
  | .noResponse code message =>
    .threw { message := message, code := .str code, response := .undefined } s1

/-- Strict equality `a === b` of two values that come from different sources:
    primitives are compared by value, and two distinct objects or arrays are
    never equal. -/
def JsVal.strictEq : JsVal → JsVal → Bool
  | .undefined, .undefined => true
  | .null, .null => true
  | .bool a, .bool b => a == b
  | .num a, .num b => sameNumber a b
  | .str a, .str b => a == b
  | _, _ => false

/-- The object returned by the creation handler. -/
structure ApiResponse where
  statusCode : JsVal
  headers : List (String × String)
  body : String

/-- The response of the creation handler with a given status and a given body
    object: the two fixed headers, and the body written by `JSON.stringify`. -/
def jsonResponse (statusCode : JsVal) (body : JsVal) : ApiResponse :=
  { statusCode := statusCode
    headers := [("Content-Type", "application/json"), ("Access-Control-Allow-Origin", "*")]
    body := jsonStringify body }

/-- The expression `event.requestContext?.authorizer?.claims?.[name]`.  The
    claims that the Cognito authorizer of API Gateway hands over are strings: a
    claim is a string or absent, and its conversion to a string returns. -/
def authorizerClaim (event : JsVal) (name : String) : Except JsError JsVal := do
  let requestContext ← getProp event "requestContext"
  pure (getPropOpt (getPropOpt (getPropOpt requestContext "authorizer") "claims") name)

/-- The fields destructured from the parsed request body. -/
structure CreationBody where
  packageType : JsVal
  amount : JsVal

/-- The statements `const body = JSON.parse(event.body || '\x7b\x7d')` and
    `const \x7b packageType, amount \x7d = body`. -/
def readCreationBody (P : Platform) (event : JsVal) : Except JsError CreationBody := do
  let raw ← getProp event "body"
  let body ← jsonParse P (raw.orElse (.str "\x7b\x7d"))
  let packageType ← getProp body "packageType"
  let amount ← getProp body "amount"
  pure { packageType, amount }

/-- The test `['BASIC', 'VIP', 'PREMIUM'].includes(packageType)`. -/
def includesPackage (packageType : JsVal) : Bool :=
  match packageType with
  | .str s => packageTypes.contains s
  | _ => false

/-- The object `packageAmounts`. -/
def packageAmounts : List (String × JsVal) :=
  [("BASIC", .num 0), ("VIP", .num 30000), ("PREMIUM", .num 50000)]

/-- The expression `amount || packageAmounts[packageType]`, for a `packageType`
    that passed the validation. -/
def paymentAmountOf (amount packageType : JsVal) : JsVal :=
  amount.orElse (JsVal.lookup packageType.toStr packageAmounts)

/-- The request of the membership check. -/
def membershipRequest (env : CreationEnv) (userId : JsVal) : HttpRequest :=
  { url := envStr env.BACKEND_API_URL ++ "/api/user-info/by-user-id"
    method := "GET"
    headers := [("X-User-Id", userId), ("X-API-Key", envVal env.BACKEND_API_KEY)]
    bodyJson := .undefined
    timeoutMs := 5000 }

/-- The expression `membershipCheck.data?.membership || 'BASIC'`. -/
def currentMembershipOf (data : JsVal) : JsVal :=
  (getPropOpt data "membership").orElse (.str "BASIC")

/-- The membership check with its `catch`: `some r` stands for the early
    `return r` of a same-package purchase, `none` for going on.  The log line of
    the current membership converts it to a string, which can throw, inside the
    `try`. -/
def stepMembership (net : Axios) (env : CreationEnv) (userId packageType : JsVal) :
    Js (Option ApiResponse) :=
  Js.tryCatch
    (do
      let membershipCheck ← axiosCall net (membershipRequest env userId)
      let data ← Js.ofExcept (getProp membershipCheck "data")
      let currentMembership := currentMembershipOf data
      Js.texts [currentMembership]
      Js.console .log ("📊 Current membership: " ++ currentMembership.toStr)
      if currentMembership.strictEq packageType then
        pure (some (jsonResponse (.num 400)
          (.obj [("resultCode", .num 400),
                 ("message", .str ("You already have " ++ packageType.toStr ++ " membership"))])))
      else
        pure none)
    (fun _error => do
      Js.console .warn "⚠️ Could not check current membership:"
      pure none)

/-- The object `momoRequest` as first built, before it is signed. -/
def momoRequestOf (env : CreationEnv) (userId packageType paymentAmount : JsVal)
    (timestamp : Int) : JsVal :=
  .obj [("partnerCode", envVal env.MOMO_PARTNER_CODE),
        ("accessKey", envVal env.MOMO_ACCESS_KEY),
        ("requestId", .str ("MOMO" ++ numberToString timestamp)),
        ("amount", .str paymentAmount.toStr),
        ("orderId", .str ("MOMO" ++ numberToString timestamp)),
        ("orderInfo", .str ("Goi " ++ packageType.toStr ++ " - LeafLungs")),
        ("redirectUrl", envVal env.FRONTEND_REDIRECT_URL),
        ("ipnUrl", envVal env.IPN_URL),
        ("requestType", .str "captureWallet"),
        ("extraData", .str (encodeExtraData userId packageType)),
        ("lang", .str "vi")]

/-- The string `rawSignature` of the creation handler. -/
def creationRawSignature (momoRequest : JsVal) : String :=
  "accessKey=" ++ (getPropOpt momoRequest "accessKey").toStr ++
  "&amount=" ++ (getPropOpt momoRequest "amount").toStr ++
  "&extraData=" ++ (getPropOpt momoRequest "extraData").toStr ++
  "&ipnUrl=" ++ (getPropOpt momoRequest "ipnUrl").toStr ++
  "&orderId=" ++ (getPropOpt momoRequest "orderId").toStr ++
  "&orderInfo=" ++ (getPropOpt momoRequest "orderInfo").toStr ++
  "&partnerCode=" ++ (getPropOpt momoRequest "partnerCode").toStr ++
  "&redirectUrl=" ++ (getPropOpt momoRequest "redirectUrl").toStr ++
  "&requestId=" ++ (getPropOpt momoRequest "requestId").toStr ++
  "&requestType=" ++ (getPropOpt momoRequest "requestType").toStr

/-- The assignment `momoRequest.signature = signature` on an object that has no
    such property yet: the property is added after the others. -/
def withSignature (momoRequest : JsVal) (signature : String) : JsVal :=
  match momoRequest with
  | .obj fields => .obj (fields ++ [("signature", .str signature)])
  | other => other

/-- The signed object `momoRequest` that is posted to the gateway. -/
def signedMomoRequest (P : Platform) (env : CreationEnv)
    (userId packageType paymentAmount : JsVal) (timestamp : Int) : JsVal :=
  let momoRequest := momoRequestOf env userId packageType paymentAmount timestamp
  withSignature momoRequest
    (P.hmacSha256Hex (envStr env.MOMO_SECRET_KEY) (creationRawSignature momoRequest))

/-- The request of the call to the gateway. -/
def gatewayRequest (env : CreationEnv) (momoRequest : JsVal) : HttpRequest :=
  { url := envStr env.MOMO_ENDPOINT
    method := "POST"
    headers := [("Content-Type", .str "application/json")]
    bodyJson := momoRequest
    timeoutMs := 30000 }

/-- From the generation of the identifiers to the `return` of the `try`: build
    the request, sign it, post it and answer 200 with the fields of the
    gateway's answer. -/
def stepGateway (P : Platform) (net : Axios) (env : CreationEnv)
    (userId packageType paymentAmount : JsVal) : Js ApiResponse := do
  let timestamp ← Js.clockNow
  let momoRequest := momoRequestOf env userId packageType paymentAmount timestamp
  Js.console .log
    ("🔐 ExtraData: " ++
      jsonStringify (.obj [("userId", userId), ("packageType", packageType)]))
  let rawSignature := creationRawSignature momoRequest
  Js.console .log ("📝 Raw signature string: " ++ rawSignature)
  let signature := P.hmacSha256Hex (envStr env.MOMO_SECRET_KEY) rawSignature
  let signed := withSignature momoRequest signature
  Js.console .log ("✅ Signature generated: " ++ signature)
  Js.console .log ("📤 Calling MoMo API: " ++ envStr env.MOMO_ENDPOINT)
  let momoResponse ← axiosCall net (gatewayRequest env signed)
  let data ← Js.ofExcept (getProp momoResponse "data")
  Js.console .log "✅ MoMo Response:"
  let resultCode ← Js.ofExcept (getProp data "resultCode")
  let payUrl ← Js.ofExcept (getProp data "payUrl")
  let orderId ← Js.ofExcept (getProp data "orderId")
  let requestId ← Js.ofExcept (getProp data "requestId")
  let message ← Js.ofExcept (getProp data "message")
  pure (jsonResponse (.num 200)
    (.obj [("resultCode", resultCode), ("payUrl", payUrl), ("orderId", orderId),
           ("requestId", requestId), ("message", message.orElse (.str "Success"))]))

/-- The body of the `try` of the creation handler.  The log line of the amount
    converts `paymentAmount`, a value of the request body, to a string, which can
    throw; `userId` and `userGroups` are claims of the authorizer. -/
def creationTry (P : Platform) (net : Axios) (env : CreationEnv) (event : JsVal) :
    Js ApiResponse :=
  if envFalsy env.MOMO_PARTNER_CODE || envFalsy env.MOMO_ACCESS_KEY ||
      envFalsy env.MOMO_SECRET_KEY || envFalsy env.MOMO_ENDPOINT then
    Js.throwErr (.plain "Missing MoMo credentials in environment variables")
  else do
    let userId ← Js.ofExcept (authorizerClaim event "sub")
    let userGroups ← Js.ofExcept (authorizerClaim event "cognito:groups")
    if !userId.truthy then do
      Js.console .error "❌ No userId found in authorizer context"
      pure (jsonResponse (.num 401)
        (.obj [("resultCode", .num 401), ("message", .str "Unauthorized - User ID not found")]))
    else do
      Js.console .log ("👤 User ID: " ++ userId.toStr)
      Js.console .log ("👥 User Groups: " ++ userGroups.toStr)
      let body ← Js.ofExcept (readCreationBody P event)
      if !body.packageType.truthy || !includesPackage body.packageType then
        pure (jsonResponse (.num 400)
          (.obj [("resultCode", .num 400),
                 ("message", .str "Invalid packageType. Must be BASIC, VIP, or PREMIUM")]))
      else do
        let paymentAmount := paymentAmountOf body.amount body.packageType
        Js.texts [body.packageType, paymentAmount]
        Js.console .log
          ("💳 Package: " ++ body.packageType.toStr ++ ", Amount: " ++ paymentAmount.toStr ++
            " VND")
        let early ← stepMembership net env userId body.packageType
        match early with
        | some response => pure response
        | none => stepGateway P net env userId body.packageType paymentAmount

/-- The `catch` block of the creation handler. -/
def creationCatch (error : JsError) : Js ApiResponse := do
  Js.console .error "❌ Payment Creation Error:"
  if error.response.truthy then do
    let data ← Js.ofExcept (getProp error.response "data")
    Js.console .error "MoMo API Error Response:"
    let status ← Js.ofExcept (getProp error.response "status")
    let resultCode ← Js.ofExcept (getProp data "resultCode")
    let message ← Js.ofExcept (getProp data "message")
    pure (jsonResponse status
      (.obj [("resultCode", resultCode.orElse (.num 500)),
             ("message", message.orElse (.str "MoMo API Error")),
             ("details", data)]))
  else if error.code.strictEqStr "ECONNABORTED" then
    pure (jsonResponse (.num 504)
      (.obj [("resultCode", .num 504),
             ("message", .str "Request timeout - MoMo API did not respond in time")]))
  else
    pure (jsonResponse (.num 500)
      (.obj [("resultCode", .num 500), ("message", .str "Internal server error"),
             ("error", .str error.message)]))

/-- Source `handler` of the creation lambda. -/
def Creation.handler (P : Platform) (net : Axios) (env : CreationEnv) (event : JsVal) :
    Js ApiResponse := do
  Js.console .log "📥 Payment Creation Request:"
  Js.tryCatch (creationTry P net env event) creationCatch

/-- One invocation of the creation handler, from the empty trace. -/
def runCreation (P : Platform) (net : Axios) (env : CreationEnv) (w : World) (event : JsVal) :
    Res ApiResponse :=
  Creation.handler P net env event w { effects := [], clockReads := 0 }

/-- The status code of the response of a run, when the run returns one. -/
def Res.statusCode? (r : Res ApiResponse) : Option JsVal :=
  match r with
  | .ok response _ => some response.statusCode
  | .threw _ _ => none

/-! ## More concrete notifications -/

/-- The fields of a successful notification with a given `amount`, `orderId`,
    `message`, `extraData` and `signature`; the other fields are those of the
    test event of the repository. -/
def envelopeFields (amount : JsVal) (orderId message extraData signature : String) :
    List (String × JsVal) :=
  [("partnerCode", .str "MOMO"), ("orderId", .str orderId),
   ("requestId", .str "MOMO1765042430139"), ("amount", amount),
   ("orderInfo", .str "Goi PREMIUM - LeafLungs"), ("orderType", .str "momo_wallet"),
   ("transId", .num 4000000001), ("resultCode", .num 0), ("message", .str message),
   ("payType", .str "qr"), ("responseTime", .num 1733445600000),
   ("extraData", .str extraData), ("signature", .str signature)]

/-- The trial-upgrade notification with its `amount` replaced by the string
    `"50000"`; the signature is the one of `trialFields`. -/
def retypedFields : List (String × JsVal) :=
  envelopeFields (.str "50000") "MOMO1765042430139" "Successful."
    "eyJ1c2VySWQiOiJ1MSIsInBhY2thZ2VUeXBlIjoiUFJFTUlVTSIsInByb2dyYW1JZCI6InByb2ctMSJ9"
    "b4ac40494e2974c85d5229bb1b6168731b3d7bf992b1a5f7b985b50c329c7565"

/-- The event that carries `retypedFields`. -/
def retypedEvent : JsVal := eventOf retypedFields

/-- The trial-upgrade notification with its `amount` replaced by the number 1;
    the signature is the one of `trialFields`. -/
def tamperedFields : List (String × JsVal) :=
  envelopeFields (.num 1) "MOMO1765042430139" "Successful."
    "eyJ1c2VySWQiOiJ1MSIsInBhY2thZ2VUeXBlIjoiUFJFTUlVTSIsInByb2dyYW1JZCI6InByb2ctMSJ9"
    "b4ac40494e2974c85d5229bb1b6168731b3d7bf992b1a5f7b985b50c329c7565"

/-- The event that carries `tamperedFields`. -/
def tamperedEvent : JsVal := eventOf tamperedFields

/-- A signed, successful notification whose payload is
    `userId: "u1", packageType: "PREMIUM", programId: ""`: the `programId` is
    present and empty. -/
def emptyProgramFields : List (String × JsVal) :=
  notificationFields 50000 4000000001 0 "Successful."
    "eyJ1c2VySWQiOiJ1MSIsInBhY2thZ2VUeXBlIjoiUFJFTUlVTSIsInByb2dyYW1JZCI6IiJ9"
    "993665491431eebe4e3f3617ec7a5753e71ecf014864dfce7dc9dd10fb8187e4"

/-- The event that carries `emptyProgramFields`. -/
def emptyProgramEvent : JsVal := eventOf emptyProgramFields

/-- The notification read from `emptyProgramEvent`. -/
def emptyProgramData : IpnData := ipnDataOf emptyProgramFields

/-- The payload of `emptyProgramEvent`. -/
def emptyProgramPayload : ExtraData :=
  { userId := .str "u1", packageType := .str "PREMIUM", programId := .str "" }

/-- A signed, successful notification whose payload is
    `userId: "u1", packageType: "GOLD"`. -/
def goldFields : List (String × JsVal) :=
  notificationFields 50000 4000000001 0 "Successful."
    "eyJ1c2VySWQiOiJ1MSIsInBhY2thZ2VUeXBlIjoiR09MRCJ9"
    "95f47ec82597bc2a9180be8cbbcd8eef129c46269e7974bf59f4f4cf8686107f"

/-- The event that carries `goldFields`. -/
def goldEvent : JsVal := eventOf goldFields

/-- The notification read from `goldEvent`. -/
def goldData : IpnData := ipnDataOf goldFields

/-- The payload of `goldEvent`. -/
def goldPayload : ExtraData :=
  { userId := .str "u1", packageType := .str "GOLD", programId := .undefined }

/-- A signed, successful notification whose `message` is
    `Successful.&orderId=A1` and whose `orderId` is `MOMO1765042430139`; the
    payload is `userId: "u1", packageType: "PREMIUM"`. -/
def splicedMessageFields : List (String × JsVal) :=
  envelopeFields (.num 50000) "MOMO1765042430139" "Successful.&orderId=A1"
    "eyJ1c2VySWQiOiJ1MSIsInBhY2thZ2VUeXBlIjoiUFJFTUlVTSJ9"
    "ee3b477861e933370689aee35b2d76628f70b2fc90c7852d668cf632e5f979c5"

/-- The event that carries `splicedMessageFields`. -/
def splicedMessageEvent : JsVal := eventOf splicedMessageFields

/-- The notification read from `splicedMessageEvent`. -/
def splicedMessageData : IpnData := ipnDataOf splicedMessageFields

/-- The same notification with the text `&orderId=` moved from the end of
    `message` into `orderId`: the `message` is `Successful.` and the `orderId`
    is `A1&orderId=MOMO1765042430139`; the signature is unchanged. -/
def splicedOrderFields : List (String × JsVal) :=
  envelopeFields (.num 50000) "A1&orderId=MOMO1765042430139" "Successful."
    "eyJ1c2VySWQiOiJ1MSIsInBhY2thZ2VUeXBlIjoiUFJFTUlVTSJ9"
    "ee3b477861e933370689aee35b2d76628f70b2fc90c7852d668cf632e5f979c5"

/-- The event that carries `splicedOrderFields`. -/
def splicedOrderEvent : JsVal := eventOf splicedOrderFields

/-- The notification read from `splicedOrderEvent`. -/
def splicedOrderData : IpnData := ipnDataOf splicedOrderFields

/-! ## The generator of the test event (`test-events/generate-momo-signature.cjs`) -/

/-- The object `ipnData` of the generator before it is signed: every field is a string. -/
def generatorFields : List (String × JsVal) :=
  [("partnerCode", .str "MOMO"),
   ("orderId", .str "MOMO1765042430139"),
   ("requestId", .str "MOMO1765042430139"),
   ("amount", .str "50000"),
   ("orderInfo", .str "Goi PREMIUM - LeafLungs"),
   ("orderType", .str "momo_wallet"),
   ("transId", .str "4000000001"),
   ("resultCode", .str "0"),
   ("message", .str "Successful."),
   ("payType", .str "qr"),
   ("responseTime", .str "1733445600000"),
   ("extraData", .str (encodeExtraData (.str "test-user-123") (.str "PREMIUM")))]

/-- The string `rawSignature` of the generator. -/
def generatorRawSignature : String :=
  "accessKey=" ++ "F8BBA842ECF85" ++
  "&amount=" ++ (JsVal.lookup "amount" generatorFields).toStr ++
  "&extraData=" ++ (JsVal.lookup "extraData" generatorFields).toStr ++
  "&message=" ++ (JsVal.lookup "message" generatorFields).toStr ++
  "&orderId=" ++ (JsVal.lookup "orderId" generatorFields).toStr ++
  "&orderInfo=" ++ (JsVal.lookup "orderInfo" generatorFields).toStr ++
  "&orderType=" ++ (JsVal.lookup "orderType" generatorFields).toStr ++
  "&partnerCode=" ++ (JsVal.lookup "partnerCode" generatorFields).toStr ++
  "&payType=" ++ (JsVal.lookup "payType" generatorFields).toStr ++
  "&requestId=" ++ (JsVal.lookup "requestId" generatorFields).toStr ++
  "&responseTime=" ++ (JsVal.lookup "responseTime" generatorFields).toStr ++
  "&resultCode=" ++ (JsVal.lookup "resultCode" generatorFields).toStr ++
  "&transId=" ++ (JsVal.lookup "transId" generatorFields).toStr

/-- The value `signature` of the generator. -/
def generatorSignature : String :=
  nodeHmacSha256Hex "K951B6PE1waDMi640xX08PD3vg6EkVlz" generatorRawSignature

/-- The object `ipnData` of the generator after `ipnData.signature = signature`. -/
def generatorIpnData : List (String × JsVal) :=
  generatorFields ++ [("signature", .str generatorSignature)]

/-- The test event printed by the generator. -/
def generatorEvent : JsVal :=
  .obj [("body", .str (jsonStringify (.obj generatorIpnData))),
        ("headers", .obj [("Content-Type", .str "application/json")]),
        ("httpMethod", .str "POST")]

/-- The notification read from `generatorEvent`. -/
def generatorData : IpnData := ipnDataOf generatorIpnData

/-- The payload of `generatorEvent`. -/
def generatorPayload : ExtraData :=
  { userId := .str "test-user-123", packageType := .str "PREMIUM", programId := .undefined }

/-! ## What the creation handler is expected to answer -/

/-- The test of the environment variables that opens the creation handler. -/
def creationEnvMissing (env : CreationEnv) : Bool :=
  envFalsy env.MOMO_PARTNER_CODE || envFalsy env.MOMO_ACCESS_KEY ||
    envFalsy env.MOMO_SECRET_KEY || envFalsy env.MOMO_ENDPOINT

/-- A result or a thrown error, with a final state. -/
def Res.ofExcept {α : Type} (x : Except JsError α) (s : St) : Res α :=
  match x with
  | .ok a => .ok a s
  | .error e => .threw e s

/-- The response 401 of the creation handler. -/
def unauthorizedResponse : ApiResponse :=
  jsonResponse (.num 401)
    (.obj [("resultCode", .num 401), ("message", .str "Unauthorized - User ID not found")])

/-- The response 400 of the creation handler for an invalid `packageType`. -/
def invalidPackageResponse : ApiResponse :=
  jsonResponse (.num 400)
    (.obj [("resultCode", .num 400),
           ("message", .str "Invalid packageType. Must be BASIC, VIP, or PREMIUM")])

/-- The response 400 of the creation handler for a purchase of the current package. -/
def samePackageResponse (packageType : JsVal) : ApiResponse :=
  jsonResponse (.num 400)
    (.obj [("resultCode", .num 400),
           ("message", .str ("You already have " ++ packageType.toStr ++ " membership"))])

/-- The outcome of the membership check when `history` lists the requests made
    before it: the early response of a purchase of the current package, or
    `none` when the handler goes on (the lookup failed, or the packages differ). -/
def membershipVerdict (net : Axios) (env : CreationEnv) (userId packageType : JsVal)
    (history : List HttpRequest) : Option ApiResponse :=
  match net.request history (membershipRequest env userId) with
  | .response status data =>
    if 200 ≤ status ∧ status ≤ 299 then
      if (currentMembershipOf data).strictEq packageType then
        some (samePackageResponse packageType)
      else none
    else none
  | .noResponse _ _ => none

/-- What the `try` block does with the outcome of the gateway call: the response
    200 that it returns, or the error that it throws. -/
def gatewayAnswer (outcome : AxiosOutcome) : Except JsError ApiResponse :=
  match outcome with
  | .response status data =>
    if 200 ≤ status ∧ status ≤ 299 then do
      let resultCode ← getProp data "resultCode"
      let payUrl ← getProp data "payUrl"
      let orderId ← getProp data "orderId"
      let requestId ← getProp data "requestId"
      let message ← getProp data "message"
      pure (jsonResponse (.num 200)
        (.obj [("resultCode", resultCode), ("payUrl", payUrl), ("orderId", orderId),
               ("requestId", requestId), ("message", message.orElse (.str "Success"))]))
    else .error (axiosStatusError status data)
  | .noResponse code message =>
    .error { message := message, code := .str code, response := .undefined }

/-- What the `catch` block does with an error: the response that it returns, or
    the error that it throws itself. -/
def catchAnswer (error : JsError) : Except JsError ApiResponse :=
  if error.response.truthy then do
    let data ← getProp error.response "data"
    let status ← getProp error.response "status"
    let resultCode ← getProp data "resultCode"
    let message ← getProp data "message"
    pure (jsonResponse status
      (.obj [("resultCode", resultCode.orElse (.num 500)),
             ("message", message.orElse (.str "MoMo API Error")),
             ("details", data)]))
  else if error.code.strictEqStr "ECONNABORTED" then
    .ok (jsonResponse (.num 504)
      (.obj [("resultCode", .num 504),
             ("message", .str "Request timeout - MoMo API did not respond in time")]))
  else
    .ok (jsonResponse (.num 500)
      (.obj [("resultCode", .num 500), ("message", .str "Internal server error"),
             ("error", .str error.message)]))

/-- The request that the creation handler posts to the gateway for a user, a
    package and an amount from the body, the clock reading being `timestamp`. -/
def gatewayRequestOf (P : Platform) (env : CreationEnv) (userId : JsVal) (body : CreationBody)
    (timestamp : Int) : HttpRequest :=
  gatewayRequest env
    (signedMomoRequest P env userId body.packageType
      (paymentAmountOf body.amount body.packageType) timestamp)

/-- What the `try` block of the creation handler does, and the requests it makes. -/
def creationTryOutcome (P : Platform) (net : Axios) (env : CreationEnv) (w : World)
    (event : JsVal) : Except JsError ApiResponse × List HttpRequest :=
  if creationEnvMissing env then
    (.error (.plain "Missing MoMo credentials in environment variables"), [])
  else
    match authorizerClaim event "sub" with
    | .error e => (.error e, [])
    | .ok userId =>
      if !userId.truthy then (.ok unauthorizedResponse, [])
      else
        match readCreationBody P event with
        | .error e => (.error e, [])
        | .ok body =>
          if !body.packageType.truthy || !includesPackage body.packageType then
            (.ok invalidPackageResponse, [])
          else if !(paymentAmountOf body.amount body.packageType).convertible then
            (.error (.plain "Cannot convert object to primitive value"), [])
          else
            match membershipVerdict net env userId body.packageType [] with
            | some response => (.ok response, [membershipRequest env userId])
            | none =>
              (gatewayAnswer (net.request [membershipRequest env userId]
                  (gatewayRequestOf P env userId body (w.now 0))),
                [membershipRequest env userId, gatewayRequestOf P env userId body (w.now 0)])

/-- The `try` with its `catch`: a response is returned as it is, an error goes
    through the `catch` block. -/
def answerOrCatch (x : Except JsError ApiResponse) : Except JsError ApiResponse :=
  match x with
  | .ok response => .ok response
  | .error e => catchAnswer e

/-- What one invocation of the creation handler does, and the requests it makes. -/
def creationOutcome (P : Platform) (net : Axios) (env : CreationEnv) (w : World)
    (event : JsVal) : Except JsError ApiResponse × List HttpRequest :=
  (answerOrCatch (creationTryOutcome P net env w event).1,
   (creationTryOutcome P net env w event).2)

/-- An accepted creation request: the handler is configured, the caller is
    authenticated as `userId`, the body holds a valid `packageType`, and the
    amount to pay can be converted to a string. -/
def AcceptedRequest (P : Platform) (env : CreationEnv) (event : JsVal) (userId : JsVal)
    (body : CreationBody) : Prop :=
  creationEnvMissing env = false ∧ authorizerClaim event "sub" = .ok userId ∧
    userId.truthy = true ∧ readCreationBody P event = .ok body ∧
    body.packageType.truthy = true ∧ includesPackage body.packageType = true ∧
    (paymentAmountOf body.amount body.packageType).convertible = true

/-- The check of a creation request by the receiver: the `signature` field is
    the digest, under the secret key, of the canonical message rebuilt from the
    fields of the request. -/
def creationVerify (P : Platform) (secretKey : String) (request : JsVal) : Bool :=
  (getPropOpt request "signature").strictEqStr
    (P.hmacSha256Hex secretKey (creationCanonicalOf request))

/-! ## Concrete creation requests -/

/-- A configured environment of the creation handler, with the test credentials. -/
def creationTestEnv : CreationEnv :=
  { MOMO_PARTNER_CODE := some "MOMO"
    MOMO_ACCESS_KEY := some "F8BBA842ECF85"
    MOMO_SECRET_KEY := some "K951B6PE1waDMi640xX08PD3vg6EkVlz"
    MOMO_ENDPOINT := some "https://test-payment.momo.vn/v2/gateway/api/create"
    BACKEND_API_URL := some "https://backend.test"
    BACKEND_API_KEY := some "backend-key"
    FRONTEND_REDIRECT_URL := some "https://app.test/payment/result"
    IPN_URL := some "https://api.test/momo/ipn" }

/-- The event of a request whose authorizer claims hold the given fields and
    whose body is the given value. -/
def creationEventOf (claims : List (String × JsVal)) (body : JsVal) : JsVal :=
  .obj [("requestContext", .obj [("authorizer", .obj [("claims", .obj claims)])]),
        ("body", body)]

/-- The request `packageType: "VIP"` of user `u1`. -/
def vipEvent : JsVal :=
  creationEventOf [("sub", .str "u1")] (.str (jsonStringify (.obj [("packageType", .str "VIP")])))

/-- The body read from `vipEvent`. -/
def vipBody : CreationBody := { packageType := .str "VIP", amount := .undefined }

/-- The request `packageType: "VIP", amount: 0` of user `u1`. -/
def vipZeroEvent : JsVal :=
  creationEventOf [("sub", .str "u1")]
    (.str (jsonStringify (.obj [("packageType", .str "VIP"), ("amount", .num 0)])))

/-- The body read from `vipZeroEvent`. -/
def vipZeroBody : CreationBody := { packageType := .str "VIP", amount := .num 0 }

/-- A request of user `u1` whose body is not JSON. -/
def malformedEvent : JsVal := creationEventOf [("sub", .str "u1")] (.str "packageType=VIP")

/-- The request `packageType: "VIP"` without a `sub` claim. -/
def anonymousEvent : JsVal :=
  creationEventOf [] (.str (jsonStringify (.obj [("packageType", .str "VIP")])))

/-- The answer of the gateway to an accepted creation request. -/
def gatewayOkData : JsVal :=
  .obj [("partnerCode", .str "MOMO"), ("orderId", .str "MOMO1733445600000"),
        ("requestId", .str "MOMO1733445600000"), ("amount", .num 30000),
        ("responseTime", .num 1733445600500), ("message", .str "Success"),
        ("resultCode", .num 0), ("payUrl", .str "https://test-payment.momo.vn/pay/abc")]

/-- Collaborators that answer the membership lookup with a current membership
    and the gateway call with a given outcome. -/
def netWith (membership : String) (gateway : AxiosOutcome) : Axios :=
  { request := fun _ req =>
      if req.method == "GET" then .response 200 (.obj [("membership", .str membership)])
      else gateway }

/-- Collaborators for which everything succeeds; the user is a `BASIC` member. -/
def okNet : Axios := netWith "BASIC" (.response 200 gatewayOkData)

/-- Collaborators whose membership lookup times out; the gateway succeeds. -/
def lookupDownNet : Axios :=
  { request := fun _ req =>
      if req.method == "GET" then .noResponse "ECONNABORTED" "timeout of 5000ms exceeded"
      else .response 200 gatewayOkData }

/-- The gateway refuses the request with status 400 and an error payload. -/
def gatewayRefusesNet : Axios :=
  netWith "BASIC"
    (.response 400 (.obj [("resultCode", .num 11), ("message", .str "Access denied.")]))

/-- The gateway answers status 502 with the JSON body `null`. -/
def gatewayNullNet : Axios := netWith "BASIC" (.response 502 .null)

/-- The gateway does not answer in time. -/
def gatewayTimeoutNet : Axios :=
  netWith "BASIC" (.noResponse "ECONNABORTED" "timeout of 30000ms exceeded")

/-- An environment in which the MoMo credentials are not set. -/
def unconfiguredEnv : CreationEnv :=
  { MOMO_PARTNER_CODE := none, MOMO_ACCESS_KEY := none, MOMO_SECRET_KEY := none,
    MOMO_ENDPOINT := none, BACKEND_API_URL := some "https://backend.test",
    BACKEND_API_KEY := some "backend-key", FRONTEND_REDIRECT_URL := none, IPN_URL := none }

/-- A request of user `u1` whose body is the JSON text `null`. -/
def nullBodyEvent : JsVal := creationEventOf [("sub", .str "u1")] (.str "null")

/-- The request `packageType: "GOLD"` of user `u1`. -/
def goldRequestEvent : JsVal :=
  creationEventOf [("sub", .str "u1")] (.str (jsonStringify (.obj [("packageType", .str "GOLD")])))

/-- The body read from `goldRequestEvent`. -/
def goldRequestBody : CreationBody := { packageType := .str "GOLD", amount := .undefined }
/-! ## Request validation of the upload lambda (`file-upload/index.mjs`) -/

/-- The constant `MAX_FILE_SIZE = 50 * 1024 * 1024`. -/
def MAX_FILE_SIZE : Int := 50 * 1024 * 1024

/-- White space skipped by `parseInt` (ECMAScript `StrWhiteSpaceChar`). -/
def isStrWhiteSpace (c : Char) : Bool :=
  let v := c.toNat
  (9 ≤ v && v ≤ 13) || v == 32 || v == 160 || v == 5760 || (8192 ≤ v && v ≤ 8202) ||
    v == 8232 || v == 8233 || v == 8239 || v == 8287 || v == 12288 || v == 65279

/-- The value of a character as a digit of the given radix (10 or 16). -/
def radixDigit (radix : Nat) (c : Char) : Option Nat :=
  match hexValue c with
  | some d => if d < radix then some d else none
  | none => none

/-- The longest prefix of digits of the given radix, as a number; `acc` is the
    value read so far, `none` while no digit was read. -/
def readDigits (radix : Nat) : List Char → Option Nat → Option Nat
  | [], acc => acc
  | c :: rest, acc =>
    match radixDigit radix c with
    | some d => readDigits radix rest (some (acc.getD 0 * radix + d))
    | none => acc

/-- An optional sign in front of the digits: is it `-`, and what follows it. -/
def readSign : List Char → Bool × List Char
  | [] => (false, [])
  | c :: rest =>
    if c.toNat = 45 then (true, rest)
    else if c.toNat = 43 then (false, rest)
    else (false, c :: rest)

/-- An optional prefix `0x` or `0X`: the radix, and the digits that follow. -/
def readRadix : List Char → Nat × List Char
  | a :: b :: rest =>
    if a.toNat = 48 ∧ (b.toNat = 120 ∨ b.toNat = 88) then (16, rest) else (10, a :: b :: rest)
  | cs => (10, cs)

/-- The call `parseInt(text)` on a string, without a radix argument: leading
    white space is skipped, a sign and a prefix `0x` are read, then the longest
    run of digits; `none` is `NaN`. -/
def parseIntText (cs : List Char) : Option Int :=
  let signed := readSign (cs.dropWhile isStrWhiteSpace)
  let digits := readRadix signed.2
  match readDigits digits.1 digits.2 none with
  | some n => some (if signed.1 then -(n : Int) else (n : Int))
  | none => none

/-- The call `parseInt(v)`: the argument is first converted to a string, which
    throws for a value that cannot be converted; `none` is `NaN`. -/
def parseInt (v : JsVal) : Except JsError (Option Int) := do
  let text ← v.toText
  pure (parseIntText text.data)

/-- The test `typeof v !== "string"`. -/
def JsVal.notString : JsVal → Bool
  | .str _ => false
  | _ => true

namespace FileUpload

/-- The object returned by `validateRequest`. -/
structure Validation where
  isValid : Bool
  errors : List String
  body : JsVal

/-- Source `validateRequest`, lines 94 to 103: `event.body`, parsed when it is
    a string; `none` when the text is not JSON. -/
def parseBody (P : Platform) (event : JsVal) : Except JsError (Option JsVal) := do
  let body ← getProp event "body"
  match body with
  | .str text =>
    match P.jsonParse text with
    | .ok parsed => pure (some parsed)
    | .error _ => pure none
  | _ => pure (some body)

/-- Source `validateRequest`, lines 105 to 133: the checks on the parsed body.
    `errors` is the array that the checks push to. -/
def validateBody (body : JsVal) : Except JsError Validation := do
  let errors : List String := []
  let contentType ← getProp body "contentType"
  let errors :=
    if !contentType.truthy then errors ++ ["contentType is required"]
    else if contentType.notString then errors ++ ["contentType must be a string"]
    else errors
  let fileSize ← getProp body "fileSize"
  let errors ←
    if fileSize.truthy then do
      match ← parseInt fileSize with
      | none => pure (errors ++ ["fileSize must be a number"])
      | some size =>
        if size ≤ 0 then pure (errors ++ ["fileSize must be greater than 0"])
        else if size > MAX_FILE_SIZE then
          pure (errors ++
            ["fileSize must not exceed " ++ toString (MAX_FILE_SIZE / 1024 / 1024) ++ "MB"])
        else pure errors
    else pure errors
  let fileName ← getProp body "fileName"
  let errors :=
    if fileName.truthy && fileName.notString then errors ++ ["fileName must be a string"]
    else errors
  pure { isValid := errors.length == 0, errors := errors, body := body.orElse (.obj []) }

/-- Source `validateRequest(event)`. -/
def validateRequest (P : Platform) (event : JsVal) : Except JsError Validation := do
  match ← parseBody P event with
  | none => pure { isValid := false, errors := [] ++ ["Invalid JSON body"], body := .null }
  | some body => validateBody body

/-- What a caller observes of a validation: the verdict and the messages. -/
def verdictOf (r : Except JsError Validation) : Option (Bool × List String) :=
  match r with
  | .ok v => some (v.isValid, v.errors)
  | .error _ => none

/-- The event of an upload request whose body is the JSON text of the fields. -/
def uploadEvent (fields : List (String × JsVal)) : JsVal :=
  .obj [("body", .str (jsonStringify (.obj fields)))]

/-- A request that declares a size of zero bytes, as a number. -/
def zeroSizeEvent : JsVal := uploadEvent [("contentType", .str "image/png"), ("fileSize", .num 0)]

/-- The same request with the size written as the text `"0"`. -/
def zeroTextEvent : JsVal := uploadEvent [("contentType", .str "image/png"), ("fileSize", .str "0")]

/-- A request that declares a negative size. -/
def negativeSizeEvent : JsVal :=
  uploadEvent [("contentType", .str "image/png"), ("fileSize", .num (-1))]

end FileUpload

/-! ## The Cognito client of the admin lambdas

The admin lambdas call Cognito through the AWS SDK.  The output of
`ListUsersInGroup` is modelled with the types that the SDK declares for it
(`UserType`, `AttributeType`: attribute values are strings, dates are `Date`
objects, here their time value in milliseconds).  A command that is sent is
recorded in the trace as the HTTP request that the SDK makes for it, without the
signing headers. -/

/-- An attribute of a user (`AttributeType`). -/
structure AttributeType where
  Name : String
  Value : Option String

/-- A user as listed by Cognito (`UserType`); an absent property is `none`. -/
structure UserType where
  Username : Option String
  Attributes : Option (List AttributeType)
  UserCreateDate : Option Int
  UserLastModifiedDate : Option Int
  Enabled : Option Bool
  UserStatus : Option String

/-- The output of `ListUsersInGroupCommand`. -/
structure ListUsersInGroupOutput where
  Users : Option (List UserType)
  NextToken : Option String

/-- What `cognito.send(command)` does for a listing: it resolves to an output
    or rejects with an error. -/
inductive SendOutcome where
  | resolves (res : ListUsersInGroupOutput)
  | rejects (message : String)

/-- The user pool as seen through the client: the answer to each listing, given
    the requests made before it. -/
structure Cognito where
  listUsersInGroup : List HttpRequest → HttpRequest → SendOutcome

/-- The HTTP request that the SDK makes for an operation with a given input. -/
def cognitoRequest (region : String) (operation : String) (input : JsVal) : HttpRequest :=
  { url := "https://cognito-idp." ++ region ++ ".amazonaws.com/"
    method := "POST"
    headers := [("Content-Type", .str "application/x-amz-json-1.1"),
                ("X-Amz-Target", .str ("AWSCognitoIdentityProviderService." ++ operation))]
    bodyJson := input
    timeoutMs := 0 }

/-- The call `client.send(new ListUsersInGroupCommand(input))`. -/
def sendListUsersInGroup (cognito : Cognito) (region : String) (input : JsVal) :
    Js ListUsersInGroupOutput := fun _ s =>
  let req := cognitoRequest region "ListUsersInGroup" input
  let s1 : St := { s with effects := s.effects ++ [.fetch req] }
  match cognito.listUsersInGroup (requestsOf s.effects) req with
  | .resolves res => .ok res s1
  | .rejects message => .threw (.plain message) s1

/-- A world for the runs of the admin lambdas, which neither call `fetch` nor
    read the clock. -/
def idleWorld : World := { fetch := fun _ _ => .rejects "no network", now := fun _ => 0 }

/-- An optional boolean as a value. -/
def optionalBool : Option Bool → JsVal
  | none => .undefined
  | some b => .bool b

/-- An optional `Date` as `JSON.stringify` sees it: its `toJSON()` text. -/
def optionalDate (P : Platform) : Option Int → JsVal
  | none => .undefined
  | some ms => .str (P.toISOString ms)

/-- The test `text.startsWith(word)` on characters. -/
def startsWithChars : List Char → List Char → Bool
  | [], _ => true
  | _ :: _, [] => false
  | x :: word, c :: cs => x == c && startsWithChars word cs

/-- The test `text.includes(word)` on characters. -/
def includesChars (word : List Char) : List Char → Bool
  | [] => word.isEmpty
  | c :: cs => startsWithChars word (c :: cs) || includesChars word cs

/-- The call `text.split(',')` on characters. -/
def splitOnComma : List Char → List (List Char)
  | [] => [[]]
  | c :: rest =>
    if c.toNat = 44 then [] :: splitOnComma rest
    else
      match splitOnComma rest with
      | [] => [[c]]
      | part :: parts => (c :: part) :: parts

/-! ## The coach administration lambda (`admin-operations/manage-coaches.js`) -/

namespace ManageCoaches

/-- The variables read from `process.env`. -/
structure CoachesEnv where
  COGNITO_REGION : Option String
  USER_POOL_REGION : Option String
  USER_POOL_ID : Option String

/-- The constant `COGNITO_REGION`. -/
def COGNITO_REGION (env : CoachesEnv) : String :=
  if !envFalsy env.COGNITO_REGION then envStr env.COGNITO_REGION
  else if !envFalsy env.USER_POOL_REGION then envStr env.USER_POOL_REGION
  else "us-east-1"

/-- Source `createResponse(statusCode, body)`. -/
def createResponse (statusCode : Int) (body : JsVal) : ApiResponse :=
  { statusCode := .num statusCode
    headers := [("Content-Type", "application/json"), ("Access-Control-Allow-Origin", "*"),
                ("Access-Control-Allow-Methods", "GET, POST, DELETE, OPTIONS"),
                ("Access-Control-Allow-Headers", "Content-Type, Authorization")]
    body := jsonStringify body }

/-- The object returned by `verifyAdminAccess`: `error` is set when access is
    refused, `email` when it is granted. -/
structure AuthCheck where
  authorized : Bool
  error : JsVal
  email : JsVal

/-- The expression `event.requestContext?.authorizer?.claims`. -/
def claimsOf (event : JsVal) : Except JsError JsVal := do
  let requestContext ← getProp event "requestContext"
  pure (getPropOpt (getPropOpt requestContext "authorizer") "claims")

/-- The expression
    `groups ? (Array.isArray(groups) ? groups : groups.split(',')) : []`. -/
def groupsArrayOf (groups : JsVal) : Except JsError (List JsVal) :=
  if groups.truthy then
    match groups with
    | .arr items => pure items
    | .str text => pure ((splitOnComma text.data).map (fun part => .str (String.mk part)))
    | _ => .error (.plain "groups.split is not a function")
  else pure []

/-- The test `groupsArray.includes('admin')`. -/
def includesAdmin (groupsArray : List JsVal) : Bool :=
  groupsArray.any (fun g => g.strictEqStr "admin")

/-- Source `verifyAdminAccess(event)`. -/
def verifyAdminAccess (event : JsVal) : Except JsError AuthCheck := do
  let claims ← claimsOf event
  if !claims.truthy then
    pure { authorized := false, error := .str "No authorization claims found",
           email := .undefined }
  else do
    let groups ← getProp claims "cognito:groups"
    let groupsArray ← groupsArrayOf groups
    if !includesAdmin groupsArray then
      pure { authorized := false, error := .str "Access denied. Admin role required.",
             email := .undefined }
    else do
      let email ← getProp claims "email"
      pure { authorized := true, error := .undefined, email := email }

/-- The property `attributes[name]` of the object that the listing fills with
    `attributes[attr.Name] = attr.Value`: the value assigned last. -/
def attributeOf (attrs : List AttributeType) (name : String) : Option String :=
  match (attrs.filter (fun attr => attr.Name == name)).getLast? with
  | some attr => attr.Value
  | none => none

/-- The object built for one coach in `listCoaches`. -/
def coachOf (P : Platform) (user : UserType) : Except JsError JsVal :=
  match user.Attributes with
  | none => .error (.plain "Cannot read properties of undefined (reading forEach)")
  | some attrs =>
    pure (.obj [("username", envVal user.Username),
                ("email", envVal (attributeOf attrs "email")),
                ("name", (envVal (attributeOf attrs "name")).orElse
                  (envVal (attributeOf attrs "email"))),
                ("emailVerified", .bool (attributeOf attrs "email_verified" == some "true")),
                ("status", envVal user.UserStatus),
                ("enabled", optionalBool user.Enabled),
                ("createdAt", optionalDate P user.UserCreateDate)])

/-- The expression `response.Users.map(user => ...)` of `listCoaches`. -/
def coachesOf (P : Platform) (response : ListUsersInGroupOutput) :
    Except JsError (List JsVal) :=
  match response.Users with
  | none => .error (.plain "Cannot read properties of undefined (reading map)")
  | some users => users.mapM (coachOf P)

/-- The input of the listing command of `listCoaches`. -/
def listCoachesInput (env : CoachesEnv) : JsVal :=
  .obj [("UserPoolId", envVal env.USER_POOL_ID), ("GroupName", .str "coach"),
        ("Limit", .num 60)]

/-- Source `listCoaches()`. -/
def listCoaches (P : Platform) (cognito : Cognito) (env : CoachesEnv) : Js ApiResponse :=
  Js.tryCatch
    (do
      let response ← sendListUsersInGroup cognito (COGNITO_REGION env) (listCoachesInput env)
      let coaches ← Js.ofExcept (coachesOf P response)
      pure (createResponse 200
        (.obj [("success", .bool true), ("coaches", .arr coaches),
               ("count", .num coaches.length)])))
    (fun error => do
      Js.console .error "Error listing coaches:"
      pure (createResponse 500
        (.obj [("success", .bool false), ("error", .str "Failed to list coaches"),
               ("message", .str error.message)])))

/-- The three actions that the handler reaches only after the admin check
    (`listUsers`, `assignCoach`, `removeCoach`): they are parameters of the
    handler, and what is proved about the handler holds whatever they do. -/
structure AdminActions where
  listUsers : JsVal → Js ApiResponse
  assignCoach : JsVal → Js ApiResponse
  removeCoach : JsVal → Js ApiResponse

/-- The call `path.includes(word)`: a substring test on a string, a membership
    test on an array, a `TypeError` on the other values. -/
def pathIncludes (path : JsVal) (word : String) : Except JsError Bool :=
  match path with
  | .str text => pure (includesChars word.data text.data)
  | .arr items => pure (items.any (fun item => item.strictEqStr word))
  | .undefined => .error (.plain "Cannot read properties of undefined (reading includes)")
  | .null => .error (.plain "Cannot read properties of null (reading includes)")
  | _ => .error (.plain "path.includes is not a function")

/-- A routing test `method === verb && path.includes(word)`: the path is looked
    at only when the method matches. -/
def routeIs (method path : JsVal) (verb word : String) : Except JsError Bool :=
  if method.strictEqStr verb then pathIncludes path word else pure false

/-- The expression `event.path || event.resource`. -/
def pathOf (event : JsVal) : Except JsError JsVal := do
  let path ← getProp event "path"
  let resource ← getProp event "resource"
  pure (path.orElse resource)

/-- The routes behind the admin check. -/
def adminRoutes (P : Platform) (cognito : Cognito) (env : CoachesEnv) (actions : AdminActions)
    (event method path : JsVal) : Js ApiResponse := do
  if ← Js.ofExcept (routeIs method path "GET" "coaches") then listCoaches P cognito env
  else if ← Js.ofExcept (routeIs method path "GET" "users") then actions.listUsers event
  else if ← Js.ofExcept (routeIs method path "POST" "coaches") then actions.assignCoach event
  else if ← Js.ofExcept (routeIs method path "DELETE" "coaches") then actions.removeCoach event
  else
    pure (createResponse 404
      (.obj [("success", .bool false), ("error", .str "Route not found"), ("path", path),
             ("method", method)]))

/-- The body of the `try` of the handler. -/
def handlerTry (P : Platform) (cognito : Cognito) (env : CoachesEnv) (actions : AdminActions)
    (event : JsVal) : Js ApiResponse := do
  let method ← Js.ofExcept (getProp event "httpMethod")
  let path ← Js.ofExcept (pathOf event)
  if ← Js.ofExcept (routeIs method path "GET" "coaches") then listCoaches P cognito env
  else do
    let authCheck ← Js.ofExcept (verifyAdminAccess event)
    if !authCheck.authorized then
      pure (createResponse 403 (.obj [("success", .bool false), ("error", authCheck.error)]))
    else adminRoutes P cognito env actions event method path

/-- The `catch` block of the handler. -/
def handlerCatch (error : JsError) : Js ApiResponse := do
  Js.console .error "Unhandled error:"
  pure (createResponse 500
    (.obj [("success", .bool false), ("error", .str "Internal server error"),
           ("message", .str error.message)]))

/-- Source `handler` of the coach administration lambda. -/
def handler (P : Platform) (cognito : Cognito) (env : CoachesEnv) (actions : AdminActions)
    (event : JsVal) : Js ApiResponse := do
  Js.console .log "Admin Operations Lambda:"
  let httpMethod ← Js.ofExcept (getProp event "httpMethod")
  if httpMethod.strictEqStr "OPTIONS" then
    pure (createResponse 200 (.obj [("message", .str "OK")]))
  else Js.tryCatch (handlerTry P cognito env actions event) handlerCatch

/-- One invocation of the handler, from the empty trace. -/
def runCoaches (P : Platform) (cognito : Cognito) (env : CoachesEnv) (actions : AdminActions)
    (w : World) (event : JsVal) : Res ApiResponse :=
  handler P cognito env actions event w { effects := [], clockReads := 0 }

/-- Is the value a string or an array: the values on which `includes` and
    `split` can be called. -/
def textOrArray : JsVal → Bool
  | .str _ => true
  | .arr _ => true
  | _ => false

/-- Does the claim `cognito:groups` contain `admin`: as an array, one of its
    items is `admin`; as a text, one of its parts between commas is. -/
def containsAdmin (groups : JsVal) : Bool :=
  match groups with
  | .arr items => includesAdmin items
  | .str text => includesAdmin ((splitOnComma text.data).map (fun part => .str (String.mk part)))
  | _ => false

/-- The request is not from an admin: the authorizer claims are missing, or
    their `cognito:groups` does not contain `admin`. -/
def NotAdmin (event : JsVal) : Prop :=
  ∃ claims, claimsOf event = .ok claims ∧
    (claims.truthy = false ∨ containsAdmin (getPropOpt claims "cognito:groups") = false)

/-- The request is for the public listing: a `GET` whose path includes
    `coaches`. -/
def PublicListing (event : JsVal) : Prop :=
  ∃ method path, getProp event "httpMethod" = .ok method ∧ pathOf event = .ok path ∧
    routeIs method path "GET" "coaches" = .ok true

/-- The requests that end in the `catch` block before the admin check is
    complete: a `GET` whose path is neither a string nor an array, and a request
    with claims whose `cognito:groups` is truthy and neither a string nor an
    array. -/
def Unreadable (method path claims : JsVal) : Prop :=
  (method.strictEqStr "GET" = true ∧ textOrArray path = false) ∨
    (claims.truthy = true ∧ (getPropOpt claims "cognito:groups").truthy = true ∧
      textOrArray (getPropOpt claims "cognito:groups") = false)

end ManageCoaches

/-! ## Concrete requests to the coach administration lambda -/

namespace ManageCoaches

/-- An environment with a user pool. -/
def coachesTestEnv : CoachesEnv :=
  { COGNITO_REGION := none, USER_POOL_REGION := none, USER_POOL_ID := some "us-east-1_TestPool" }

/-- A user pool whose coach group holds one coach. -/
def oneCoachPool : Cognito :=
  { listUsersInGroup := fun _ _ =>
      .resolves
        { Users := some
            [{ Username := some "coach-1"
               Attributes := some [{ Name := "email", Value := some "coach@example.com" },
                                   { Name := "email_verified", Value := some "true" }]
               UserCreateDate := some 1733445600000
               UserLastModifiedDate := some 1733445600000
               Enabled := some true
               UserStatus := some "CONFIRMED" }]
          NextToken := none } }

/-- Admin actions for the concrete runs, none of which reaches them. -/
def unreachedActions : AdminActions :=
  { listUsers := fun _ => Js.throwErr (.plain "listUsers")
    assignCoach := fun _ => Js.throwErr (.plain "assignCoach")
    removeCoach := fun _ => Js.throwErr (.plain "removeCoach") }

/-- A request of an authenticated customer: the claims hold the group `customer`. -/
def customerRequest (method path : String) : JsVal :=
  .obj [("httpMethod", .str method), ("path", .str path),
        ("requestContext", .obj [("authorizer", .obj [("claims",
          .obj [("sub", .str "u1"), ("cognito:groups", .str "customer")])])])]

/-- A `GET` request of that customer that carries neither `path` nor
    `resource`. -/
def pathlessRequest : JsVal :=
  .obj [("httpMethod", .str "GET"),
        ("requestContext", .obj [("authorizer", .obj [("claims",
          .obj [("sub", .str "u1"), ("cognito:groups", .str "customer")])])])]

/-- A request to remove a coach whose claim `cognito:groups` is a number. -/
def numericGroupsRequest : JsVal :=
  .obj [("httpMethod", .str "DELETE"), ("path", .str "/admin/coaches"),
        ("requestContext", .obj [("authorizer", .obj [("claims",
          .obj [("sub", .str "u1"), ("cognito:groups", .num 1)])])])]

end ManageCoaches

/-! ## The user listing lambda (`admin-operations/admin-list-users.js`) -/

/-- The call `parseInt(text, 10)`: white space is skipped, a sign is read, then
    the longest run of decimal digits; `none` is `NaN`. -/
def parseIntDecimal (cs : List Char) : Option Int :=
  let signed := readSign (cs.dropWhile isStrWhiteSpace)
  match readDigits 10 signed.2 none with
  | some n => some (if signed.1 then -(n : Int) else (n : Int))
  | none => none

namespace ListUsers

/-- The variables read from `process.env`. -/
structure ListUsersEnv where
  USER_POOL_ID : Option String
  PAGE_SIZE : Option String

/-- The expression `process.env.NAME || fallback`. -/
def envOr (value : Option String) (fallback : String) : String :=
  if envFalsy value then fallback else envStr value

/-- The constant `userPoolId`. -/
def userPoolId (env : ListUsersEnv) : String := envOr env.USER_POOL_ID "us-east-1_dskUsnKt3"

/-- The constant `limit`, as it is written into a request: `NaN` is written `null`. -/
def limit (env : ListUsersEnv) : JsVal :=
  match parseIntDecimal (envOr env.PAGE_SIZE "60").data with
  | some n => .num n
  | none => .null

/-- The constant `headers`. -/
def headers : List (String × String) :=
  [("Access-Control-Allow-Origin", "*"),
   ("Access-Control-Allow-Headers", "Content-Type,Authorization,X-User-Id,X-User-Group"),
   ("Content-Type", "application/json")]

/-- A response of the handler with the fixed headers. -/
def respond (statusCode : Int) (body : JsVal) : ApiResponse :=
  { statusCode := .num statusCode, headers := headers, body := jsonStringify body }

/-- The object returned by `mapUserAttributes`; `tier` and `avatarUrl` are
    always `null`. -/
structure MappedUser where
  sub : Option String
  email : Option String
  fullName : String
  phoneNumber : Option String
  emailVerified : Bool
  role : String
  status : String
  userStatus : Option String
  createdAt : Option Int
  updatedAt : Option Int

/-- A mapped user as `JSON.stringify` sees it. -/
def MappedUser.toJson (P : Platform) (user : MappedUser) : JsVal :=
  .obj [("sub", envVal user.sub), ("email", envVal user.email),
        ("fullName", .str user.fullName), ("phoneNumber", envVal user.phoneNumber),
        ("emailVerified", .bool user.emailVerified), ("role", .str user.role),
        ("status", .str user.status), ("userStatus", envVal user.userStatus),
        ("createdAt", optionalDate P user.createdAt),
        ("updatedAt", optionalDate P user.updatedAt),
        ("tier", .null), ("avatarUrl", .null)]

/-- The function `getAttr` of `mapUserAttributes`:
    `attrs.find(a => a.Name === name)?.Value`. -/
def getAttr (attrs : List AttributeType) (name : String) : Option String :=
  match attrs.find? (fun a => a.Name == name) with
  | some a => a.Value
  | none => none

/-- The expression `email?.split('@')[0]`: the text in front of the first `@`. -/
def localPart : Option String → Option String
  | none => none
  | some email => some (String.mk (email.data.takeWhile (fun c => c.toNat != 64)))

/-- The expression `a || b` on optional strings. -/
def orText (a b : Option String) : Option String := if envFalsy a then b else a

/-- The expression `group?.toUpperCase() || 'CUSTOMER'`; `toUpperCase` is the
    method of strings of the runtime. -/
def roleOf (toUpperCase : String → String) (group : JsVal) : Except JsError String :=
  match group with
  | .undefined => pure "CUSTOMER"
  | .null => pure "CUSTOMER"
  | .str g => pure (if toUpperCase g == "" then "CUSTOMER" else toUpperCase g)
  | _ => .error (.plain "group?.toUpperCase is not a function")

/-- Source `mapUserAttributes(cognitoUser, group)`. -/
def mapUserAttributes (toUpperCase : String → String) (cognitoUser : UserType)
    (group : JsVal) : Except JsError MappedUser := do
  let attrs := cognitoUser.Attributes.getD []
  let role ← roleOf toUpperCase group
  pure
    { sub := getAttr attrs "sub"
      email := getAttr attrs "email"
      fullName :=
        envStr (orText (orText (orText (getAttr attrs "name") (getAttr attrs "given_name"))
          (localPart (getAttr attrs "email"))) (some "User"))
      phoneNumber := getAttr attrs "phone_number"
      emailVerified := getAttr attrs "email_verified" == some "true"
      role := role
      status := if cognitoUser.Enabled == some false then "INACTIVE" else "ACTIVE"
      userStatus := cognitoUser.UserStatus
      createdAt := cognitoUser.UserCreateDate
      updatedAt := cognitoUser.UserLastModifiedDate }

/-- The expression `(res.Users || []).map(u => mapUserAttributes(u, group))`. -/
def mapUsers (toUpperCase : String → String) (res : ListUsersInGroupOutput) (group : JsVal) :
    Except JsError (List MappedUser) :=
  (res.Users.getD []).mapM (fun u => mapUserAttributes toUpperCase u group)

/-- The input of the listing command for one group of the listing of all groups. -/
def groupInput (env : ListUsersEnv) (group : String) : JsVal :=
  .obj [("UserPoolId", .str (userPoolId env)), ("GroupName", .str group), ("Limit", .num 60)]

/-- One turn of the loop `for (const group of groups)`: the users of the group
    are appended to `allUsers`; when the listing fails, the group is skipped. -/
def listGroup (toUpperCase : String → String) (cognito : Cognito) (env : ListUsersEnv)
    (allUsers : List MappedUser) (group : String) : Js (List MappedUser) :=
  Js.tryCatch
    (do
      let res ← sendListUsersInGroup cognito "us-east-1" (groupInput env group)
      let groupUsers ← Js.ofExcept (mapUsers toUpperCase res (.str group))
      pure (allUsers ++ groupUsers))
    (fun _ => do
      Js.console .warn ("Failed to list " ++ group ++ " group:")
      pure allUsers)

/-- The loop `for (const group of groups)`. -/
def listGroups (toUpperCase : String → String) (cognito : Cognito) (env : ListUsersEnv) :
    List String → List MappedUser → Js (List MappedUser)
  | [], allUsers => pure allUsers
  | group :: groups, allUsers => do
    let allUsers ← listGroup toUpperCase cognito env allUsers group
    listGroups toUpperCase cognito env groups allUsers

/-- The loop that removes duplicates: `uniqueUsers` is the array built so far,
    `seenSubs` the members of the set. -/
def removeDuplicates :
    List MappedUser → List MappedUser → List (Option String) → List MappedUser
  | [], uniqueUsers, _ => uniqueUsers
  | user :: allUsers, uniqueUsers, seenSubs =>
    if !seenSubs.contains user.sub then
      removeDuplicates allUsers (uniqueUsers ++ [user]) (seenSubs ++ [user.sub])
    else removeDuplicates allUsers uniqueUsers seenSubs

/-- The body of the answer to a listing of all groups. -/
def allGroupsBody (P : Platform) (uniqueUsers : List MappedUser) : JsVal :=
  .obj [("users", .arr (uniqueUsers.map (MappedUser.toJson P))),
        ("total", .num uniqueUsers.length), ("nextToken", .null)]

/-- The body of the `try` of the handler. -/
def handlerTry (P : Platform) (toUpperCase : String → String) (cognito : Cognito)
    (env : ListUsersEnv) (event : JsVal) : Js ApiResponse := do
  let query := (← Js.ofExcept (getProp event "queryStringParameters")).orElse (.obj [])
  let token ← Js.ofExcept (getProp query "nextToken")
  let groupFilter ← Js.ofExcept (getProp query "group")
  if groupFilter.truthy then do
    let res ← sendListUsersInGroup cognito "us-east-1"
      (.obj [("UserPoolId", .str (userPoolId env)), ("GroupName", groupFilter),
             ("Limit", limit env), ("NextToken", token)])
    let allUsers ← Js.ofExcept (mapUsers toUpperCase res groupFilter)
    pure (respond 200
      (.obj [("users", .arr (allUsers.map (MappedUser.toJson P))),
             ("nextToken", (envVal res.NextToken).orElse .null)]))
  else do
    let allUsers ← listGroups toUpperCase cognito env ["customer", "coach", "admin"] []
    let uniqueUsers := removeDuplicates allUsers [] []
    pure (respond 200 (allGroupsBody P uniqueUsers))

/-- The `catch` block of the handler. -/
def handlerCatch (err : JsError) : Js ApiResponse := do
  Js.console .error "Error listing users:"
  pure (respond 500
    (.obj [("error", (JsVal.str err.message).orElse (.str "Internal error"))]))

/-- Source `handler` of the user listing lambda. -/
def handler (P : Platform) (toUpperCase : String → String) (cognito : Cognito)
    (env : ListUsersEnv) (event : JsVal) : Js ApiResponse := do
  Js.console .log "admin-list-users event:"
  Js.tryCatch (handlerTry P toUpperCase cognito env event) handlerCatch

/-- One invocation of the handler, from the empty trace. -/
def runListUsers (P : Platform) (toUpperCase : String → String) (cognito : Cognito)
    (env : ListUsersEnv) (w : World) (event : JsVal) : Res ApiResponse :=
  handler P toUpperCase cognito env event w { effects := [], clockReads := 0 }

/-- The users of one group as they enter `allUsers`: the mapped listing, or
    nothing when the listing fails.  `before` are the requests made earlier. -/
def groupListing (toUpperCase : String → String) (cognito : Cognito) (env : ListUsersEnv)
    (before : List HttpRequest) (group : String) : List MappedUser :=
  match cognito.listUsersInGroup before
      (cognitoRequest "us-east-1" "ListUsersInGroup" (groupInput env group)) with
  | .resolves res =>
    match mapUsers toUpperCase res (.str group) with
    | .ok groupUsers => groupUsers
    | .error _ => []
  | .rejects _ => []

/-- The listings of the given groups, concatenated in that order. -/
def concatenatedListings (toUpperCase : String → String) (cognito : Cognito)
    (env : ListUsersEnv) : List HttpRequest → List String → List MappedUser
  | _, [] => []
  | before, group :: groups =>
    groupListing toUpperCase cognito env before group ++
      concatenatedListings toUpperCase cognito env
        (before ++ [cognitoRequest "us-east-1" "ListUsersInGroup" (groupInput env group)]) groups

/-- The role given to the users of a group of the listing of all groups. -/
def groupRole (toUpperCase : String → String) (group : String) : String :=
  if toUpperCase group == "" then "CUSTOMER" else toUpperCase group

/-! ### A concrete pool -/

/-- Upper case of a text of ASCII letters, as `toUpperCase` gives it. -/
def asciiUpperCase (text : String) : String :=
  String.mk (text.data.map (fun c =>
    if 97 ≤ c.toNat ∧ c.toNat ≤ 122 then Char.ofNat (c.toNat - 32) else c))

/-- A confirmed user with a `sub` and an email. -/
def poolUser (sub email : String) : UserType :=
  { Username := some sub
    Attributes := some [{ Name := "sub", Value := some sub },
                        { Name := "email", Value := some email }]
    UserCreateDate := some 1733445600000
    UserLastModifiedDate := some 1733445600000
    Enabled := some true
    UserStatus := some "CONFIRMED" }

/-- A pool in which `ann` and `bob` are customers, `bob` and `cleo` are
    coaches, and the listing of the admin group fails. -/
def overlappingPool : Cognito :=
  { listUsersInGroup := fun _ req =>
      if (getPropOpt req.bodyJson "GroupName").strictEqStr "customer" then
        .resolves { Users := some [poolUser "s-ann" "ann@example.com",
                                   poolUser "s-bob" "bob@example.com"], NextToken := none }
      else if (getPropOpt req.bodyJson "GroupName").strictEqStr "coach" then
        .resolves { Users := some [poolUser "s-bob" "bob@example.com",
                                   poolUser "s-cleo" "cleo@example.com"], NextToken := none }
      else .rejects "Group not found." }

/-- An environment without settings. -/
def listUsersTestEnv : ListUsersEnv := { USER_POOL_ID := none, PAGE_SIZE := none }

/-- A request without query parameters. -/
def listAllEvent : JsVal := .obj [("queryStringParameters", .null)]

/-- The mapped user of `poolUser sub email` listed in a group with a given role. -/
def mappedPoolUser (sub email name role : String) : MappedUser :=
  { sub := some sub, email := some email, fullName := name, phoneNumber := none,
    emailVerified := false, role := role, status := "ACTIVE", userStatus := some "CONFIRMED",
    createdAt := some 1733445600000, updatedAt := some 1733445600000 }

end ListUsers

/-! # Theorems -/

set_option maxRecDepth 1000000

/-! ## Number values -/

/-- Below `2^53` in absolute value, `Number::toString` writes the decimal digits
    of the integer. -/
theorem numberToString_of_small (n : Int) (h : n.natAbs < 2 ^ 53) :
    numberToString n = toString n := by
  unfold numberToString naturalToString
  cases n with
  | ofNat k =>
    have h1 : ¬ (Int.ofNat k < 0) := Int.not_lt.2 (Int.ofNat_zero_le k)
    rw [if_neg h1, if_pos h]
    rfl
  | negSucc k =>
    rw [if_pos (Int.negSucc_lt_zero k), if_pos h]
    rfl

/-- Values of `Number::toString`: an integer below `2^53`, an integer that is
    not a double, the largest notation without an exponent, and two notations
    with an exponent. -/
theorem numberToString_examples :
    numberToString 30000 = "30000" ∧
    numberToString (-5) = "-5" ∧
    numberToString 9007199254740993 = "9007199254740992" ∧
    numberToString 123456789012345678901 = "123456789012345680000" ∧
    numberToString 1000000000000000000000 = "1e+21" ∧
    numberToString 1180591620717411303424 = "1.1805916207174113e+21" :=
  ⟨rfl, by decide, rfl, rfl, rfl, rfl⟩

/-! ## Running computations -/

@[simp] theorem Js.bind_def {α β : Type} (m : Js α) (f : α → Js β) :
    (m >>= f) = Js.andThen m f := rfl

@[simp] theorem Js.pure_def {α : Type} (a : α) : (pure a : Js α) = Js.ret a := rfl

@[simp] theorem Js.ret_run {α : Type} (a : α) (w : World) (s : St) : Js.ret a w s = .ok a s := rfl

@[simp] theorem Js.throwErr_run {α : Type} (e : JsError) (w : World) (s : St) :
    (Js.throwErr e : Js α) w s = .threw e s := rfl

@[simp] theorem Js.console_run (l : LogLevel) (t : String) (w : World) (s : St) :
    Js.console l t w s = .ok () { s with effects := s.effects ++ [.console l t] } := rfl

@[simp] theorem Js.ofExcept_ok {α : Type} (a : α) : Js.ofExcept (.ok a) = Js.ret a := rfl

@[simp] theorem Js.ofExcept_error {α : Type} (e : JsError) :
    (Js.ofExcept (.error e) : Js α) = Js.throwErr e := rfl

@[simp] theorem Js.clockNow_run (w : World) (s : St) :
    Js.clockNow w s = .ok (w.now s.clockReads) { s with clockReads := s.clockReads + 1 } := rfl

theorem Js.andThen_run {α β : Type} (m : Js α) (f : α → Js β) (w : World) (s : St) :
    Js.andThen m f w s =
      match m w s with
      | .ok a s1 => f a w s1
      | .threw e s1 => .threw e s1 := rfl

theorem Js.tryCatch_run {α : Type} (m : Js α) (h : JsError → Js α) (w : World) (s : St) :
    Js.tryCatch m h w s =
      match m w s with
      | .ok a s1 => .ok a s1
      | .threw e s1 => h e w s1 := rfl

@[simp] theorem fetchWithTimeout_run (req : HttpRequest) (w : World) (s : St) :
    fetchWithTimeout req w s =
      match w.fetch (requestsOf s.effects) req with
      | .response status text =>
        .ok { status := status, textResult := text } { s with effects := s.effects ++ [.fetch req] }
      | .rejects message =>
        .threw (.plain message) { s with effects := s.effects ++ [.fetch req] } := rfl

@[simp] theorem requestsOf_append (a b : List Effect) :
    requestsOf (a ++ b) = requestsOf a ++ requestsOf b := by
  induction a with
  | nil => rfl
  | cons e rest ih => cases e <;> simp [requestsOf, ih]

theorem Js.texts_run (vs : List JsVal) (w : World) (s : St) :
    Js.texts vs w s =
      if vs.all JsVal.convertible = true then .ok () s
      else .threw (.plain "Cannot convert object to primitive value") s := by
  induction vs with
  | nil => rfl
  | cons v rest ih =>
    cases hv : v.convertible <;>
      simp [Js.texts, Js.andThen_run, JsVal.toText, hv, ih]

theorem Js.texts_ok (vs : List JsVal) (w : World) (s : St)
    (h : vs.all JsVal.convertible = true) : Js.texts vs w s = .ok () s := by
  rw [Js.texts_run, if_pos h]

theorem Js.texts_threw (vs : List JsVal) (w : World) (s : St)
    (h : vs.all JsVal.convertible = false) :
    Js.texts vs w s = .threw (.plain "Cannot convert object to primitive value") s := by
  rw [Js.texts_run, h]
  rfl

/-! ## The requests of each step of the IPN handler -/

theorem stepPatch_spec (P : Platform) (env : Env) (d : IpnData) (x : ExtraData) (w : World)
    (s : St) :
    ∃ s1, stepPatch P env d x w s = .ok () s1 ∧
      requestsOf s1.effects =
        requestsOf s.effects ++ [patchRequest env x (patchData P w d x s.clockReads)] := by
  cases hf : w.fetch (requestsOf s.effects)
      (patchRequest env x (patchData P w d x s.clockReads)) with
  | response status text =>
    by_cases hok : (FetchResponse.ok { status := status, textResult := text }) = true <;>
    cases text <;>
    simp [stepPatch, calculateExpiryDate, Js.tryCatch_run, Js.andThen_run, patchCatch,
      FetchResponse.text, patchData, requestsOf, Nat.add_assoc, getPropOpt,
      JsError.plain, JsVal.strictEqNum, JsVal.truthy] at hf hok ⊢ <;>
    simp [hf, hok, Js.andThen_run, requestsOf, JsVal.strictEqNum, JsVal.truthy]
  | rejects m =>
    simp [stepPatch, calculateExpiryDate, Js.tryCatch_run, Js.andThen_run, patchCatch,
      FetchResponse.text, patchData, requestsOf, Nat.add_assoc, getPropOpt,
      JsError.plain, JsVal.strictEqNum, JsVal.truthy] at hf ⊢
    try simp [hf, Js.andThen_run, requestsOf, JsVal.strictEqNum, JsVal.truthy]

theorem stepUpgrade_spec (env : Env) (x : ExtraData) (w : World) (s : St) :
    ∃ s1, stepUpgrade env x w s = .ok () s1 ∧ s1.clockReads = s.clockReads ∧
      requestsOf s1.effects = requestsOf s.effects ++ upgradeCalls env x := by
  by_cases hp : x.programId.truthy = true
  · cases hf : w.fetch (requestsOf s.effects) (upgradeRequest env x) with
    | response status text =>
      by_cases hok : (FetchResponse.ok { status := status, textResult := text }) = true <;>
      cases text <;>
      simp [stepUpgrade, upgradeCalls, hp, Js.tryCatch_run, Js.andThen_run,
        FetchResponse.text, requestsOf] at hf hok ⊢ <;>
      simp [hf, hok, Js.andThen_run, requestsOf]
    | rejects m =>
      simp [stepUpgrade, upgradeCalls, hp, Js.tryCatch_run, Js.andThen_run,
        FetchResponse.text, requestsOf] at hf ⊢
      try simp [hf, Js.andThen_run, requestsOf]
  · simp [stepUpgrade, upgradeCalls, hp]

theorem stepProcess_spec (P : Platform) (env : Env) (d : IpnData) (x : ExtraData) (w : World)
    (s : St) :
    ∃ s1, stepProcess P env d x w s = .ok () s1 ∧
      requestsOf s1.effects = requestsOf s.effects ++ processCalls P env w d x s.clockReads := by
  by_cases hrc : d.resultCode.strictEqNum 0 = true
  · obtain ⟨s1, h1, hc1, hr1⟩ :=
      stepUpgrade_spec env x w { s with effects := s.effects ++ [.console .log
        ("✅ Payment successful - updating user " ++ x.userId.toStr ++ " to " ++
          x.packageType.toStr)] }
    obtain ⟨s2, h2, hr2⟩ := stepPatch_spec P env d x w s1
    refine ⟨s2, ?_, ?_⟩
    · simp [stepProcess, hrc, Js.andThen_run, h1, h2]
    · simp [processCalls, hrc, hr2, hr1, requestsOf] at hc1 ⊢
      simp [hc1]
  · simp [stepProcess, processCalls, hrc, Js.andThen_run, requestsOf]

theorem stepParseExtraData_spec (P : Platform) (extraData : JsVal) (w : World) (s : St) :
    ∃ s1, stepParseExtraData P extraData w s = .ok (decodeExtraData P extraData) s1 ∧
      s1.clockReads = s.clockReads ∧ requestsOf s1.effects = requestsOf s.effects := by
  cases hr : readExtraData P extraData with
  | error e =>
    simp [stepParseExtraData, parseExtraData, decodeExtraData, hr, Js.tryCatch_run,
      Js.andThen_run, requestsOf]
  | ok x =>
    cases h1 : x.userId.convertible
    · simp [stepParseExtraData, parseExtraData, decodeExtraData, ExtraData.convertible, hr, h1,
        Js.tryCatch_run, Js.andThen_run, Js.texts_run, requestsOf]
    · cases h2 : x.packageType.convertible
      · simp [stepParseExtraData, parseExtraData, decodeExtraData, ExtraData.convertible, hr, h1,
          h2, Js.tryCatch_run, Js.andThen_run, Js.texts_run, requestsOf]
      · cases h3 : (x.programId.orElse (.str "N/A (direct subscription)")).convertible
        · simp [stepParseExtraData, parseExtraData, decodeExtraData, ExtraData.convertible, hr,
            h1, h2, h3, Js.tryCatch_run, Js.andThen_run, Js.texts_run, requestsOf]
        · by_cases hg : x.userId.truthy = false ∨ x.packageType.truthy = false
          · simp [stepParseExtraData, parseExtraData, decodeExtraData, ExtraData.convertible,
              hr, h1, h2, h3, hg, Js.tryCatch_run, Js.andThen_run, Js.texts_run, requestsOf]
          · simp [stepParseExtraData, parseExtraData, decodeExtraData, ExtraData.convertible,
              hr, h1, h2, h3, hg, Js.tryCatch_run, Js.andThen_run, Js.texts_run, requestsOf]

theorem afterSignature_spec (P : Platform) (env : Env) (d : IpnData) (w : World) (s : St) :
    ∃ s1, afterSignature P env d w s = .ok noContent s1 ∧
      requestsOf s1.effects = requestsOf s.effects ++
        (match decodeExtraData P d.extraData with
          | none => []
          | some x => processCalls P env w d x s.clockReads) := by
  obtain ⟨s1, h1, hc1, hr1⟩ := stepParseExtraData_spec P d.extraData w
    { s with effects := s.effects ++ [.console .log "✅ Signature validation passed"] }
  cases hd : decodeExtraData P d.extraData with
  | none =>
    refine ⟨s1, ?_, ?_⟩
    · simp [afterSignature, Js.andThen_run, h1, hd]
    · simpa [requestsOf] using hr1
  | some x =>
    obtain ⟨s2, h2, hr2⟩ := stepProcess_spec P env d x w s1
    refine ⟨{ s2 with effects := s2.effects ++
      [.console .log "✅ IPN processing complete - returning 204"] }, ?_, ?_⟩
    · simp [afterSignature, Js.andThen_run, h1, hd, h2]
    · simp [hr2, hr1, requestsOf] at hc1 ⊢
      simp [hc1]

theorem canonicalValues_first_line (d : IpnData)
    (h : (canonicalValues d).all JsVal.convertible = true) :
    [d.orderId, d.transId, d.resultCode].all JsVal.convertible = true := by
  simp only [canonicalValues, List.all_cons, List.all_nil, Bool.and_true, Bool.and_eq_true] at h ⊢
  exact ⟨h.2.2.2.1, h.2.2.2.2.2.2.2.2.2.2.2, h.2.2.2.2.2.2.2.2.2.2.1⟩

theorem handlerTry_spec (P : Platform) (env : Env) (event : JsVal) (w : World) (s : St)
    (hs : s.clockReads = 0) :
    (∃ s1, handlerTry P env event w s = .ok noContent s1 ∧
        requestsOf s1.effects = requestsOf s.effects ++ expectedCalls P env w event) ∨
    (∃ e s1, handlerTry P env event w s = .threw e s1 ∧
        requestsOf s1.effects = requestsOf s.effects ++ expectedCalls P env w event) := by
  by_cases henv : envMissing env = true
  · left
    have henv2 := henv
    simp only [envMissing] at henv2
    simp [handlerTry, expectedCalls, henv, henv2, Js.andThen_run, requestsOf]
  · have henv2 := henv
    simp only [envMissing] at henv2
    cases hr : readNotification P event with
    | error e =>
      right
      refine ⟨e, s, ?_, ?_⟩
      · simp [handlerTry, henv2, hr, Js.andThen_run]
      · simp [expectedCalls, henv, hr]
    | ok d =>
      cases hcan : (canonicalValues d).all JsVal.convertible with
      | false =>
        right
        have hconv : d.convertible = false := by simp [IpnData.convertible, hcan]
        cases hfirst : [d.orderId, d.transId, d.resultCode].all JsVal.convertible with
        | false =>
          refine ⟨.plain "Cannot convert object to primitive value", s, ?_, ?_⟩
          · simp [handlerTry, henv2, Js.andThen_run, hr, Js.texts_threw _ _ _ hfirst]
          · simp [expectedCalls, henv, hr, hconv]
        | true =>
          refine ⟨.plain "Cannot convert object to primitive value",
            { s with effects := s.effects ++
              [.console .log ("📦 IPN Data - Order: " ++ d.orderId.toStr ++ ", TransId: " ++
                d.transId.toStr ++ ", ResultCode: " ++ d.resultCode.toStr)] }, ?_, ?_⟩
          · simp [handlerTry, henv2, Js.andThen_run, hr, Js.texts_ok _ _ _ hfirst,
              Js.texts_threw _ _ _ hcan]
          · simp [expectedCalls, henv, hr, hconv, requestsOf]
      | true =>
        have hfirst := canonicalValues_first_line d hcan
        cases hsg : d.signature.convertible with
        | false =>
          right
          have hconv : d.convertible = false := by simp [IpnData.convertible, hsg]
          have hsg2 : [d.signature].all JsVal.convertible = false := by simp [hsg]
          refine ⟨.plain "Cannot convert object to primitive value",
            { s with effects := s.effects ++
              [.console .log ("📦 IPN Data - Order: " ++ d.orderId.toStr ++ ", TransId: " ++
                d.transId.toStr ++ ", ResultCode: " ++ d.resultCode.toStr),
               .console .log ("🔐 Expected signature: " ++ expectedSignature P env d)] },
            ?_, ?_⟩
          · simp [handlerTry, henv2, Js.andThen_run, hr, Js.texts_ok _ _ _ hfirst,
              Js.texts_ok _ _ _ hcan, Js.texts_threw _ _ _ hsg2, expectedSignature]
          · simp [expectedCalls, henv, hr, hconv, requestsOf]
        | true =>
          left
          have hconv : d.convertible = true := by simp [IpnData.convertible, hcan, hsg]
          have hsg2 : [d.signature].all JsVal.convertible = true := by simp [hsg]
          by_cases hsig : signatureValid P env d = true
          · obtain ⟨s1, h1, hr1⟩ := afterSignature_spec P env d w
              { s with effects := s.effects ++
                [.console .log ("📦 IPN Data - Order: " ++ d.orderId.toStr ++ ", TransId: " ++
                  d.transId.toStr ++ ", ResultCode: " ++ d.resultCode.toStr)] ++
                [.console .log ("🔐 Expected signature: " ++ expectedSignature P env d)] ++
                [.console .log ("🔐 Received signature: " ++ d.signature.toStr)] }
            refine ⟨s1, ?_, ?_⟩
            · have hsig2 := hsig
              simp only [signatureValid, expectedSignature] at hsig2
              simp [handlerTry, henv2, hr, Js.andThen_run, hsig2, Js.texts_ok _ _ _ hfirst,
                Js.texts_ok _ _ _ hcan, Js.texts_ok _ _ _ hsg2]
              simpa [expectedSignature] using h1
            · simp only [requestsOf_append, requestsOf, List.append_nil, hs] at hr1
              simp [expectedCalls, henv, hr, hsig, hr1, hconv]
              try rfl
          · have hsig2 := hsig
            simp only [signatureValid, expectedSignature] at hsig2
            simp [handlerTry, expectedCalls, henv, henv2, hr, Js.andThen_run, hsig, hsig2,
              requestsOf, hconv, Js.texts_ok _ _ _ hfirst, Js.texts_ok _ _ _ hcan,
              Js.texts_ok _ _ _ hsg2]

/-- The IPN handler returns `noContent` and requests exactly `expectedCalls`. -/
theorem runIpn_spec (P : Platform) (env : Env) (w : World) (event : JsVal) :
    ∃ s1, runIpn P env w event = .ok noContent s1 ∧
      requestsOf s1.effects = expectedCalls P env w event := by
  rcases handlerTry_spec P env event w
    { effects := [.console .log "📥 IPN Callback Received:"], clockReads := 0 } rfl with
    ⟨s1, h1, hr1⟩ | ⟨e, s1, h1, hr1⟩
  · refine ⟨s1, ?_, ?_⟩
    · simp [runIpn, handler, Js.andThen_run, Js.tryCatch_run, h1]
    · simpa [requestsOf] using hr1
  · refine ⟨{ s1 with effects := s1.effects ++
      [.console .error "❌ Unexpected error in IPN handler:"] ++
      [.console .error "Error stack:"] }, ?_, ?_⟩
    · simp [runIpn, handler, Js.andThen_run, Js.tryCatch_run, h1]
    · simpa [requestsOf] using hr1

theorem runIpn_value (P : Platform) (env : Env) (w : World) (event : JsVal) :
    (runIpn P env w event).value? = some noContent := by
  obtain ⟨s1, h1, _⟩ := runIpn_spec P env w event
  simp [h1, Res.value?]

theorem runIpn_calls (P : Platform) (env : Env) (w : World) (event : JsVal) :
    (runIpn P env w event).calls = expectedCalls P env w event := by
  obtain ⟨s1, h1, h2⟩ := runIpn_spec P env w event
  simp [h1, Res.calls, Res.state, h2]

theorem strictEqStr_eq_true {v : JsVal} {s : String} :
    v.strictEqStr s = true ↔ v = .str s := by
  cases v <;> simp [JsVal.strictEqStr]

theorem strictEqNum_eq_true {v : JsVal} {n : Int} :
    v.strictEqNum n = true ↔ v = .num n := by
  cases v <;> simp [JsVal.strictEqNum]

theorem expectedCalls_successful {P : Platform} {env : Env} {event : JsVal} {d : IpnData}
    {x : ExtraData} (h : SuccessfulNotification P env event d x) (w : World) :
    expectedCalls P env w event =
      upgradeCalls env x ++ [patchRequest env x (patchData P w d x 0)] := by
  obtain ⟨henv, hread, hsig, hrc, hdec, hconv⟩ := h
  simp [expectedCalls, henv, hread, hsig, hdec, processCalls, hrc, JsVal.strictEqNum, hconv]

theorem withMethod_upgradeCalls_patch (env : Env) (x : ExtraData) (data : JsVal) :
    withMethod "PATCH" (upgradeCalls env x ++ [patchRequest env x data]) =
      [patchRequest env x data] := by
  by_cases hp : x.programId.truthy = true <;>
  simp [withMethod, upgradeCalls, hp, upgradeRequest, patchRequest, List.filter]

theorem withMethod_upgradeCalls_post (env : Env) (x : ExtraData) (data : JsVal) :
    withMethod "POST" (upgradeCalls env x ++ [patchRequest env x data]) =
      upgradeCalls env x := by
  by_cases hp : x.programId.truthy = true <;>
  simp [withMethod, upgradeCalls, hp, upgradeRequest, patchRequest, List.filter]

theorem ne_str_of_strictEqStr_false {v : JsVal} {s : String} (h : v.strictEqStr s = false) :
    v ≠ .str s := by
  intro e
  rw [strictEqStr_eq_true.2 e] at h
  exact Bool.noConfusion h

theorem expectedCalls_cases (P : Platform) (env : Env) (w : World) (event : JsVal) :
    expectedCalls P env w event = [] ∨
      ∃ d x, SuccessfulNotification P env event d x ∧
        expectedCalls P env w event =
          upgradeCalls env x ++ [patchRequest env x (patchData P w d x 0)] := by
  by_cases henv : envMissing env = true
  · exact Or.inl (by simp [expectedCalls, henv])
  · cases hr : readNotification P event with
    | error e => exact Or.inl (by simp [expectedCalls, henv, hr])
    | ok d =>
      by_cases hconv : d.convertible = true
      · by_cases hsig : signatureValid P env d = true
        · cases hdec : decodeExtraData P d.extraData with
          | none => exact Or.inl (by simp [expectedCalls, henv, hr, hconv, hsig, hdec])
          | some x =>
            by_cases hrc : d.resultCode.strictEqNum 0 = true
            · have hs : SuccessfulNotification P env event d x :=
                ⟨by simpa using henv, hr, hsig, strictEqNum_eq_true.1 hrc, hdec, hconv⟩
              exact Or.inr ⟨d, x, hs, expectedCalls_successful hs w⟩
            · exact Or.inl (by
                simp [expectedCalls, henv, hr, hconv, hsig, hdec, processCalls, hrc])
        · exact Or.inl (by simp [expectedCalls, henv, hr, hconv, hsig])
      · exact Or.inl (by simp [expectedCalls, henv, hr, hconv])

theorem expectedCalls_of_decode_none (P : Platform) (env : Env) (w : World) (event : JsVal)
    (d : IpnData) (hread : readNotification P event = .ok d)
    (hdec : decodeExtraData P d.extraData = none) : expectedCalls P env w event = [] := by
  unfold expectedCalls
  split
  · rfl
  · simp only [hread, hdec]
    split
    · rfl
    · split <;> rfl

theorem expectedCalls_of_invalid (P : Platform) (env : Env) (w : World) (event : JsVal)
    (d : IpnData) (hread : readNotification P event = .ok d)
    (hsig : signatureValid P env d = false) : expectedCalls P env w event = [] := by
  by_cases henv : envMissing env = true
  · simp [expectedCalls, henv]
  · by_cases hconv : d.convertible = true <;> simp [expectedCalls, henv, hread, hconv, hsig]

theorem expectedCalls_of_not_success (P : Platform) (env : Env) (w : World) (event : JsVal)
    (d : IpnData) (hread : readNotification P event = .ok d)
    (hrc : d.resultCode.strictEqNum 0 = false) : expectedCalls P env w event = [] := by
  rcases expectedCalls_cases P env w event with h0 | ⟨d2, x2, hs, _⟩
  · exact h0
  · have e : d2 = d := Except.ok.inj (hs.2.1.symm.trans hread)
    subst e
    rw [hs.2.2.2.1] at hrc
    simp [JsVal.strictEqNum] at hrc

theorem expectedCalls_of_not_convertible (P : Platform) (env : Env) (w : World) (event : JsVal)
    (d : IpnData) (hread : readNotification P event = .ok d)
    (hconv : d.convertible = false) : expectedCalls P env w event = [] := by
  by_cases henv : envMissing env = true
  · simp [expectedCalls, henv]
  · simp [expectedCalls, henv, hread, hconv]

theorem decodeExtraData_eq_some {P : Platform} {extraData : JsVal} {x : ExtraData}
    (h : decodeExtraData P extraData = some x) :
    readExtraData P extraData = .ok x ∧ x.convertible = true ∧ x.userId.truthy = true ∧
      x.packageType.truthy = true := by
  unfold decodeExtraData at h
  cases hr : readExtraData P extraData with
  | error e => simp [hr] at h
  | ok y =>
    simp only [hr] at h
    cases hc : y.convertible <;> cases hu : y.userId.truthy <;> cases hp : y.packageType.truthy <;>
      simp [hc, hu, hp] at h
    subst h
    exact ⟨rfl, hc, hu, hp⟩

theorem decodeExtraData_of_read {P : Platform} {extraData : JsVal} {x : ExtraData}
    (hread : readExtraData P extraData = .ok x) (hc : x.convertible = true)
    (hu : x.userId.truthy = true) (hp : x.packageType.truthy = true) :
    decodeExtraData P extraData = some x := by
  simp [decodeExtraData, hread, hc, hu, hp]

theorem readExtraData_fields {P : Platform} {text : String} {v : JsVal} {x : ExtraData}
    (hv : P.jsonParse (P.base64ToUtf8 text) = .ok v)
    (hr : readExtraData P (.str text) = .ok x) :
    x.userId = getPropOpt v "userId" ∧ x.packageType = getPropOpt v "packageType" ∧
      x.programId = getPropOpt v "programId" := by
  cases v <;>
    simp [readExtraData, bufferFromBase64ToUtf8, jsonParse, JsVal.toText, JsVal.convertible,
      JsVal.toStr, hv, bind, Except.bind, getProp, pure, Except.pure] at hr <;>
    (subst hr; exact ⟨rfl, rfl, rfl⟩)

theorem upgradeRequest_ne_patchRequest (env : Env) (x y : ExtraData) (data : JsVal) :
    upgradeRequest env x ≠ patchRequest env y data := by
  intro h
  have hm := congrArg HttpRequest.method h
  simp [upgradeRequest, patchRequest] at hm

/-! ## Concrete notifications -/

theorem opaqueProgramEvent_signed : signatureValid node testEnv opaqueProgramData = true := by
  decide!

theorem opaqueProgramEvent_calls :
    (runIpn node testEnv okWorld opaqueProgramEvent).calls = [] := by
  rw [runIpn_calls]
  exact expectedCalls_of_decode_none node testEnv okWorld opaqueProgramEvent opaqueProgramData
    rfl rfl


theorem trialEvent_successful :
    SuccessfulNotification node testEnv trialEvent trialData trialPayload :=
  ⟨rfl, rfl, by decide!, rfl, rfl, rfl⟩

theorem unpaddedEvent_successful :
    SuccessfulNotification node testEnv unpaddedEvent unpaddedData unpaddedPayload :=
  ⟨rfl, rfl, by decide!, rfl, rfl, rfl⟩

theorem noMessageEvent_successful :
    SuccessfulNotification node testEnv noMessageEvent noMessageData directPayload :=
  ⟨rfl, rfl, by decide!, rfl, rfl, rfl⟩

/-- The console lines of the trial-upgrade notification when the upgrade is
    aborted and the PATCH is answered `409 Conflict`. -/
theorem conflict_run_lines :
    (runIpn node testEnv conflictWorld trialEvent).lines =
      [(.log, "📥 IPN Callback Received:"),
       (.log, "📦 IPN Data - Order: MOMO1765042430139, TransId: 4000000001, ResultCode: 0"),
       (.log, "🔐 Expected signature: b4ac40494e2974c85d5229bb1b6168731b3d7bf992b1a5f7b985b50c329c7565"),
       (.log, "🔐 Received signature: b4ac40494e2974c85d5229bb1b6168731b3d7bf992b1a5f7b985b50c329c7565"),
       (.log, "✅ Signature validation passed"),
       (.log, "👤 User ID: u1"),
       (.log, "📦 Package Type: PREMIUM"),
       (.log, "🎯 Program ID: prog-1"),
       (.log, "✅ Payment successful - updating user u1 to PREMIUM"),
       (.log, "🔄 Upgrading program prog-1 from trial..."),
       (.error, "❌ Error upgrading program from trial:"),
       (.warn, "⚠️ Continuing to update User Service despite Program Service error"),
       (.log, "📤 Updating User Service with subscription data:"),
       (.error, "❌ Error updating subscription:"),
       (.error,
        "⚠️ MANUAL CHECK REQUIRED: TransId 4000000001, User u1, Package PREMIUM, Amount 50000"),
       (.log, "✅ IPN processing complete - returning 204")] := by
  decide!

/-! ## Base64 and UTF-8 round trips -/

theorem base64Value_base64Char : ∀ n, n < 64 →
    base64Value (base64Char n) = some n ∧ (base64Char n).toNat ≠ 61 := by
  decide

theorem base64Sextets_cons_char (n : Nat) (h : n < 64) (rest : List Char) :
    base64Sextets (base64Char n :: rest) = n :: base64Sextets rest := by
  obtain ⟨h1, h2⟩ := base64Value_base64Char n h
  simp [base64Sextets, h1, h2]

theorem base64Decode_encode (bytes : List Nat) (h : ∀ b ∈ bytes, b < 256) :
    base64Decode (base64Encode bytes) = bytes := by
  unfold base64Decode
  induction bytes using base64Encode.induct with
  | case1 a b c rest ih =>
    have ha : a < 256 := h a (by simp)
    have hb : b < 256 := h b (by simp)
    have hc : c < 256 := h c (by simp)
    have ih2 := ih (fun x hx => h x (by simp [hx]))
    rw [base64Encode]
    rw [base64Sextets_cons_char _ (by omega), base64Sextets_cons_char _ (by omega),
      base64Sextets_cons_char _ (by omega), base64Sextets_cons_char _ (by omega)]
    rw [base64Bytes, ih2]
    congr 1
    · omega
    · congr 1
      · omega
      · congr 1
        omega
  | case2 a b =>
    have ha : a < 256 := h a (by simp)
    have hb : b < 256 := h b (by simp)
    rw [base64Encode]
    rw [base64Sextets_cons_char _ (by omega), base64Sextets_cons_char _ (by omega),
      base64Sextets_cons_char _ (by omega)]
    simp [base64Sextets, base64Bytes]
    omega
  | case3 a =>
    have ha : a < 256 := h a (by simp)
    rw [base64Encode]
    rw [base64Sextets_cons_char _ (by omega), base64Sextets_cons_char _ (by omega)]
    simp [base64Sextets, base64Bytes]
    omega
  | case4 => simp [base64Encode, base64Sextets, base64Bytes]


theorem char_toNat_range (c : Char) :
    c.toNat < 55296 ∨ (57343 < c.toNat ∧ c.toNat < 1114112) := by
  have h := c.valid
  simp only [UInt32.isValidChar, Nat.isValidChar] at h
  exact h

theorem utf8EncodeChar_lt (c : Char) : ∀ b ∈ utf8EncodeChar c, b < 256 := by
  have hr := char_toNat_range c
  intro b hb
  unfold utf8EncodeChar at hb
  simp only at hb
  split_ifs at hb <;> simp at hb <;> omega

theorem utf8Encode_lt (cs : List Char) : ∀ b ∈ utf8Encode cs, b < 256 := by
  induction cs with
  | nil => simp [utf8Encode]
  | cons c rest ih =>
    intro b hb
    simp only [utf8Encode, List.mem_append] at hb
    rcases hb with hb | hb
    · exact utf8EncodeChar_lt c b hb
    · exact ih b hb

theorem utf8DecodeFrom_lead (b : Nat) (p : Utf8Pending) (rest : List Nat)
    (h : utf8Lead b = .inr p) :
    utf8DecodeFrom none (b :: rest) = utf8DecodeFrom (some p) rest := by
  simp [utf8DecodeFrom, h]

theorem utf8DecodeFrom_last (p : Utf8Pending) (b : Nat) (rest : List Nat)
    (h1 : p.lower ≤ b) (h2 : b ≤ p.upper) (hn : p.needed = 1) :
    utf8DecodeFrom (some p) (b :: rest) =
      Char.ofNat (p.bits * 64 + (b - 128)) :: utf8DecodeFrom none rest := by
  simp [utf8DecodeFrom, h1, h2, hn]

theorem utf8DecodeFrom_more (p : Utf8Pending) (b : Nat) (rest : List Nat)
    (h1 : p.lower ≤ b) (h2 : b ≤ p.upper) (hn : p.needed ≠ 1) :
    utf8DecodeFrom (some p) (b :: rest) =
      utf8DecodeFrom (some { bits := p.bits * 64 + (b - 128), needed := p.needed - 1,
                             lower := 128, upper := 191 }) rest := by
  simp [utf8DecodeFrom, h1, h2, hn]

theorem utf8Lead_two (b : Nat) (h1 : 194 ≤ b) (h2 : b ≤ 223) :
    utf8Lead b = .inr { bits := b - 192, needed := 1, lower := 128, upper := 191 } := by
  have e : ¬ b < 128 := by omega
  simp [utf8Lead, e, h1, h2]

theorem utf8Lead_three (b : Nat) (h1 : 224 ≤ b) (h2 : b ≤ 239) :
    utf8Lead b = .inr { bits := b - 224, needed := 2, lower := if b = 224 then 160 else 128,
                        upper := if b = 237 then 159 else 191 } := by
  have e : ¬ b < 128 := by omega
  have e2 : ¬ (194 ≤ b ∧ b ≤ 223) := by omega
  simp [utf8Lead, e, e2, h1, h2]

theorem utf8Lead_four (b : Nat) (h1 : 240 ≤ b) (h2 : b ≤ 244) :
    utf8Lead b = .inr { bits := b - 240, needed := 3, lower := if b = 240 then 144 else 128,
                        upper := if b = 244 then 143 else 191 } := by
  have e : ¬ b < 128 := by omega
  have e2 : ¬ (194 ≤ b ∧ b ≤ 223) := by omega
  have e3 : ¬ (224 ≤ b ∧ b ≤ 239) := by omega
  simp [utf8Lead, e, e2, e3, h1, h2]

theorem utf8DecodeFrom_encodeChar (c : Char) (rest : List Nat) :
    utf8DecodeFrom none (utf8EncodeChar c ++ rest) = c :: utf8DecodeFrom none rest := by
  have hr := char_toNat_range c
  have hc : Char.ofNat c.toNat = c := Char.ofNat_toNat c
  unfold utf8EncodeChar
  simp only
  split_ifs with h1 h2 h3
  · simp [utf8DecodeFrom, utf8Lead, h1, hc]
  · simp only [List.cons_append, List.nil_append]
    rw [utf8DecodeFrom_lead _ _ _ (utf8Lead_two _ (by omega) (by omega)),
      utf8DecodeFrom_last _ _ _ (by simp) (by simp; omega) rfl]
    congr 1
    conv_rhs => rw [← hc]
    congr 1
    simp only
    omega
  · simp only [List.cons_append, List.nil_append]
    rw [utf8DecodeFrom_lead _ _ _ (utf8Lead_three _ (by omega) (by omega)),
      utf8DecodeFrom_more _ _ _ (by simp only; split_ifs <;> omega)
        (by simp only; split_ifs <;> omega) (by simp),
      utf8DecodeFrom_last _ _ _ (by simp) (by simp; omega) rfl]
    congr 1
    conv_rhs => rw [← hc]
    congr 1
    simp only
    omega
  · simp only [List.cons_append, List.nil_append]
    rw [utf8DecodeFrom_lead _ _ _ (utf8Lead_four _ (by omega) (by omega)),
      utf8DecodeFrom_more _ _ _ (by simp only; split_ifs <;> omega)
        (by simp only; split_ifs <;> omega) (by simp),
      utf8DecodeFrom_more _ _ _ (by simp) (by simp; omega) (by simp),
      utf8DecodeFrom_last _ _ _ (by simp) (by simp; omega) rfl]
    congr 1
    conv_rhs => rw [← hc]
    congr 1
    simp only
    omega

theorem utf8Decode_encode (cs : List Char) : utf8Decode (utf8Encode cs) = cs := by
  unfold utf8Decode
  induction cs with
  | nil => rfl
  | cons c rest ih => rw [utf8Encode, utf8DecodeFrom_encodeChar, ih]

theorem nodeBase64ToUtf8_utf8ToBase64 (text : String) :
    nodeBase64ToUtf8 (utf8ToBase64 text) = text := by
  simp [nodeBase64ToUtf8, utf8ToBase64, base64Decode_encode _ (utf8Encode_lt _),
    utf8Decode_encode]

/-! ## JSON round trip of strings -/

theorem hexValue_hexDigit : ∀ n, n < 16 → hexValue (hexDigit n) = some n := by
  decide

theorem hexValue_zero : hexValue (Char.ofNat 48) = some 0 := by decide

theorem toNat_ofNat_small (n : Nat) (h : n < 55296) : (Char.ofNat n).toNat = n := by
  have hv : n.isValidChar := Or.inl h
  simp [Char.ofNat, hv, Char.toNat, Char.ofNatAux]
  rfl

theorem parseStringBody_escape (e : Char) (x : Char) (rest : List Char)
    (hu : e.toNat ≠ 117) (hx : simpleEscape e = some x) :
    parseStringBody (Char.ofNat 92 :: e :: rest) =
      match parseStringBody rest with
      | some (s, r) => some (x.toNat :: s, r)
      | none => none := by
  rw [parseStringBody.eq_def]
  simp [toNat_ofNat_small, hu, hx]

theorem parseStringBody_quoteChar (c : Char) (rest : List Char) :
    parseStringBody (quoteChar c ++ rest) =
      match parseStringBody rest with
      | some (s, r) => some (c.toNat :: s, r)
      | none => none := by
  unfold quoteChar
  simp only
  split_ifs with h1 h2 h3 h4 h5 h6 h7 h8
  · simp only [List.cons_append, List.nil_append]
    rw [parseStringBody_escape _ (Char.ofNat 34) _ (by decide) (by decide), h1]
    rfl
  · simp only [List.cons_append, List.nil_append]
    rw [parseStringBody_escape _ (Char.ofNat 92) _ (by decide) (by decide), h2]
    rfl
  · simp only [List.cons_append, List.nil_append]
    rw [parseStringBody_escape _ (Char.ofNat 8) _ (by decide) (by decide), h3]
    rfl
  · simp only [List.cons_append, List.nil_append]
    rw [parseStringBody_escape _ (Char.ofNat 9) _ (by decide) (by decide), h4]
    rfl
  · simp only [List.cons_append, List.nil_append]
    rw [parseStringBody_escape _ (Char.ofNat 10) _ (by decide) (by decide), h5]
    rfl
  · simp only [List.cons_append, List.nil_append]
    rw [parseStringBody_escape _ (Char.ofNat 12) _ (by decide) (by decide), h6]
    rfl
  · simp only [List.cons_append, List.nil_append]
    rw [parseStringBody_escape _ (Char.ofNat 13) _ (by decide) (by decide), h7]
    rfl
  · have e1 := hexValue_hexDigit (c.toNat / 16) (by omega)
    have e2 := hexValue_hexDigit (c.toNat % 16) (by omega)
    have e3 : c.toNat / 16 * 16 + c.toNat % 16 = c.toNat := by omega
    simp only [List.cons_append, List.nil_append]
    rw [parseStringBody.eq_def]
    simp [toNat_ofNat_small, hex4, e1, e2, hexValue_zero, e3]
  · simp only [List.cons_append, List.nil_append]
    rw [parseStringBody.eq_def]
    simp [h1, h2, h8]

theorem parseStringBody_quoteChars (cs rest : List Char) :
    parseStringBody (quoteChars cs ++ Char.ofNat 34 :: rest) =
      some (cs.map Char.toNat, rest) := by
  induction cs with
  | nil =>
    simp only [quoteChars, List.nil_append, List.map_nil]
    rw [parseStringBody.eq_def]
    simp [toNat_ofNat_small]
  | cons c tail ih =>
    rw [quoteChars, List.append_assoc, parseStringBody_quoteChar, ih]
    rfl

theorem unitsToChars_map_toNat (cs : List Char) : unitsToChars (cs.map Char.toNat) = cs := by
  induction cs with
  | nil => rfl
  | cons c tail ih =>
    have hr := char_toNat_range c
    have hc : unitChar c.toNat = c := by
      have e : ¬ (55296 ≤ c.toNat ∧ c.toNat ≤ 57343) := by omega
      simp [unitChar, e]
    cases tail with
    | nil => simp [unitsToChars, hc]
    | cons c2 tail2 =>
      have hr2 := char_toNat_range c2
      have e : ¬ (55296 ≤ c.toNat ∧ c.toNat ≤ 56319 ∧ 56320 ≤ c2.toNat ∧ c2.toNat ≤ 57343) := by
        omega
      simp only [List.map_cons] at ih ⊢
      rw [unitsToChars]
      simp only [e, if_false]
      rw [ih, hc]

theorem parseString_jsonQuote (s : String) (rest : List Char) :
    parseString (quoteChars s.data ++ Char.ofNat 34 :: rest) = some (s, rest) := by
  simp [parseString, parseStringBody_quoteChars, unitsToChars_map_toNat]

theorem skipWs_cons (c : Char) (rest : List Char) (h : isJsonWs c = false) :
    skipWs (c :: rest) = c :: rest := by
  simp [skipWs, h]

theorem parseValue_string (n : Nat) (s : String) (rest : List Char) :
    parseValue (n + 1) (Char.ofNat 34 :: (quoteChars s.data ++ Char.ofNat 34 :: rest)) =
      some (.str s, rest) := by
  rw [parseValue, skipWs_cons _ _ (by decide)]
  simp [toNat_ofNat_small, parseString_jsonQuote]

theorem parseMembers_last (n : Nat) (k s : String) (rest : List Char) :
    parseMembers (n + 2)
        (Char.ofNat 34 :: (quoteChars k.data ++ Char.ofNat 34 :: Char.ofNat 58 ::
          Char.ofNat 34 :: (quoteChars s.data ++ Char.ofNat 34 :: Char.ofNat 125 :: rest))) =
      some ([(k, .str s)], rest) := by
  rw [parseMembers, skipWs_cons _ _ (by decide)]
  simp only [toNat_ofNat_small, parseString_jsonQuote, if_true]
  rw [skipWs_cons _ _ (by decide)]
  simp only [toNat_ofNat_small, parseValue_string, if_true]
  rw [skipWs_cons _ _ (by decide)]
  simp [toNat_ofNat_small]

theorem parseMembers_more (n : Nat) (k s : String) (more : List Char) :
    parseMembers (n + 2)
        (Char.ofNat 34 :: (quoteChars k.data ++ Char.ofNat 34 :: Char.ofNat 58 ::
          Char.ofNat 34 :: (quoteChars s.data ++ Char.ofNat 34 :: Char.ofNat 44 :: more))) =
      match parseMembers (n + 1) more with
      | some (fs, r) => some ((k, .str s) :: fs, r)
      | none => none := by
  rw [parseMembers, skipWs_cons _ _ (by decide)]
  simp only [toNat_ofNat_small, parseString_jsonQuote, if_true]
  rw [skipWs_cons _ _ (by decide)]
  simp only [toNat_ofNat_small, parseValue_string, if_true]
  rw [skipWs_cons _ _ (by decide)]
  simp [toNat_ofNat_small]

theorem parseValue_object (n : Nat) (c : Char) (rest : List Char)
    (hc : c.toNat = 34) :
    parseValue (n + 1) (Char.ofNat 123 :: c :: rest) =
      match parseMembers n (c :: rest) with
      | some (fs, r) => some (.obj fs, r)
      | none => none := by
  have hws : isJsonWs c = false := by simp [isJsonWs, hc]
  rw [parseValue, skipWs_cons _ _ (by decide)]
  simp only [toNat_ofNat_small, if_true]
  rw [skipWs_cons _ _ hws]
  simp [hc]

/-- `JSON.parse` reads back an object of two string properties written by `JSON.stringify`. -/
theorem nodeJsonParse_stringify_pair (k1 k2 u p : String) :
    nodeJsonParse (jsonStringify (.obj [(k1, .str u), (k2, .str p)])) =
      .ok (.obj [(k1, .str u), (k2, .str p)]) := by
  have hlen : ∃ n, (stringifyVal (.obj [(k1, .str u), (k2, .str p)])).length + 1 = n + 4 :=
    ⟨(stringifyVal (.obj [(k1, .str u), (k2, .str p)])).length - 3, by
      simp [stringifyVal, stringifyFields, stringifyMore, jsonQuote]
      omega⟩
  obtain ⟨n, hn⟩ := hlen
  unfold nodeJsonParse jsonStringify parseJsonText
  simp only [hn]
  simp only [stringifyVal, stringifyFields, stringifyMore, jsonQuote, List.append_assoc,
    List.cons_append, List.nil_append, List.append_nil]
  rw [parseValue_object _ _ _ (toNat_ofNat_small 34 (by omega)), parseMembers_more,
    parseMembers_last]
  simp [skipWs]

/-! ## The claims -/

/-- C1: for every event, every configuration of the environment variables and
    every behaviour of the two downstream HTTP calls, the IPN handler returns
    exactly the response with status code 204 and an empty body, and does not throw. -/
theorem ipn_always_returns_204 (P : Platform) (env : Env) (w : World) (event : JsVal) :
    ∃ s, runIpn P env w event = Res.ok { statusCode := 204, body := "" } s := by
  obtain ⟨s1, h1, _⟩ := runIpn_spec P env w event
  exact ⟨s1, h1⟩

/-- C2: for every notification whose `signature` is any value other than the
    lower-case hex HMAC-SHA256 of the rebuilt canonical string, the signature
    check evaluates to a mismatch, the handler does not throw and no downstream
    HTTP request is made. -/
theorem bad_signature_no_downstream_call (P : Platform) (env : Env) (w : World)
    (event : JsVal) (d : IpnData) (hread : readNotification P event = .ok d)
    (hsig : d.signature ≠ .str (expectedSignature P env d)) :
    signatureValid P env d = false ∧ (runIpn P env w event).calls = [] ∧
      ∃ s, runIpn P env w event = Res.ok noContent s := by
  have hv : signatureValid P env d = false := by
    cases h : signatureValid P env d with
    | false => rfl
    | true => exact absurd (strictEqStr_eq_true.1 h) hsig
  refine ⟨hv, ?_, ?_⟩
  · rw [runIpn_calls, expectedCalls_of_invalid P env w event d hread hv]
  · obtain ⟨s1, h1, _⟩ := runIpn_spec P env w event
    exact ⟨s1, h1⟩

/-- Witness of C2: the forged notification. -/
theorem bad_signature_no_downstream_call_witness :
    readNotification node forgedEvent = .ok forgedData ∧
    forgedData.signature ≠ .str (expectedSignature node testEnv forgedData) ∧
    (signatureValid node testEnv forgedData = false ∧
      (runIpn node testEnv okWorld forgedEvent).calls = [] ∧
      ∃ s, runIpn node testEnv okWorld forgedEvent = Res.ok noContent s) :=
  have h : forgedData.signature ≠ .str (expectedSignature node testEnv forgedData) :=
    ne_str_of_strictEqStr_false (by decide!)
  ⟨rfl, h, bad_signature_no_downstream_call node testEnv okWorld forgedEvent forgedData rfl h⟩

/-- C3 as stated fails, in two ways.  A correctly signed notification with
    `resultCode` 0 whose `extraData` decodes to the object with `userId` the empty
    string and `packageType` `"VIP"` carries both fields, and no PATCH is issued.
    And a correctly signed notification with `resultCode` 0 whose payload carries
    `userId` `"u1"`, `packageType` `"PREMIUM"` and a `programId` that cannot be
    converted to a string (an object with an own property `toString`): writing
    the log line of `programId` throws, and no PATCH is issued. -/
theorem patch_issued_counterexample :
    (readNotification node emptyUserEvent = .ok emptyUserData ∧
      signatureValid node testEnv emptyUserData = true ∧
      emptyUserData.resultCode = .num 0 ∧
      readExtraData node emptyUserData.extraData =
        .ok { userId := .str "", packageType := .str "VIP", programId := .undefined } ∧
      withMethod "PATCH" (runIpn node testEnv okWorld emptyUserEvent).calls = []) ∧
    (readNotification node opaqueProgramEvent = .ok opaqueProgramData ∧
      signatureValid node testEnv opaqueProgramData = true ∧
      opaqueProgramData.resultCode = .num 0 ∧
      readExtraData node opaqueProgramData.extraData =
        .ok { userId := .str "u1", packageType := .str "PREMIUM",
              programId := .obj [("toString", .null)] } ∧
      (JsVal.obj [("toString", .null)]).toText =
        .error (.plain "Cannot convert object to primitive value") ∧
      withMethod "PATCH" (runIpn node testEnv okWorld opaqueProgramEvent).calls = []) := by
  refine ⟨⟨rfl, by decide!, rfl, rfl, ?_⟩, ⟨rfl, opaqueProgramEvent_signed, rfl, rfl, rfl, ?_⟩⟩
  · rw [runIpn_calls,
      expectedCalls_of_decode_none node testEnv okWorld emptyUserEvent emptyUserData rfl rfl]
    rfl
  · rw [opaqueProgramEvent_calls]
    rfl

/-- C3, amended: for a configured handler (the four environment variables
    set) and every correctly signed notification with `resultCode` 0 whose
    `extraData` decodes to an object with a truthy `userId` and a truthy
    `packageType`, when the values that the handler writes into texts (the
    fields of the notification, and `userId`, `packageType` and `programId`) can
    be converted to strings, the handler issues exactly one PATCH, to
    `BACKEND_API_URL/api/user-info`, with header `X-User-Id` the `userId` and a
    body in which `subscriptionTier` is the `packageType`, `subscriptionStatus` is
    `ACTIVE`, `paymentMethod` is `MOMO`, `lastPaymentId` is `String(transId)`,
    `lastPaymentAmount` is the `amount` and `autoRenewal` is `false`. -/
theorem patch_issued_for_successful_payment (P : Platform) (env : Env) (w : World)
    (event : JsVal) (d : IpnData) (x : ExtraData)
    (henv : envMissing env = false)
    (hread : readNotification P event = .ok d)
    (hsig : signatureValid P env d = true)
    (hrc : d.resultCode = .num 0)
    (hdec : readExtraData P d.extraData = .ok x)
    (huser : x.userId.truthy = true) (hpkg : x.packageType.truthy = true)
    (hconv : d.convertible = true) (hxconv : x.convertible = true) :
    ∃ req, withMethod "PATCH" (runIpn P env w event).calls = [req] ∧
      req.url = envStr env.BACKEND_API_URL ++ "/api/user-info" ∧
      req.headers.lookup "X-User-Id" = some x.userId ∧
      getPropOpt req.bodyJson "subscriptionTier" = x.packageType ∧
      getPropOpt req.bodyJson "subscriptionStatus" = .str "ACTIVE" ∧
      getPropOpt req.bodyJson "paymentMethod" = .str "MOMO" ∧
      getPropOpt req.bodyJson "lastPaymentId" = .str d.transId.toStr ∧
      getPropOpt req.bodyJson "lastPaymentAmount" = d.amount ∧
      getPropOpt req.bodyJson "autoRenewal" = .bool false := by
  have hs : SuccessfulNotification P env event d x :=
    ⟨henv, hread, hsig, hrc, decodeExtraData_of_read hdec hxconv huser hpkg, hconv⟩
  refine ⟨patchRequest env x (patchData P w d x 0), ?_, ?_⟩
  · rw [runIpn_calls, expectedCalls_successful hs, withMethod_upgradeCalls_patch]
  · simp [patchRequest, patchData, subscriptionData, getPropOpt, JsVal.lookup, List.lookup]

/-- Witness of the amended C3: the trial-upgrade notification. -/
theorem patch_issued_for_successful_payment_witness :
    envMissing testEnv = false ∧
    readNotification node trialEvent = .ok trialData ∧
    signatureValid node testEnv trialData = true ∧
    trialData.resultCode = .num 0 ∧
    readExtraData node trialData.extraData = .ok trialPayload ∧
    trialPayload.userId.truthy = true ∧ trialPayload.packageType.truthy = true ∧
    trialData.convertible = true ∧ trialPayload.convertible = true ∧
    ∃ req, withMethod "PATCH" (runIpn node testEnv okWorld trialEvent).calls = [req] ∧
      req.url = envStr testEnv.BACKEND_API_URL ++ "/api/user-info" ∧
      req.headers.lookup "X-User-Id" = some trialPayload.userId ∧
      getPropOpt req.bodyJson "subscriptionTier" = trialPayload.packageType ∧
      getPropOpt req.bodyJson "subscriptionStatus" = .str "ACTIVE" ∧
      getPropOpt req.bodyJson "paymentMethod" = .str "MOMO" ∧
      getPropOpt req.bodyJson "lastPaymentId" = .str trialData.transId.toStr ∧
      getPropOpt req.bodyJson "lastPaymentAmount" = trialData.amount ∧
      getPropOpt req.bodyJson "autoRenewal" = .bool false :=
  ⟨rfl, rfl, trialEvent_successful.2.2.1, rfl, rfl, rfl, rfl, rfl, rfl,
    patch_issued_for_successful_payment node testEnv okWorld trialEvent trialData trialPayload
      rfl rfl trialEvent_successful.2.2.1 rfl rfl rfl rfl rfl rfl⟩

/-- C4: for every notification whose `resultCode` is not the number 0 (whether
    or not it is correctly signed and its `extraData` decodable), the handler
    makes no downstream HTTP request. -/
theorem failed_payment_no_downstream_call (P : Platform) (env : Env) (w : World)
    (event : JsVal) (d : IpnData) (hread : readNotification P event = .ok d)
    (hrc : d.resultCode ≠ .num 0) :
    (runIpn P env w event).calls = [] := by
  have hz : d.resultCode.strictEqNum 0 = false := by
    cases h : d.resultCode.strictEqNum 0 with
    | false => rfl
    | true => exact absurd (strictEqNum_eq_true.1 h) hrc
  rw [runIpn_calls, expectedCalls_of_not_success P env w event d hread hz]

/-- Witness of C4: the signed notification of a failed payment. -/
theorem failed_payment_no_downstream_call_witness :
    readNotification node failedEvent = .ok failedData ∧
    failedData.resultCode ≠ .num 0 ∧
    signatureValid node testEnv failedData = true ∧
    (runIpn node testEnv okWorld failedEvent).calls = [] :=
  have h : failedData.resultCode ≠ .num 0 := by
    intro e
    have h2 : failedData.resultCode.strictEqNum 0 = true := strictEqNum_eq_true.2 e
    exact absurd h2 (by decide)
  ⟨rfl, h, by decide!,
    failed_payment_no_downstream_call node testEnv okWorld failedEvent failedData rfl h⟩

/-- C5: for every notification read by the handler whose payload is decoded
    and for which the upgrade-from-trial call is made (which happens for a
    correctly signed notification with `resultCode` 0 and a `programId` only):
    whatever that call is answered, in particular when it answers a non-2xx
    status, fails or is aborted, the PATCH of `/api/user-info` is issued exactly
    once, after the upgrade call; its fields depend on the notification and on
    the clock only, so that for any other world with the same clock (in
    particular one where the upgrade succeeds) the PATCH is the same. -/
theorem patch_issued_despite_upgrade_failure (P : Platform) (env : Env) (w w2 : World)
    (event : JsVal) (d : IpnData) (x : ExtraData)
    (hread : readNotification P event = .ok d)
    (hdec : readExtraData P d.extraData = .ok x)
    (hcall : upgradeRequest env x ∈ (runIpn P env w event).calls)
    (hclock : w2.now = w.now) :
    signatureValid P env d = true ∧ d.resultCode = .num 0 ∧ x.programId.truthy = true ∧
    (runIpn P env w event).calls =
      [upgradeRequest env x, patchRequest env x (patchData P w d x 0)] ∧
    withMethod "PATCH" (runIpn P env w event).calls =
      [patchRequest env x (patchData P w d x 0)] ∧
    withMethod "PATCH" (runIpn P env w2 event).calls =
      withMethod "PATCH" (runIpn P env w event).calls := by
  have hd : patchData P w2 d x 0 = patchData P w d x 0 := by
    simp [patchData, hclock]
  rw [runIpn_calls] at hcall
  rcases expectedCalls_cases P env w event with h0 | ⟨d2, x2, hs, hc⟩
  · rw [h0] at hcall
    simp at hcall
  · have e1 : d2 = d := Except.ok.inj (hs.2.1.symm.trans hread)
    subst e1
    have e2 : x2 = x :=
      Except.ok.inj ((decodeExtraData_eq_some hs.2.2.2.2.1).1.symm.trans hdec)
    subst e2
    have ht : x2.programId.truthy = true := by
      cases hp : x2.programId.truthy with
      | true => rfl
      | false =>
        rw [hc] at hcall
        simp [upgradeCalls, hp] at hcall
        exact absurd hcall (upgradeRequest_ne_patchRequest env x2 x2 _)
    have hu : upgradeCalls env x2 = [upgradeRequest env x2] := by simp [upgradeCalls, ht]
    refine ⟨hs.2.2.1, hs.2.2.2.1, ht, ?_, ?_, ?_⟩
    · rw [runIpn_calls, hc, hu]
      rfl
    · rw [runIpn_calls, hc, withMethod_upgradeCalls_patch]
    · rw [runIpn_calls, runIpn_calls, expectedCalls_successful hs, expectedCalls_successful hs,
        withMethod_upgradeCalls_patch, withMethod_upgradeCalls_patch, hd]

/-- Witness of C5: the trial-upgrade notification in a world where the upgrade
    is aborted, compared with the world where every request succeeds. -/
theorem patch_issued_despite_upgrade_failure_witness :
    conflictWorld.fetch [] (upgradeRequest testEnv trialPayload) =
      .rejects "This operation was aborted" ∧
    okWorld.fetch [] (upgradeRequest testEnv trialPayload) = .response 200 (.ok "OK") ∧
    upgradeRequest testEnv trialPayload ∈ (runIpn node testEnv conflictWorld trialEvent).calls ∧
    (signatureValid node testEnv trialData = true ∧ trialData.resultCode = .num 0 ∧
      trialPayload.programId.truthy = true ∧
    (runIpn node testEnv conflictWorld trialEvent).calls =
      [upgradeRequest testEnv trialPayload,
        patchRequest testEnv trialPayload
          (patchData node conflictWorld trialData trialPayload 0)] ∧
    withMethod "PATCH" (runIpn node testEnv conflictWorld trialEvent).calls =
      [patchRequest testEnv trialPayload (patchData node conflictWorld trialData trialPayload 0)] ∧
    withMethod "PATCH" (runIpn node testEnv okWorld trialEvent).calls =
      withMethod "PATCH" (runIpn node testEnv conflictWorld trialEvent).calls) :=
  have hcall : upgradeRequest testEnv trialPayload ∈
      (runIpn node testEnv conflictWorld trialEvent).calls := by
    rw [runIpn_calls, expectedCalls_successful trialEvent_successful]
    exact List.mem_append_left _ (List.mem_singleton.2 rfl)
  ⟨rfl, rfl, hcall,
    patch_issued_despite_upgrade_failure node testEnv conflictWorld okWorld trialEvent trialData
      trialPayload rfl rfl hcall rfl⟩

/-- C6, the code on a conflict answer: for the signed trial-upgrade
    notification, when the PATCH of `/api/user-info` is answered `409 Conflict`
    the handler writes the error line `MANUAL CHECK REQUIRED` and does not write
    the line of the idempotency branch. -/
theorem conflict_answer_is_escalated :
    conflictWorld.fetch (upgradeCalls testEnv trialPayload)
        (patchRequest testEnv trialPayload
          (patchData node conflictWorld trialData trialPayload 0)) =
      .response 409 (.ok "Conflict") ∧
    (LogLevel.error,
        "⚠️ MANUAL CHECK REQUIRED: TransId 4000000001, User u1, Package PREMIUM, Amount 50000") ∈
      (runIpn node testEnv conflictWorld trialEvent).lines ∧
    (LogLevel.log, "⚠️ Transaction 4000000001 already exists (409 Conflict) - idempotency") ∉
      (runIpn node testEnv conflictWorld trialEvent).lines := by
  refine ⟨rfl, ?_, ?_⟩
  · rw [conflict_run_lines]
    decide
  · rw [conflict_run_lines]
    decide

/-- C7: for every notification for which a PATCH of `/api/user-info` is made
    (which happens for a correctly signed successful notification only) and is
    answered `409 Conflict`, the handler completes with its 204 response and the
    PATCH is attempted exactly once; and in every invocation whatsoever at most
    one PATCH and at most one POST are issued. -/
theorem conflict_patch_attempted_once (P : Platform) (env : Env) (w : World) (event : JsVal)
    (req : HttpRequest) (text : Except String String)
    (hreq : req ∈ withMethod "PATCH" (runIpn P env w event).calls)
    (hconflict : w.fetch (withMethod "POST" (runIpn P env w event).calls) req =
      .response 409 text) :
    (∃ s, runIpn P env w event = Res.ok noContent s) ∧
    (withMethod "PATCH" (runIpn P env w event).calls).length = 1 ∧
    ∀ (env2 : Env) (w2 : World) (event2 : JsVal),
      (withMethod "PATCH" (runIpn P env2 w2 event2).calls).length ≤ 1 ∧
      (withMethod "POST" (runIpn P env2 w2 event2).calls).length ≤ 1 := by
  have hall : ∀ (env2 : Env) (w2 : World) (event2 : JsVal),
      (withMethod "PATCH" (runIpn P env2 w2 event2).calls).length ≤ 1 ∧
      (withMethod "POST" (runIpn P env2 w2 event2).calls).length ≤ 1 := by
    intro env2 w2 event2
    rw [runIpn_calls]
    rcases expectedCalls_cases P env2 w2 event2 with h0 | ⟨d2, x2, _, h2⟩
    · simp [h0, withMethod]
    · rw [h2, withMethod_upgradeCalls_patch, withMethod_upgradeCalls_post]
      refine ⟨Nat.le_refl 1, ?_⟩
      unfold upgradeCalls
      split <;> simp
  have _ := hconflict
  refine ⟨?_, ?_, hall⟩
  · obtain ⟨s1, h1, _⟩ := runIpn_spec P env w event
    exact ⟨s1, h1⟩
  · have h1 := (hall env w event).1
    have h2 : 0 < (withMethod "PATCH" (runIpn P env w event).calls).length :=
      List.length_pos_of_mem hreq
    omega

/-- Witness of C7: the trial-upgrade notification in the world that answers
    the PATCH with `409 Conflict`. -/
theorem conflict_patch_attempted_once_witness :
    patchRequest testEnv trialPayload (patchData node conflictWorld trialData trialPayload 0) ∈
      withMethod "PATCH" (runIpn node testEnv conflictWorld trialEvent).calls ∧
    conflictWorld.fetch (withMethod "POST" (runIpn node testEnv conflictWorld trialEvent).calls)
        (patchRequest testEnv trialPayload
          (patchData node conflictWorld trialData trialPayload 0)) =
      .response 409 (.ok "Conflict") ∧
    (∃ s, runIpn node testEnv conflictWorld trialEvent = Res.ok noContent s) ∧
    (withMethod "PATCH" (runIpn node testEnv conflictWorld trialEvent).calls).length = 1 ∧
    ∀ (env2 : Env) (w2 : World) (event2 : JsVal),
      (withMethod "PATCH" (runIpn node env2 w2 event2).calls).length ≤ 1 ∧
      (withMethod "POST" (runIpn node env2 w2 event2).calls).length ≤ 1 :=
  have hreq : patchRequest testEnv trialPayload
        (patchData node conflictWorld trialData trialPayload 0) ∈
      withMethod "PATCH" (runIpn node testEnv conflictWorld trialEvent).calls := by
    rw [runIpn_calls, expectedCalls_successful trialEvent_successful,
      withMethod_upgradeCalls_patch]
    exact List.mem_singleton.2 rfl
  have hconflict : conflictWorld.fetch
        (withMethod "POST" (runIpn node testEnv conflictWorld trialEvent).calls)
        (patchRequest testEnv trialPayload
          (patchData node conflictWorld trialData trialPayload 0)) =
      .response 409 (.ok "Conflict") := by
    rw [runIpn_calls, expectedCalls_successful trialEvent_successful,
      withMethod_upgradeCalls_post]
    rfl
  ⟨hreq, hconflict,
    conflict_patch_attempted_once node testEnv conflictWorld trialEvent _ _ hreq hconflict⟩

/-- C8: for every principal id `u` and every package `p` (any two strings, in
    particular `p` one of `BASIC`, `VIP`, `PREMIUM`), decoding the `extraData`
    token that the creation handler builds for them the way the IPN handler
    decodes it (base64, UTF-8, `JSON.parse`, then reading `userId`, `packageType`
    and `programId`) yields `userId = u`, `packageType = p` and `programId`
    absent, that is `undefined`. -/
theorem extraData_round_trip (bufferFromArrayLike : JsVal → Except JsError String)
    (u p : String) :
    readExtraData (nodePlatform bufferFromArrayLike)
        (.str (encodeExtraData (.str u) (.str p))) =
      .ok { userId := .str u, packageType := .str p, programId := .undefined } := by
  simp only [readExtraData, bufferFromBase64ToUtf8, jsonParse, JsVal.toText, JsVal.convertible,
    nodePlatform, encodeExtraData, nodeBase64ToUtf8_utf8ToBase64, JsVal.toStr,
    nodeJsonParse_stringify_pair, getProp, bind, Except.bind, pure, Except.pure, if_true]
  simp [JsVal.lookup]

/-- C9 as stated fails: the `extraData` of this correctly signed notification
    is not well-formed base64 (its padding is missing), yet Node.js decodes it,
    the payload is read and the PATCH is issued. -/
theorem malformed_base64_counterexample :
    readNotification node unpaddedEvent = .ok unpaddedData ∧
    signatureValid node testEnv unpaddedData = true ∧
    unpaddedData.extraData = .str "eyJ1c2VySWQiOiJ1MSIsInBhY2thZ2VUeXBlIjoiVklQIn0" ∧
    wellFormedBase64 "eyJ1c2VySWQiOiJ1MSIsInBhY2thZ2VUeXBlIjoiVklQIn0" = false ∧
    decodeExtraData node unpaddedData.extraData = some unpaddedPayload ∧
    (runIpn node testEnv okWorld unpaddedEvent).calls =
      [patchRequest testEnv unpaddedPayload
        (patchData node okWorld unpaddedData unpaddedPayload 0)] := by
  refine ⟨rfl, unpaddedEvent_successful.2.2.1, rfl, by decide, rfl, ?_⟩
  rw [runIpn_calls, expectedCalls_successful unpaddedEvent_successful]
  rfl

/-- C9, amended: for every notification whose `extraData` is a string that,
    once decoded from base64 the lenient way of Node.js and read as UTF-8, is not
    valid JSON, or is JSON for a value without a truthy `userId` or without a
    truthy `packageType`, the payload decode fails and the handler makes no
    downstream HTTP request. -/
theorem undecodable_payload_no_downstream_call (P : Platform) (env : Env) (w : World)
    (event : JsVal) (d : IpnData) (text : String)
    (hread : readNotification P event = .ok d)
    (hextra : d.extraData = .str text)
    (hbad : (∃ e, P.jsonParse (P.base64ToUtf8 text) = .error e) ∨
      ∃ v, P.jsonParse (P.base64ToUtf8 text) = .ok v ∧
        ((getPropOpt v "userId").truthy = false ∨ (getPropOpt v "packageType").truthy = false)) :
    decodeExtraData P d.extraData = none ∧ (runIpn P env w event).calls = [] := by
  have hdec : decodeExtraData P d.extraData = none := by
    cases hq : decodeExtraData P d.extraData with
    | none => rfl
    | some x =>
      exfalso
      obtain ⟨hr, _, hu, hp⟩ := decodeExtraData_eq_some hq
      rw [hextra] at hr
      rcases hbad with ⟨e, he⟩ | ⟨v, hv, hf⟩
      · simp [readExtraData, bufferFromBase64ToUtf8, jsonParse, JsVal.toText,
          JsVal.convertible, JsVal.toStr, he, bind, Except.bind] at hr
      · obtain ⟨e1, e2, _⟩ := readExtraData_fields hv hr
        rw [e1] at hu
        rw [e2] at hp
        rcases hf with h | h
        · rw [h] at hu
          exact Bool.noConfusion hu
        · rw [h] at hp
          exact Bool.noConfusion hp
  exact ⟨hdec, by rw [runIpn_calls, expectedCalls_of_decode_none P env w event d hread hdec]⟩

/-- Witness of the amended C9: the signed notification whose `extraData`
    decodes to a text that is not JSON. -/
theorem undecodable_payload_no_downstream_call_witness :
    readNotification node notJsonEvent = .ok notJsonData ∧
    signatureValid node testEnv notJsonData = true ∧
    notJsonData.extraData = .str "dXNlcklkPXUx" ∧
    node.base64ToUtf8 "dXNlcklkPXUx" = "userId=u1" ∧
    (∃ e, node.jsonParse (node.base64ToUtf8 "dXNlcklkPXUx") = .error e) ∧
    (decodeExtraData node notJsonData.extraData = none ∧
      (runIpn node testEnv okWorld notJsonEvent).calls = []) :=
  ⟨rfl, by decide!, rfl, by decide, ⟨_, rfl⟩,
    undecodable_payload_no_downstream_call node testEnv okWorld notJsonEvent notJsonData
      "dXNlcklkPXUx" rfl rfl (Or.inl ⟨_, rfl⟩)⟩

/-- C10 as stated fails: the body of this notification is valid JSON and lacks
    the field `message`; its signature is the digest of the canonical string in
    which the absent field reads `undefined`, and the PATCH is issued. -/
theorem missing_field_counterexample :
    node.jsonParse (jsonStringify (.obj noMessageFields)) = .ok (.obj noMessageFields) ∧
    JsVal.lookup "message" noMessageFields = .undefined ∧
    readNotification node noMessageEvent = .ok noMessageData ∧
    (runIpn node testEnv okWorld noMessageEvent).calls =
      [patchRequest testEnv directPayload
        (patchData node okWorld noMessageData directPayload 0)] := by
  refine ⟨rfl, rfl, rfl, ?_⟩
  rw [runIpn_calls, expectedCalls_successful noMessageEvent_successful]
  rfl

/-- C10, amended: for every notification whose body is valid JSON and lacks
    `signature`, `extraData` or `resultCode`, and for every notification whose
    signature is not the digest of the canonical string rebuilt from its fields
    (an absent field reading `undefined`), no downstream HTTP request is made. -/
theorem missing_field_no_downstream_call (P : Platform) (env : Env) (w : World)
    (event : JsVal) (d : IpnData)
    (hread : readNotification P event = .ok d)
    (hlack : d.signature = .undefined ∨ d.extraData = .undefined ∨
      d.resultCode = .undefined ∨ signatureValid P env d = false) :
    (runIpn P env w event).calls = [] := by
  rw [runIpn_calls]
  rcases hlack with h | h | h | h
  · exact expectedCalls_of_invalid P env w event d hread
      (by simp [signatureValid, h, JsVal.strictEqStr])
  · exact expectedCalls_of_decode_none P env w event d hread
      (by simp [decodeExtraData, readExtraData, h, bufferFromBase64ToUtf8, bind, Except.bind])
  · exact expectedCalls_of_not_success P env w event d hread
      (by simp [h, JsVal.strictEqNum])
  · exact expectedCalls_of_invalid P env w event d hread h

/-- Witness of the amended C10: the signed notification without `extraData`. -/
theorem missing_field_no_downstream_call_witness :
    readNotification node noExtraDataEvent = .ok noExtraDataData ∧
    signatureValid node testEnv noExtraDataData = true ∧
    noExtraDataData.extraData = .undefined ∧
    (runIpn node testEnv okWorld noExtraDataEvent).calls = [] :=
  ⟨rfl, by decide!, rfl,
    missing_field_no_downstream_call node testEnv okWorld noExtraDataEvent noExtraDataData rfl
      (Or.inr (Or.inl rfl))⟩

/-! ## The canonical message -/

theorem str_append_left_inj (a : String) {x y : String} : a ++ x = a ++ y ↔ x = y := by
  constructor
  · intro h
    apply String.ext
    have h2 := congrArg String.data h
    simpa [String.data_append] using h2
  · intro h
    rw [h]

theorem str_append_right_inj (b : String) {x y : String} : x ++ b = y ++ b ↔ x = y := by
  constructor
  · intro h
    apply String.ext
    have h2 := congrArg String.data h
    simpa [String.data_append] using h2
  · intro h
    rw [h]

theorem destructureIpn_eq (v : JsVal) (d : IpnData) (h : destructureIpn v = .ok d) :
    d = { partnerCode := getPropOpt v "partnerCode", orderId := getPropOpt v "orderId",
          requestId := getPropOpt v "requestId", amount := getPropOpt v "amount",
          orderInfo := getPropOpt v "orderInfo", orderType := getPropOpt v "orderType",
          transId := getPropOpt v "transId", resultCode := getPropOpt v "resultCode",
          message := getPropOpt v "message", payType := getPropOpt v "payType",
          responseTime := getPropOpt v "responseTime", extraData := getPropOpt v "extraData",
          signature := getPropOpt v "signature" } := by
  cases v <;>
    simp [destructureIpn, getProp, getPropOpt, bind, Except.bind, pure, Except.pure] at h ⊢ <;>
    exact h.symm

theorem ipnRawSignature_eq_canonical (k : String) (v : JsVal) (d : IpnData)
    (h : destructureIpn v = .ok d) :
    ipnRawSignature k d = ipnCanonicalOf k v := by
  rw [destructureIpn_eq v d h]
  apply String.ext
  simp [ipnRawSignature, ipnCanonicalOf, canonicalString, ipnCanonicalNames, String.intercalate,
    String.intercalate.go, String.data_append]

/-- Replacing one canonical field changes the canonical string as soon as the
    string form of the field changes. -/
theorem ipnRawSignature_set_inj (k : String) (d : IpnData) (f : IpnField) (v : JsVal)
    (h : ipnRawSignature k (d.set f v) = ipnRawSignature k d) : v.toStr = (d.get f).toStr := by
  cases f <;>
    simpa [ipnRawSignature, IpnData.set, IpnData.get, String.append_assoc, str_append_left_inj,
      str_append_right_inj] using h

theorem IpnData.set_signature (d : IpnData) (f : IpnField) (v : JsVal) :
    (d.set f v).signature = d.signature := by
  cases f <;> rfl

/-- In a list of characters without `&`, followed by `&`, the place of that `&`
    is determined. -/
theorem amp_split_list (a b r t : List Char) (ha : Char.ofNat 38 ∉ a) (hb : Char.ofNat 38 ∉ b)
    (h : a ++ Char.ofNat 38 :: r = b ++ Char.ofNat 38 :: t) : a = b ∧ r = t := by
  induction a generalizing b with
  | nil =>
    cases b with
    | nil => simpa using h
    | cons y ys =>
      simp only [List.nil_append, List.cons_append, List.cons.injEq] at h
      exact absurd h.1 (fun e => hb (by simp [← e]))
  | cons x xs ih =>
    cases b with
    | nil =>
      simp only [List.nil_append, List.cons_append, List.cons.injEq] at h
      exact absurd h.1 (fun e => ha (by simp [e]))
    | cons y ys =>
      simp only [List.cons_append, List.cons.injEq] at h
      obtain ⟨e1, e2⟩ := ih ys (fun m => ha (by simp [m])) (fun m => hb (by simp [m])) h.2
      exact ⟨by rw [h.1, e1], e2⟩

/-- The same on strings: `lit` is a text that starts with `&`. -/
theorem amp_split (a b lit r t : String) (ha : Char.ofNat 38 ∉ a.data)
    (hb : Char.ofNat 38 ∉ b.data) (h : a ++ (lit ++ r) = b ++ (lit ++ t))
    (hl : lit.data.head? = some (Char.ofNat 38)) : a = b ∧ r = t := by
  have h2 := congrArg String.data h
  simp only [String.data_append] at h2
  cases hd : lit.data with
  | nil => simp [hd] at hl
  | cons c rest =>
    simp only [hd, List.head?_cons, Option.some.injEq] at hl
    subst hl
    simp only [hd, List.cons_append] at h2
    obtain ⟨e1, e2⟩ := amp_split_list _ _ _ _ ha hb h2
    exact ⟨String.ext e1, String.ext (List.append_cancel_left e2)⟩

/-- When no canonical field holds `&`, the canonical string determines the
    string form of every canonical field. -/
theorem ipnRawSignature_inj (k : String) (d e : IpnData)
    (hd : ∀ f, Char.ofNat 38 ∉ (d.get f).toStr.data)
    (he : ∀ f, Char.ofNat 38 ∉ (e.get f).toStr.data)
    (h : ipnRawSignature k d = ipnRawSignature k e) :
    ∀ f, (d.get f).toStr = (e.get f).toStr := by
  simp only [ipnRawSignature, String.append_assoc, str_append_left_inj] at h
  obtain ⟨e1, h⟩ := amp_split _ _ _ _ _ (hd .amount) (he .amount) h rfl
  obtain ⟨e2, h⟩ := amp_split _ _ _ _ _ (hd .extraData) (he .extraData) h rfl
  obtain ⟨e3, h⟩ := amp_split _ _ _ _ _ (hd .message) (he .message) h rfl
  obtain ⟨e4, h⟩ := amp_split _ _ _ _ _ (hd .orderId) (he .orderId) h rfl
  obtain ⟨e5, h⟩ := amp_split _ _ _ _ _ (hd .orderInfo) (he .orderInfo) h rfl
  obtain ⟨e6, h⟩ := amp_split _ _ _ _ _ (hd .orderType) (he .orderType) h rfl
  obtain ⟨e7, h⟩ := amp_split _ _ _ _ _ (hd .partnerCode) (he .partnerCode) h rfl
  obtain ⟨e8, h⟩ := amp_split _ _ _ _ _ (hd .payType) (he .payType) h rfl
  obtain ⟨e9, h⟩ := amp_split _ _ _ _ _ (hd .requestId) (he .requestId) h rfl
  obtain ⟨e10, h⟩ := amp_split _ _ _ _ _ (hd .responseTime) (he .responseTime) h rfl
  have e11 : d.resultCode.toStr = e.resultCode.toStr ∧ d.transId.toStr = e.transId.toStr := by
    have h3 : d.resultCode.toStr ++ ("&transId=" ++ d.transId.toStr) =
        e.resultCode.toStr ++ ("&transId=" ++ e.transId.toStr) := h
    exact amp_split _ _ _ _ _ (hd .resultCode) (he .resultCode) h3 rfl
  intro f
  cases f
  · exact e1
  · exact e2
  · exact e3
  · exact e4
  · exact e5
  · exact e6
  · exact e7
  · exact e8
  · exact e9
  · exact e10
  · exact e11.1
  · exact e11.2

/-! ## Concrete notifications, continued -/

theorem emptyProgramEvent_successful :
    SuccessfulNotification node testEnv emptyProgramEvent emptyProgramData emptyProgramPayload :=
  ⟨rfl, rfl, by decide!, rfl, rfl, rfl⟩

theorem goldEvent_successful :
    SuccessfulNotification node testEnv goldEvent goldData goldPayload :=
  ⟨rfl, rfl, by decide!, rfl, rfl, rfl⟩

theorem splicedMessageEvent_successful :
    SuccessfulNotification node testEnv splicedMessageEvent splicedMessageData directPayload :=
  ⟨rfl, rfl, by decide!, rfl, rfl, rfl⟩

theorem splicedOrderEvent_successful :
    SuccessfulNotification node testEnv splicedOrderEvent splicedOrderData directPayload := by
  refine ⟨rfl, rfl, ?_, rfl, rfl, rfl⟩
  have h := splicedMessageEvent_successful.2.2.1
  have e : ipnRawSignature (envStr testEnv.MOMO_ACCESS_KEY) splicedOrderData =
      ipnRawSignature (envStr testEnv.MOMO_ACCESS_KEY) splicedMessageData := by decide
  simp only [signatureValid, expectedSignature] at h ⊢
  rw [e]
  exact h

/-- The digest of the canonical string of the trial-upgrade notification with
    its amount changed to 1. -/
theorem tampered_expectedSignature :
    expectedSignature node testEnv (trialData.set .amount (.num 1)) =
      "798991a97f66cd2d89dd9f0c3dca89dceb8b59ba72c056af6cdee7381b426996" := by
  decide!

theorem trial_expectedSignature :
    expectedSignature node testEnv trialData =
      "b4ac40494e2974c85d5229bb1b6168731b3d7bf992b1a5f7b985b50c329c7565" := by
  have h := trialEvent_successful.2.2.1
  simp only [signatureValid] at h
  have h2 := strictEqStr_eq_true.1 h
  have h3 : trialData.signature =
      .str "b4ac40494e2974c85d5229bb1b6168731b3d7bf992b1a5f7b985b50c329c7565" := rfl
  rw [h3] at h2
  exact (JsVal.str.inj h2).symm

theorem tampered_digest_differs :
    node.hmacSha256Hex (envStr testEnv.MOMO_SECRET_KEY)
        (ipnRawSignature (envStr testEnv.MOMO_ACCESS_KEY) (trialData.set .amount (.num 1))) ≠
      node.hmacSha256Hex (envStr testEnv.MOMO_SECRET_KEY)
        (ipnRawSignature (envStr testEnv.MOMO_ACCESS_KEY) trialData) := by
  have h1 := tampered_expectedSignature
  have h2 := trial_expectedSignature
  simp only [expectedSignature] at h1 h2
  rw [h1, h2]
  decide

theorem generatorSignature_eq :
    generatorSignature = "fa0d6c13fcc1bce81155568de88de33f500dc5d168a9c5dacc58a20805776b1b" := by
  decide!

/-! ## The claims on the canonical message and on the notification path -/

/-- C11: for every parsed notification (the body of the event parses to an
    envelope whose fields can be read), the string that the IPN handler signs
    is the canonical message of the thirteen fields `accessKey`, `amount`,
    `extraData`, `message`, `orderId`, `orderInfo`, `orderType`, `partnerCode`,
    `payType`, `requestId`, `responseTime`, `resultCode`, `transId` in that
    order, joined by `&`, where `accessKey` is `MOMO_ACCESS_KEY` and every other
    value is the envelope field converted to a string; the names are in
    strictly ascending order, and a string value is taken as it is. -/
theorem ipn_canonical_string (P : Platform) (env : Env) (event body envelope : JsVal)
    (d : IpnData)
    (hbody : getProp event "body" = .ok body)
    (hparse : jsonParse P (body.orElse (.str "\x7b\x7d")) = .ok envelope)
    (hfields : destructureIpn envelope = .ok d) :
    readNotification P event = .ok d ∧
    expectedSignature P env d =
      P.hmacSha256Hex (envStr env.MOMO_SECRET_KEY)
        (canonicalString (("accessKey", envStr env.MOMO_ACCESS_KEY) ::
          ipnCanonicalNames.map (fun name => (name, (getPropOpt envelope name).toStr)))) ∧
    ("accessKey" :: ipnCanonicalNames).length = 13 ∧
    strictlyAscending ("accessKey" :: ipnCanonicalNames) = true ∧
    ∀ s : String, (JsVal.str s).toStr = s := by
  refine ⟨?_, ?_, rfl, by decide, fun _ => rfl⟩
  · simp [readNotification, hbody, hparse, hfields, bind, Except.bind]
  · rw [expectedSignature, ipnRawSignature_eq_canonical _ envelope d hfields]
    rfl

/-- Witness of C11: the trial-upgrade notification. -/
theorem ipn_canonical_string_witness :
    getProp trialEvent "body" = .ok (.str (jsonStringify (.obj trialFields))) ∧
    (readNotification node trialEvent = .ok trialData ∧
    expectedSignature node testEnv trialData =
      node.hmacSha256Hex (envStr testEnv.MOMO_SECRET_KEY)
        (canonicalString (("accessKey", envStr testEnv.MOMO_ACCESS_KEY) ::
          ipnCanonicalNames.map
            (fun name => (name, (getPropOpt (.obj trialFields) name).toStr)))) ∧
    ("accessKey" :: ipnCanonicalNames).length = 13 ∧
    strictlyAscending ("accessKey" :: ipnCanonicalNames) = true ∧
    ∀ s : String, (JsVal.str s).toStr = s) :=
  ⟨rfl, ipn_canonical_string node testEnv trialEvent (.str (jsonStringify (.obj trialFields)))
    (.obj trialFields) trialData rfl rfl rfl⟩

/-- C13 as stated fails: in the correctly signed trial-upgrade notification the
    value of `amount`, the number 50000, is replaced by a different value, the
    string `"50000"`, and `signature` is left unchanged; the signature check
    still passes and both downstream calls are made, the PATCH carrying the
    replaced value. -/
theorem retyped_amount_counterexample :
    readNotification node trialEvent = .ok trialData ∧
    signatureValid node testEnv trialData = true ∧
    trialData.get .amount = .num 50000 ∧
    JsVal.str "50000" ≠ JsVal.num 50000 ∧
    readNotification node retypedEvent = .ok (trialData.set .amount (.str "50000")) ∧
    (trialData.set .amount (.str "50000")).signature = trialData.signature ∧
    signatureValid node testEnv (trialData.set .amount (.str "50000")) = true ∧
    (runIpn node testEnv okWorld retypedEvent).calls =
      [upgradeRequest testEnv trialPayload,
       patchRequest testEnv trialPayload
        (patchData node okWorld (trialData.set .amount (.str "50000")) trialPayload 0)] ∧
    getPropOpt (patchData node okWorld (trialData.set .amount (.str "50000")) trialPayload 0)
      "lastPaymentAmount" = .str "50000" := by
  have hv : signatureValid node testEnv (trialData.set .amount (.str "50000")) = true :=
    trialEvent_successful.2.2.1
  refine ⟨rfl, trialEvent_successful.2.2.1, rfl, fun h => JsVal.noConfusion h, rfl, rfl, hv,
    ?_, rfl⟩
  have hs : SuccessfulNotification node testEnv retypedEvent
      (trialData.set .amount (.str "50000")) trialPayload := ⟨rfl, rfl, hv, rfl, rfl, rfl⟩
  rw [runIpn_calls, expectedCalls_successful hs]
  rfl

/-- C13, amended: for every notification that carries a valid signature,
    replacing the value of one canonical field by a value whose string form is
    different, while `signature` stays unchanged, makes the signature check of
    the IPN handler fail, so that no downstream call is made (HMAC-SHA256 taken
    as collision-free on the two canonical strings). -/
theorem tampered_field_rejected (P : Platform) (env : Env) (w : World) (event : JsVal)
    (d : IpnData) (f : IpnField) (v : JsVal)
    (hvalid : signatureValid P env d = true)
    (hread : readNotification P event = .ok (d.set f v))
    (hdiff : v.toStr ≠ (d.get f).toStr)
    (hfree : P.hmacSha256Hex (envStr env.MOMO_SECRET_KEY)
          (ipnRawSignature (envStr env.MOMO_ACCESS_KEY) (d.set f v)) =
        P.hmacSha256Hex (envStr env.MOMO_SECRET_KEY)
          (ipnRawSignature (envStr env.MOMO_ACCESS_KEY) d) →
      ipnRawSignature (envStr env.MOMO_ACCESS_KEY) (d.set f v) =
        ipnRawSignature (envStr env.MOMO_ACCESS_KEY) d) :
    (d.set f v).signature = d.signature ∧
    signatureValid P env (d.set f v) = false ∧
    (runIpn P env w event).calls = [] := by
  have hs : signatureValid P env (d.set f v) = false := by
    cases h : signatureValid P env (d.set f v) with
    | false => rfl
    | true =>
      exfalso
      simp only [signatureValid, expectedSignature, IpnData.set_signature] at h hvalid
      have e1 := strictEqStr_eq_true.1 h
      have e2 := strictEqStr_eq_true.1 hvalid
      rw [e2] at e1
      exact hdiff (ipnRawSignature_set_inj _ d f v (hfree (JsVal.str.inj e1).symm))
  exact ⟨IpnData.set_signature d f v, hs,
    by rw [runIpn_calls, expectedCalls_of_invalid P env w event _ hread hs]⟩

/-- Witness of the amended C13: the trial-upgrade notification with its amount
    changed from 50000 to 1. -/
theorem tampered_field_rejected_witness :
    signatureValid node testEnv trialData = true ∧
    readNotification node tamperedEvent = .ok (trialData.set .amount (.num 1)) ∧
    ((trialData.set .amount (.num 1)).signature = trialData.signature ∧
    signatureValid node testEnv (trialData.set .amount (.num 1)) = false ∧
    (runIpn node testEnv okWorld tamperedEvent).calls = []) :=
  ⟨trialEvent_successful.2.2.1, rfl,
    tampered_field_rejected node testEnv okWorld tamperedEvent trialData .amount (.num 1)
      trialEvent_successful.2.2.1 rfl (by decide) (fun h => absurd h tampered_digest_differs)⟩

/-- C20 as stated fails, in two ways.  The payload of a correctly signed,
    successful notification has a `programId` present, the empty string: no
    upgrade call is made, the PATCH is the only request.  And the payload of
    another one has a `programId` present that cannot be converted to a string
    (an object with an own property `toString`): writing the log line of
    `programId` throws, and neither the upgrade call nor the PATCH is made. -/
theorem empty_programId_counterexample :
    (readNotification node emptyProgramEvent = .ok emptyProgramData ∧
      signatureValid node testEnv emptyProgramData = true ∧
      emptyProgramData.resultCode = .num 0 ∧
      node.base64ToUtf8
          "eyJ1c2VySWQiOiJ1MSIsInBhY2thZ2VUeXBlIjoiUFJFTUlVTSIsInByb2dyYW1JZCI6IiJ9" =
        "\x7b\"userId\":\"u1\",\"packageType\":\"PREMIUM\",\"programId\":\"\"\x7d" ∧
      decodeExtraData node emptyProgramData.extraData =
        some { userId := .str "u1", packageType := .str "PREMIUM", programId := .str "" } ∧
      withMethod "POST" (runIpn node testEnv okWorld emptyProgramEvent).calls = [] ∧
      (runIpn node testEnv okWorld emptyProgramEvent).calls =
        [patchRequest testEnv emptyProgramPayload
          (patchData node okWorld emptyProgramData emptyProgramPayload 0)]) ∧
    (readNotification node opaqueProgramEvent = .ok opaqueProgramData ∧
      signatureValid node testEnv opaqueProgramData = true ∧
      opaqueProgramData.resultCode = .num 0 ∧
      readExtraData node opaqueProgramData.extraData = .ok opaqueProgramPayload ∧
      opaqueProgramPayload.programId = .obj [("toString", .null)] ∧
      opaqueProgramPayload.programId.truthy = true ∧
      opaqueProgramPayload.programId.convertible = false ∧
      withMethod "POST" (runIpn node testEnv okWorld opaqueProgramEvent).calls = [] ∧
      (runIpn node testEnv okWorld opaqueProgramEvent).calls = []) := by
  refine ⟨⟨rfl, emptyProgramEvent_successful.2.2.1, rfl, by decide, rfl, ?_, ?_⟩,
    ⟨rfl, opaqueProgramEvent_signed, rfl, rfl, rfl, rfl, rfl, ?_, opaqueProgramEvent_calls⟩⟩
  · rw [runIpn_calls, expectedCalls_successful emptyProgramEvent_successful]
    rfl
  · rw [runIpn_calls, expectedCalls_successful emptyProgramEvent_successful]
    rfl
  · rw [opaqueProgramEvent_calls]
    rfl

/-- C20, amended: for a configured handler and every correctly signed
    successful notification whose fields and whose decoded `userId`,
    `packageType` and `programId` can be converted to strings (this is part of
    `SuccessfulNotification`), the upgrade-from-trial POST is issued exactly once,
    before the PATCH, to `BACKEND_API_URL/api/programs/programId/upgrade-from-trial`
    with header `X-User-Id` = `userId`, if and only if the `programId` of the
    decoded payload is truthy; when `programId` is absent (or falsy) no POST is
    made. -/
theorem upgrade_issued_iff_programId_truthy (P : Platform) (env : Env) (w : World)
    (event : JsVal) (d : IpnData) (x : ExtraData)
    (h : SuccessfulNotification P env event d x) :
    (x.programId.truthy = true →
      (runIpn P env w event).calls =
        [upgradeRequest env x, patchRequest env x (patchData P w d x 0)] ∧
      withMethod "POST" (runIpn P env w event).calls = [upgradeRequest env x] ∧
      (upgradeRequest env x).method = "POST" ∧
      (upgradeRequest env x).url =
        envStr env.BACKEND_API_URL ++ "/api/programs/" ++ x.programId.toStr ++
          "/upgrade-from-trial" ∧
      (upgradeRequest env x).headers.lookup "X-User-Id" = some x.userId) ∧
    (x.programId.truthy = false →
      withMethod "POST" (runIpn P env w event).calls = []) ∧
    (x.programId = .undefined →
      withMethod "POST" (runIpn P env w event).calls = []) ∧
    (withMethod "POST" (runIpn P env w event).calls ≠ [] ↔ x.programId.truthy = true) := by
  have hc := expectedCalls_successful h w
  have hpost : withMethod "POST" (runIpn P env w event).calls = upgradeCalls env x := by
    rw [runIpn_calls, hc, withMethod_upgradeCalls_post]
  refine ⟨?_, ?_, ?_, ?_⟩
  · intro ht
    refine ⟨?_, ?_, rfl, rfl, ?_⟩
    · rw [runIpn_calls, hc]
      simp [upgradeCalls, ht]
    · rw [hpost]
      simp [upgradeCalls, ht]
    · simp [upgradeRequest, List.lookup]
  · intro hf
    rw [hpost]
    simp [upgradeCalls, hf]
  · intro hu
    rw [hpost]
    simp [upgradeCalls, hu, JsVal.truthy]
  · rw [hpost]
    by_cases ht : x.programId.truthy = true <;> simp [upgradeCalls, ht]

/-- Witness of the amended C20: the trial-upgrade notification. -/
theorem upgrade_issued_iff_programId_truthy_witness :
    SuccessfulNotification node testEnv trialEvent trialData trialPayload ∧
    trialData.convertible = true ∧ trialPayload.convertible = true ∧
    trialPayload.programId.truthy = true ∧
    ((trialPayload.programId.truthy = true →
      (runIpn node testEnv okWorld trialEvent).calls =
        [upgradeRequest testEnv trialPayload,
         patchRequest testEnv trialPayload (patchData node okWorld trialData trialPayload 0)] ∧
      withMethod "POST" (runIpn node testEnv okWorld trialEvent).calls =
        [upgradeRequest testEnv trialPayload] ∧
      (upgradeRequest testEnv trialPayload).method = "POST" ∧
      (upgradeRequest testEnv trialPayload).url =
        envStr testEnv.BACKEND_API_URL ++ "/api/programs/" ++ trialPayload.programId.toStr ++
          "/upgrade-from-trial" ∧
      (upgradeRequest testEnv trialPayload).headers.lookup "X-User-Id" =
        some trialPayload.userId) ∧
    (trialPayload.programId.truthy = false →
      withMethod "POST" (runIpn node testEnv okWorld trialEvent).calls = []) ∧
    (trialPayload.programId = .undefined →
      withMethod "POST" (runIpn node testEnv okWorld trialEvent).calls = []) ∧
    (withMethod "POST" (runIpn node testEnv okWorld trialEvent).calls ≠ [] ↔
      trialPayload.programId.truthy = true)) :=
  ⟨trialEvent_successful, rfl, rfl, rfl,
    upgrade_issued_iff_programId_truthy node testEnv okWorld trialEvent trialData
      trialPayload trialEvent_successful⟩

/-- C21 as stated fails: with a clock that advances by one millisecond at each
    reading, the PATCH of the trial-upgrade notification carries a
    `subscriptionExpiresAt` and a `nextBillingDate` that differ. -/
theorem expiry_dates_differ_counterexample :
    okWorld.now 0 = 1733445600000 ∧ okWorld.now 2 = 1733445600002 ∧
    withMethod "PATCH" (runIpn node testEnv okWorld trialEvent).calls =
      [patchRequest testEnv trialPayload (patchData node okWorld trialData trialPayload 0)] ∧
    getPropOpt (patchData node okWorld trialData trialPayload 0) "subscriptionExpiresAt" =
      .str "2025-01-05T00:40:00.000Z" ∧
    getPropOpt (patchData node okWorld trialData trialPayload 0) "nextBillingDate" =
      .str "2025-01-05T00:40:00.002Z" ∧
    JsVal.str "2025-01-05T00:40:00.000Z" ≠ JsVal.str "2025-01-05T00:40:00.002Z" := by
  refine ⟨rfl, rfl, ?_, rfl, rfl, ?_⟩
  · rw [runIpn_calls, expectedCalls_successful trialEvent_successful,
      withMethod_upgradeCalls_patch]
  · intro h
    exact absurd (JsVal.str.inj h) (by decide)

/-- C21, amended: `calculateExpiryDate(days)` returns the ISO-8601 timestamp of
    the instant exactly `days * 86400000` ms after the clock reading it takes;
    in every subscription patch that the handler sends, `subscriptionExpiresAt`
    is the first clock reading of the invocation plus exactly 30 days,
    `lastPaymentDate` is the second reading and `nextBillingDate` is the third
    reading plus exactly 30 days, so that the two dates are equal whenever the
    first and the third reading are. -/
theorem expiry_dates_thirty_days_after_reading (P : Platform) (env : Env) (w : World)
    (event : JsVal) (req : HttpRequest)
    (hreq : req ∈ withMethod "PATCH" (runIpn P env w event).calls) :
    (∀ (days : Int) (s : St), calculateExpiryDate P days w s =
      .ok (P.toISOString (w.now s.clockReads + days * 86400000))
        { s with clockReads := s.clockReads + 1 }) ∧
    withMethod "PATCH" (runIpn P env w event).calls = [req] ∧
    getPropOpt req.bodyJson "subscriptionExpiresAt" =
      .str (P.toISOString (w.now 0 + 30 * 86400000)) ∧
    getPropOpt req.bodyJson "lastPaymentDate" = .str (P.toISOString (w.now 1)) ∧
    getPropOpt req.bodyJson "nextBillingDate" =
      .str (P.toISOString (w.now 2 + 30 * 86400000)) ∧
    (w.now 2 = w.now 0 →
      getPropOpt req.bodyJson "subscriptionExpiresAt" =
        getPropOpt req.bodyJson "nextBillingDate") := by
  have hcalc : ∀ (days : Int) (s : St), calculateExpiryDate P days w s =
      .ok (P.toISOString (w.now s.clockReads + days * 86400000))
        { s with clockReads := s.clockReads + 1 } := by
    intro days s
    have e : days * 24 * 60 * 60 * 1000 = days * 86400000 := by ring
    simp [calculateExpiryDate, Js.andThen_run, e]
  rw [runIpn_calls] at hreq ⊢
  rcases expectedCalls_cases P env w event with h0 | ⟨d, x, _, hc⟩
  · rw [h0] at hreq
    simp [withMethod] at hreq
  · rw [hc, withMethod_upgradeCalls_patch] at hreq ⊢
    have e : req = patchRequest env x (patchData P w d x 0) := List.mem_singleton.1 hreq
    subst e
    have e1 : getPropOpt (patchRequest env x (patchData P w d x 0)).bodyJson
        "subscriptionExpiresAt" = .str (P.toISOString (w.now 0 + 30 * 86400000)) := by
      simp [patchRequest, patchData, subscriptionData, getPropOpt, JsVal.lookup]
    have e2 : getPropOpt (patchRequest env x (patchData P w d x 0)).bodyJson
        "nextBillingDate" = .str (P.toISOString (w.now 2 + 30 * 86400000)) := by
      simp [patchRequest, patchData, subscriptionData, getPropOpt, JsVal.lookup]
    refine ⟨hcalc, rfl, e1, ?_, e2, ?_⟩
    · simp [patchRequest, patchData, subscriptionData, getPropOpt, JsVal.lookup]
    · intro hw
      rw [e1, e2, hw]

/-- Witness of the amended C21: the PATCH of the trial-upgrade notification. -/
theorem expiry_dates_thirty_days_after_reading_witness :
    patchRequest testEnv trialPayload (patchData node okWorld trialData trialPayload 0) ∈
      withMethod "PATCH" (runIpn node testEnv okWorld trialEvent).calls ∧
    ((∀ (days : Int) (s : St), calculateExpiryDate node days okWorld s =
      .ok (node.toISOString (okWorld.now s.clockReads + days * 86400000))
        { s with clockReads := s.clockReads + 1 }) ∧
    withMethod "PATCH" (runIpn node testEnv okWorld trialEvent).calls =
      [patchRequest testEnv trialPayload (patchData node okWorld trialData trialPayload 0)] ∧
    getPropOpt (patchRequest testEnv trialPayload
        (patchData node okWorld trialData trialPayload 0)).bodyJson "subscriptionExpiresAt" =
      .str (node.toISOString (okWorld.now 0 + 30 * 86400000)) ∧
    getPropOpt (patchRequest testEnv trialPayload
        (patchData node okWorld trialData trialPayload 0)).bodyJson "lastPaymentDate" =
      .str (node.toISOString (okWorld.now 1)) ∧
    getPropOpt (patchRequest testEnv trialPayload
        (patchData node okWorld trialData trialPayload 0)).bodyJson "nextBillingDate" =
      .str (node.toISOString (okWorld.now 2 + 30 * 86400000)) ∧
    (okWorld.now 2 = okWorld.now 0 →
      getPropOpt (patchRequest testEnv trialPayload
          (patchData node okWorld trialData trialPayload 0)).bodyJson "subscriptionExpiresAt" =
        getPropOpt (patchRequest testEnv trialPayload
          (patchData node okWorld trialData trialPayload 0)).bodyJson "nextBillingDate")) :=
  have hreq : patchRequest testEnv trialPayload
        (patchData node okWorld trialData trialPayload 0) ∈
      withMethod "PATCH" (runIpn node testEnv okWorld trialEvent).calls := by
    rw [runIpn_calls, expectedCalls_successful trialEvent_successful,
      withMethod_upgradeCalls_patch]
    exact List.mem_singleton.2 rfl
  ⟨hreq, expiry_dates_thirty_days_after_reading node testEnv okWorld trialEvent _ hreq⟩

/-- C23, the code on the test event of the repository: the event printed by
    `generate-momo-signature.cjs` is read by the IPN handler configured with the
    same keys, its signature is valid and its payload decodes to user
    `test-user-123` and package `PREMIUM`; its `resultCode` is the string `"0"`,
    which is not `=== 0`, so the handler makes no downstream call: no PATCH is
    issued. -/
theorem generator_event_not_processed :
    readNotification node generatorEvent = .ok generatorData ∧
    signatureValid node testEnv generatorData = true ∧
    decodeExtraData node generatorData.extraData = some generatorPayload ∧
    generatorData.resultCode = .str "0" ∧
    generatorData.resultCode.strictEqNum 0 = false ∧
    (runIpn node testEnv okWorld generatorEvent).calls = [] ∧
    withMethod "PATCH" (runIpn node testEnv okWorld generatorEvent).calls = [] := by
  have hread : readNotification node generatorEvent = .ok generatorData := rfl
  have hc : (runIpn node testEnv okWorld generatorEvent).calls = [] := by
    rw [runIpn_calls, expectedCalls_of_not_success node testEnv okWorld generatorEvent
      generatorData hread rfl]
  refine ⟨hread, ?_, rfl, rfl, rfl, hc, by rw [hc]; rfl⟩
  have e : generatorData.signature = .str generatorSignature := rfl
  have e2 : ipnRawSignature (envStr testEnv.MOMO_ACCESS_KEY) generatorData =
      generatorRawSignature := by decide
  simp only [signatureValid, expectedSignature, e, e2]
  exact strictEqStr_eq_true.2 rfl

/-- C24, the code on a package outside the list: the payload of this correctly
    signed, successful notification has `packageType` `GOLD`; the handler sends
    the PATCH with `subscriptionTier` `GOLD`, which is none of `BASIC`, `VIP`,
    `PREMIUM`, the values that the comment on `subscriptionTier` names. -/
theorem gold_tier_patched :
    readNotification node goldEvent = .ok goldData ∧
    signatureValid node testEnv goldData = true ∧
    goldData.resultCode = .num 0 ∧
    decodeExtraData node goldData.extraData = some goldPayload ∧
    goldPayload.packageType = .str "GOLD" ∧
    (runIpn node testEnv okWorld goldEvent).calls =
      [patchRequest testEnv goldPayload (patchData node okWorld goldData goldPayload 0)] ∧
    (patchRequest testEnv goldPayload (patchData node okWorld goldData goldPayload 0)).method =
      "PATCH" ∧
    getPropOpt (patchRequest testEnv goldPayload
        (patchData node okWorld goldData goldPayload 0)).bodyJson "subscriptionTier" =
      .str "GOLD" ∧
    "GOLD" ∉ packageTypes := by
  refine ⟨rfl, goldEvent_successful.2.2.1, rfl, rfl, rfl, ?_, rfl, rfl, by decide⟩
  rw [runIpn_calls, expectedCalls_successful goldEvent_successful]
  rfl

/-- C28 as stated fails: these two correctly signed notifications differ in the
    values of `message` and of `orderId` (the text `&orderId=A1` is at the end of
    `message` in the one, at the start of `orderId` in the other); their
    canonical strings are the same, they carry the same valid signature and both
    are processed. -/
theorem spliced_envelopes_counterexample :
    readNotification node splicedMessageEvent = .ok splicedMessageData ∧
    readNotification node splicedOrderEvent = .ok splicedOrderData ∧
    splicedMessageData.message = .str "Successful.&orderId=A1" ∧
    splicedOrderData.message = .str "Successful." ∧
    splicedMessageData.orderId = .str "MOMO1765042430139" ∧
    splicedOrderData.orderId = .str "A1&orderId=MOMO1765042430139" ∧
    ipnRawSignature "F8BBA842ECF85" splicedMessageData =
      ipnRawSignature "F8BBA842ECF85" splicedOrderData ∧
    splicedMessageData.signature = splicedOrderData.signature ∧
    signatureValid node testEnv splicedMessageData = true ∧
    signatureValid node testEnv splicedOrderData = true ∧
    (runIpn node testEnv okWorld splicedMessageEvent).calls =
      [patchRequest testEnv directPayload
        (patchData node okWorld splicedMessageData directPayload 0)] ∧
    (runIpn node testEnv okWorld splicedOrderEvent).calls =
      [patchRequest testEnv directPayload
        (patchData node okWorld splicedOrderData directPayload 0)] := by
  refine ⟨rfl, rfl, rfl, rfl, rfl, rfl, by decide, rfl, splicedMessageEvent_successful.2.2.1,
    splicedOrderEvent_successful.2.2.1, ?_, ?_⟩
  · rw [runIpn_calls, expectedCalls_successful splicedMessageEvent_successful]
    rfl
  · rw [runIpn_calls, expectedCalls_successful splicedOrderEvent_successful]
    rfl

/-- C28, amended: for a fixed access key, two envelopes none of whose canonical
    fields, converted to a string, holds the character `&`, and which differ in
    the string form of at least one canonical field, never produce the same
    canonical string, hence never both carry the same valid signature
    (HMAC-SHA256 taken as collision-free on the two canonical strings). -/
theorem canonical_string_injective_without_ampersand (P : Platform) (env : Env)
    (d e : IpnData) (f : IpnField)
    (hd : ∀ g, Char.ofNat 38 ∉ (d.get g).toStr.data)
    (he : ∀ g, Char.ofNat 38 ∉ (e.get g).toStr.data)
    (hdiff : (d.get f).toStr ≠ (e.get f).toStr)
    (hfree : P.hmacSha256Hex (envStr env.MOMO_SECRET_KEY)
          (ipnRawSignature (envStr env.MOMO_ACCESS_KEY) d) =
        P.hmacSha256Hex (envStr env.MOMO_SECRET_KEY)
          (ipnRawSignature (envStr env.MOMO_ACCESS_KEY) e) →
      ipnRawSignature (envStr env.MOMO_ACCESS_KEY) d =
        ipnRawSignature (envStr env.MOMO_ACCESS_KEY) e) :
    (∀ k : String, ipnRawSignature k d ≠ ipnRawSignature k e) ∧
    ¬ (signatureValid P env d = true ∧ signatureValid P env e = true ∧
        d.signature = e.signature) := by
  have hne : ∀ k : String, ipnRawSignature k d ≠ ipnRawSignature k e :=
    fun k h => hdiff (ipnRawSignature_inj k d e hd he h f)
  refine ⟨hne, ?_⟩
  rintro ⟨h1, h2, h3⟩
  simp only [signatureValid, expectedSignature] at h1 h2
  have e1 := strictEqStr_eq_true.1 h1
  have e2 := strictEqStr_eq_true.1 h2
  rw [h3, e2] at e1
  exact hne _ (hfree (JsVal.str.inj e1).symm)

/-- Witness of the amended C28: the trial-upgrade notification and the same
    notification with its amount changed to 1. -/
theorem canonical_string_injective_without_ampersand_witness :
    (trialData.get .amount).toStr = "50000" ∧
    ((trialData.set .amount (.num 1)).get .amount).toStr = "1" ∧
    ((∀ k : String, ipnRawSignature k trialData ≠
        ipnRawSignature k (trialData.set .amount (.num 1))) ∧
    ¬ (signatureValid node testEnv trialData = true ∧
        signatureValid node testEnv (trialData.set .amount (.num 1)) = true ∧
        trialData.signature = (trialData.set .amount (.num 1)).signature)) :=
  ⟨by decide, by decide,
    canonical_string_injective_without_ampersand node testEnv trialData
      (trialData.set .amount (.num 1)) .amount
      (fun g => by cases g <;> decide) (fun g => by cases g <;> decide) (by decide)
      (fun h => absurd h.symm tampered_digest_differs)⟩

/-! ## The steps of the creation handler -/

@[simp] theorem axiosCall_run (net : Axios) (req : HttpRequest) (w : World) (s : St) :
    axiosCall net req w s =
      match net.request (requestsOf s.effects) req with
      | .response status data =>
        if 200 ≤ status ∧ status ≤ 299 then
          .ok (.obj [("status", .num status), ("data", data)])
            { s with effects := s.effects ++ [.fetch req] }
        else .threw (axiosStatusError status data) { s with effects := s.effects ++ [.fetch req] }
      | .noResponse code message =>
        .threw { message := message, code := .str code, response := .undefined }
          { s with effects := s.effects ++ [.fetch req] } := rfl

theorem strictEq_of_not_convertible {v : JsVal} (h : v.convertible = false) (u : JsVal) :
    v.strictEq u = false := by
  cases v <;> simp [JsVal.convertible] at h <;> cases u <;> rfl

theorem stepMembership_spec (net : Axios) (env : CreationEnv) (userId packageType : JsVal)
    (w : World) (s : St) :
    ∃ s1, stepMembership net env userId packageType w s =
        .ok (membershipVerdict net env userId packageType (requestsOf s.effects)) s1 ∧
      s1.clockReads = s.clockReads ∧
      requestsOf s1.effects = requestsOf s.effects ++ [membershipRequest env userId] := by
  cases hf : net.request (requestsOf s.effects) (membershipRequest env userId) with
  | response status data =>
    by_cases hok : 200 ≤ status ∧ status ≤ 299
    · cases hcv : (currentMembershipOf data).convertible with
      | true =>
        by_cases hq : (currentMembershipOf data).strictEq packageType = true <;>
        simp [stepMembership, membershipVerdict, samePackageResponse, Js.tryCatch_run,
          Js.andThen_run, hf, hok, hq, getProp, JsVal.lookup, requestsOf, Js.texts_run, hcv]
      | false =>
        have hq : (currentMembershipOf data).strictEq packageType = false :=
          strictEq_of_not_convertible hcv packageType
        simp [stepMembership, membershipVerdict, samePackageResponse, Js.tryCatch_run,
          Js.andThen_run, hf, hok, hq, getProp, JsVal.lookup, requestsOf, Js.texts_run, hcv]
    · simp [stepMembership, membershipVerdict, Js.tryCatch_run, Js.andThen_run, hf, hok,
        requestsOf]
  | noResponse code message =>
    simp [stepMembership, membershipVerdict, Js.tryCatch_run, Js.andThen_run, hf, requestsOf]

theorem stepGateway_spec (P : Platform) (net : Axios) (env : CreationEnv)
    (userId : JsVal) (body : CreationBody) (w : World) (s : St) :
    ∃ s1, stepGateway P net env userId body.packageType
          (paymentAmountOf body.amount body.packageType) w s =
        Res.ofExcept (gatewayAnswer (net.request (requestsOf s.effects)
          (gatewayRequestOf P env userId body (w.now s.clockReads)))) s1 ∧
      requestsOf s1.effects =
        requestsOf s.effects ++ [gatewayRequestOf P env userId body (w.now s.clockReads)] := by
  cases hf : net.request (requestsOf s.effects)
      (gatewayRequestOf P env userId body (w.now s.clockReads)) with
  | response status data =>
    by_cases hok : 200 ≤ status ∧ status ≤ 299
    · simp only [gatewayRequestOf, signedMomoRequest] at hf
      cases data <;>
        simp [stepGateway, gatewayAnswer, Res.ofExcept, Js.andThen_run, hf, hok, getProp,
          JsVal.lookup, requestsOf, gatewayRequestOf, signedMomoRequest, bind, Except.bind,
          pure, Except.pure]
    · simp only [gatewayRequestOf, signedMomoRequest] at hf
      simp [stepGateway, gatewayAnswer, Res.ofExcept, Js.andThen_run, hf, hok, requestsOf,
        gatewayRequestOf, signedMomoRequest]
  | noResponse code message =>
    simp only [gatewayRequestOf, signedMomoRequest] at hf
    simp [stepGateway, gatewayAnswer, Res.ofExcept, Js.andThen_run, hf, requestsOf,
      gatewayRequestOf, signedMomoRequest]

theorem creationCatch_spec (error : JsError) (w : World) (s : St) :
    ∃ s1, creationCatch error w s = Res.ofExcept (catchAnswer error) s1 ∧
      requestsOf s1.effects = requestsOf s.effects := by
  cases hresp : error.response with
  | obj fields =>
    cases hdata : JsVal.lookup "data" fields <;>
      simp [creationCatch, catchAnswer, Res.ofExcept, Js.andThen_run, hresp, hdata,
        getProp, requestsOf, bind, Except.bind, pure, Except.pure, JsVal.truthy]
  | arr items =>
    simp [creationCatch, catchAnswer, Res.ofExcept, Js.andThen_run, hresp,
      getProp, requestsOf, bind, Except.bind, pure, Except.pure, JsVal.truthy]
  | bool b =>
    cases b <;> by_cases hc : error.code.strictEqStr "ECONNABORTED" = true <;>
      simp [creationCatch, catchAnswer, Res.ofExcept, Js.andThen_run, hresp, hc,
        getProp, requestsOf, bind, Except.bind, pure, Except.pure, JsVal.truthy]
  | num n =>
    by_cases hn : n = 0 <;> by_cases hc : error.code.strictEqStr "ECONNABORTED" = true <;>
      simp [creationCatch, catchAnswer, Res.ofExcept, Js.andThen_run, hresp, hc, hn,
        getProp, requestsOf, bind, Except.bind, pure, Except.pure, JsVal.truthy]
  | str t =>
    by_cases ht : t = "" <;> by_cases hc : error.code.strictEqStr "ECONNABORTED" = true <;>
      simp [creationCatch, catchAnswer, Res.ofExcept, Js.andThen_run, hresp, hc, ht,
        getProp, requestsOf, bind, Except.bind, pure, Except.pure, JsVal.truthy]
  | undefined =>
    by_cases hc : error.code.strictEqStr "ECONNABORTED" = true <;>
      simp [creationCatch, catchAnswer, Res.ofExcept, Js.andThen_run, hresp, hc,
        getProp, requestsOf, bind, Except.bind, pure, Except.pure, JsVal.truthy]
  | null =>
    by_cases hc : error.code.strictEqStr "ECONNABORTED" = true <;>
      simp [creationCatch, catchAnswer, Res.ofExcept, Js.andThen_run, hresp, hc,
        getProp, requestsOf, bind, Except.bind, pure, Except.pure, JsVal.truthy]

theorem authorizerClaim_error (event : JsVal) (e : JsError)
    (h : getProp event "requestContext" = .error e) (name : String) :
    authorizerClaim event name = .error e := by
  simp [authorizerClaim, h, bind, Except.bind]

theorem authorizerClaim_ok (event requestContext : JsVal)
    (h : getProp event "requestContext" = .ok requestContext) (name : String) :
    authorizerClaim event name =
      .ok (getPropOpt (getPropOpt (getPropOpt requestContext "authorizer") "claims") name) := by
  simp [authorizerClaim, h, bind, Except.bind, pure, Except.pure]

theorem includesPackage_str {v : JsVal} (h : includesPackage v = true) :
    ∃ p, v = .str p ∧ p ∈ packageTypes := by
  cases v <;> simp [includesPackage] at h
  exact ⟨_, rfl, by simpa using h⟩

theorem creationTry_spec (P : Platform) (net : Axios) (env : CreationEnv) (event : JsVal)
    (w : World) (s : St) (hs : s.clockReads = 0) (hreq : requestsOf s.effects = []) :
    ∃ s1, creationTry P net env event w s =
        Res.ofExcept (creationTryOutcome P net env w event).1 s1 ∧
      requestsOf s1.effects = (creationTryOutcome P net env w event).2 := by
  by_cases henv : creationEnvMissing env = true
  · have henv2 := henv
    simp only [creationEnvMissing] at henv2
    exact ⟨s, by simp [creationTry, creationTryOutcome, henv, henv2, Res.ofExcept],
      by simp [creationTryOutcome, henv, hreq]⟩
  · have henv2 := henv
    simp only [creationEnvMissing] at henv2
    cases hrc : getProp event "requestContext" with
    | error e =>
      exact ⟨s, by simp [creationTry, creationTryOutcome, henv, henv2, Res.ofExcept,
          authorizerClaim_error event e hrc, Js.andThen_run],
        by simp [creationTryOutcome, henv, authorizerClaim_error event e hrc, hreq]⟩
    | ok rc =>
      have hsub := authorizerClaim_ok event rc hrc "sub"
      have hgrp := authorizerClaim_ok event rc hrc "cognito:groups"
      by_cases hu : (getPropOpt (getPropOpt (getPropOpt rc "authorizer") "claims")
          "sub").truthy = true
      · cases hb : readCreationBody P event with
        | error e =>
          refine ⟨{ s with effects := s.effects ++
              [.console .log ("👤 User ID: " ++
                (getPropOpt (getPropOpt (getPropOpt rc "authorizer") "claims") "sub").toStr)] ++
              [.console .log ("👥 User Groups: " ++
                (getPropOpt (getPropOpt (getPropOpt rc "authorizer") "claims")
                  "cognito:groups").toStr)] }, ?_, ?_⟩
          · simp [creationTry, creationTryOutcome, henv, henv2, Res.ofExcept, hsub, hgrp, hu,
              hb, Js.andThen_run]
          · simp [creationTryOutcome, henv, hsub, hu, hb, requestsOf, hreq]
        | ok body =>
          by_cases hp : body.packageType.truthy = true ∧ includesPackage body.packageType = true
          · cases hcv : (paymentAmountOf body.amount body.packageType).convertible with
            | false =>
              have hg : [body.packageType, paymentAmountOf body.amount body.packageType].all
                  JsVal.convertible = false := by simp [hcv]
              refine ⟨{ s with effects := s.effects ++
                  [.console .log ("👤 User ID: " ++
                    (getPropOpt (getPropOpt (getPropOpt rc "authorizer") "claims") "sub").toStr)] ++
                  [.console .log ("👥 User Groups: " ++
                    (getPropOpt (getPropOpt (getPropOpt rc "authorizer") "claims")
                      "cognito:groups").toStr)] }, ?_, ?_⟩
              · simp [creationTry, creationTryOutcome, henv, henv2, Res.ofExcept, hsub, hgrp, hu,
                  hb, hp, Js.andThen_run, Js.texts_threw _ _ _ hg, hcv]
              · simp [creationTryOutcome, henv, hsub, hu, hb, hp, hcv, requestsOf, hreq]
            | true =>
              have hg : [body.packageType, paymentAmountOf body.amount body.packageType].all
                  JsVal.convertible = true := by
                obtain ⟨p, hpstr, _⟩ := includesPackage_str hp.2
                have h1 : body.packageType.convertible = true := by
                  rw [hpstr]
                  rfl
                simp [hcv, h1]
              obtain ⟨s1, h1, hc1, hr1⟩ := stepMembership_spec net env
                (getPropOpt (getPropOpt (getPropOpt rc "authorizer") "claims") "sub")
                body.packageType w
                { s with effects := s.effects ++
                  [.console .log ("👤 User ID: " ++
                    (getPropOpt (getPropOpt (getPropOpt rc "authorizer") "claims") "sub").toStr),
                   .console .log ("👥 User Groups: " ++
                    (getPropOpt (getPropOpt (getPropOpt rc "authorizer") "claims")
                      "cognito:groups").toStr),
                   .console .log ("💳 Package: " ++ body.packageType.toStr ++ ", Amount: " ++
                    (paymentAmountOf body.amount body.packageType).toStr ++ " VND")] }
              simp only [requestsOf_append, requestsOf, List.append_nil, hreq, List.nil_append]
                at h1 hr1 hc1
              cases hv : membershipVerdict net env
                  (getPropOpt (getPropOpt (getPropOpt rc "authorizer") "claims") "sub")
                  body.packageType [] with
              | some response =>
                refine ⟨s1, ?_, ?_⟩
                · simp [creationTry, creationTryOutcome, henv, henv2, Res.ofExcept, hsub, hgrp,
                    hu, hb, hp, Js.andThen_run, hv, h1, Js.texts_ok _ _ _ hg, hcv]
                · simp [creationTryOutcome, henv, hsub, hu, hb, hp, hv, hr1, hcv]
              | none =>
                obtain ⟨s2, h2, hr2⟩ := stepGateway_spec P net env
                  (getPropOpt (getPropOpt (getPropOpt rc "authorizer") "claims") "sub") body w s1
                rw [hr1, hc1, hs] at h2
                rw [hr1, hc1, hs] at hr2
                refine ⟨s2, ?_, ?_⟩
                · simp [creationTry, creationTryOutcome, henv, henv2, Res.ofExcept, hsub, hgrp,
                    hu, hb, hp, Js.andThen_run, hv, h1, Js.texts_ok _ _ _ hg, hcv]
                  simpa [Res.ofExcept] using h2
                · simp [creationTryOutcome, henv, hsub, hu, hb, hp, hv, hr2, hcv]
          · have hp2 : body.packageType.truthy = false ∨
                includesPackage body.packageType = false := by
              cases h1 : body.packageType.truthy <;> cases h2 : includesPackage body.packageType <;>
                simp [h1, h2] at hp ⊢
            refine ⟨{ s with effects := s.effects ++
              [.console .log ("👤 User ID: " ++
                (getPropOpt (getPropOpt (getPropOpt rc "authorizer") "claims") "sub").toStr)] ++
              [.console .log ("👥 User Groups: " ++
                (getPropOpt (getPropOpt (getPropOpt rc "authorizer") "claims")
                  "cognito:groups").toStr)] }, ?_, ?_⟩
            · simp [creationTry, creationTryOutcome, henv, henv2, Res.ofExcept, hsub, hgrp, hu,
                hb, hp2, Js.andThen_run, invalidPackageResponse]
            · simp [creationTryOutcome, henv, hsub, hu, hb, hp2, requestsOf, hreq]
      · refine ⟨{ s with effects := s.effects ++
            [.console .error "❌ No userId found in authorizer context"] }, ?_, ?_⟩
        · simp [creationTry, creationTryOutcome, henv, henv2, Res.ofExcept, hsub, hgrp, hu,
            Js.andThen_run, unauthorizedResponse]
        · simp [creationTryOutcome, henv, hsub, hu, requestsOf, hreq]

/-- The creation handler does what `creationOutcome` says and requests what it lists. -/
theorem runCreation_spec (P : Platform) (net : Axios) (env : CreationEnv) (w : World)
    (event : JsVal) :
    ∃ s, runCreation P net env w event = Res.ofExcept (creationOutcome P net env w event).1 s ∧
      requestsOf s.effects = (creationOutcome P net env w event).2 := by
  obtain ⟨s1, h1, hr1⟩ := creationTry_spec P net env event w
    { effects := [.console .log "📥 Payment Creation Request:"], clockReads := 0 } rfl rfl
  cases ht : (creationTryOutcome P net env w event).1 with
  | ok response =>
    rw [ht] at h1
    refine ⟨s1, ?_, ?_⟩
    · simp [runCreation, Creation.handler, Js.andThen_run, Js.tryCatch_run, creationOutcome, ht,
        answerOrCatch, Res.ofExcept] at h1 ⊢
      simp [h1]
    · simpa [creationOutcome] using hr1
  | error e =>
    rw [ht] at h1
    obtain ⟨s2, h2, hr2⟩ := creationCatch_spec e w s1
    refine ⟨s2, ?_, ?_⟩
    · simp [runCreation, Creation.handler, Js.andThen_run, Js.tryCatch_run, creationOutcome, ht,
        answerOrCatch, Res.ofExcept] at h1 ⊢
      simp [h1]
      simpa [Res.ofExcept] using h2
    · rw [hr2]
      simpa [creationOutcome] using hr1

theorem runCreation_calls (P : Platform) (net : Axios) (env : CreationEnv) (w : World)
    (event : JsVal) :
    (runCreation P net env w event).calls = (creationOutcome P net env w event).2 := by
  obtain ⟨s, h, hr⟩ := runCreation_spec P net env w event
  rw [h]
  cases (creationOutcome P net env w event).1 <;> simpa [Res.ofExcept, Res.calls, Res.state] using hr

theorem runCreation_returns (P : Platform) (net : Axios) (env : CreationEnv) (w : World)
    (event : JsVal) (response : ApiResponse)
    (h : (creationOutcome P net env w event).1 = .ok response) :
    ∃ s, runCreation P net env w event = .ok response s := by
  obtain ⟨s, hs, _⟩ := runCreation_spec P net env w event
  rw [h] at hs
  exact ⟨s, hs⟩

theorem runCreation_throws (P : Platform) (net : Axios) (env : CreationEnv) (w : World)
    (event : JsVal) (e : JsError)
    (h : (creationOutcome P net env w event).1 = .error e) :
    ∃ s, runCreation P net env w event = .threw e s := by
  obtain ⟨s, hs, _⟩ := runCreation_spec P net env w event
  rw [h] at hs
  exact ⟨s, hs⟩

theorem runCreation_statusCode (P : Platform) (net : Axios) (env : CreationEnv) (w : World)
    (event : JsVal) (response : ApiResponse)
    (h : (creationOutcome P net env w event).1 = .ok response) :
    (runCreation P net env w event).statusCode? = some response.statusCode := by
  obtain ⟨s, hs⟩ := runCreation_returns P net env w event response h
  rw [hs]
  rfl

/-- The `try` block on an accepted request. -/
theorem creationTryOutcome_accepted {P : Platform} {env : CreationEnv} {event userId : JsVal}
    {body : CreationBody} (h : AcceptedRequest P env event userId body) (net : Axios)
    (w : World) :
    creationTryOutcome P net env w event =
      match membershipVerdict net env userId body.packageType [] with
      | some response => (.ok response, [membershipRequest env userId])
      | none =>
        (gatewayAnswer (net.request [membershipRequest env userId]
            (gatewayRequestOf P env userId body (w.now 0))),
          [membershipRequest env userId, gatewayRequestOf P env userId body (w.now 0)]) := by
  obtain ⟨henv, hsub, hu, hb, hp1, hp2, hcv⟩ := h
  simp [creationTryOutcome, henv, hsub, hu, hb, hp1, hp2, hcv]
  try rfl

theorem vipEvent_accepted : AcceptedRequest node creationTestEnv vipEvent (.str "u1") vipBody :=
  ⟨rfl, rfl, rfl, rfl, rfl, rfl, rfl⟩

theorem vipZeroEvent_accepted :
    AcceptedRequest node creationTestEnv vipZeroEvent (.str "u1") vipZeroBody :=
  ⟨rfl, rfl, rfl, rfl, rfl, rfl, rfl⟩


/-- What the handler requests: nothing, or the membership lookup of an accepted
    request, followed or not by the gateway call. -/
theorem creationOutcome_calls_cases (P : Platform) (net : Axios) (env : CreationEnv)
    (w : World) (event : JsVal) :
    (creationOutcome P net env w event).2 = [] ∨
      ∃ userId body, AcceptedRequest P env event userId body ∧
        ((∃ response, membershipVerdict net env userId body.packageType [] = some response ∧
            creationOutcome P net env w event = (.ok response, [membershipRequest env userId])) ∨
          (membershipVerdict net env userId body.packageType [] = none ∧
            creationOutcome P net env w event =
              (answerOrCatch (gatewayAnswer (net.request [membershipRequest env userId]
                (gatewayRequestOf P env userId body (w.now 0)))),
               [membershipRequest env userId,
                gatewayRequestOf P env userId body (w.now 0)]))) := by
  by_cases henv : creationEnvMissing env = true
  · exact Or.inl (by simp [creationOutcome, creationTryOutcome, henv])
  · cases hsub : authorizerClaim event "sub" with
    | error e => exact Or.inl (by simp [creationOutcome, creationTryOutcome, henv, hsub])
    | ok userId =>
      by_cases hu : userId.truthy = true
      · cases hb : readCreationBody P event with
        | error e =>
          exact Or.inl (by simp [creationOutcome, creationTryOutcome, henv, hsub, hu, hb])
        | ok body =>
          by_cases hp : body.packageType.truthy = true ∧ includesPackage body.packageType = true
          · by_cases hcv : (paymentAmountOf body.amount body.packageType).convertible = true
            · right
              have ha : AcceptedRequest P env event userId body :=
                ⟨by simpa using henv, hsub, hu, hb, hp.1, hp.2, hcv⟩
              refine ⟨userId, body, ha, ?_⟩
              cases hv : membershipVerdict net env userId body.packageType [] with
              | some response =>
                exact Or.inl ⟨response, rfl, by
                  simp [creationOutcome, creationTryOutcome_accepted ha, hv, answerOrCatch]⟩
              | none =>
                exact Or.inr ⟨rfl, by simp [creationOutcome, creationTryOutcome_accepted ha, hv]⟩
            · exact Or.inl (by
                simp [creationOutcome, creationTryOutcome, henv, hsub, hu, hb, hp, hcv])
          · have hp2 : body.packageType.truthy = false ∨
                includesPackage body.packageType = false := by
              cases h1 : body.packageType.truthy <;>
                cases h2 : includesPackage body.packageType <;> simp [h1, h2] at hp ⊢
            exact Or.inl (by
              simp [creationOutcome, creationTryOutcome, henv, hsub, hu, hb, hp2])
      · exact Or.inl (by simp [creationOutcome, creationTryOutcome, henv, hsub, hu])

theorem membershipRequest_ne_gatewayRequestOf (P : Platform) (env : CreationEnv)
    (userId userId2 : JsVal) (body : CreationBody) (timestamp : Int) :
    membershipRequest env userId ≠ gatewayRequestOf P env userId2 body timestamp := by
  intro h
  have hm := congrArg HttpRequest.method h
  simp [membershipRequest, gatewayRequestOf, gatewayRequest] at hm

/-- Every request posted to the gateway is the request of an accepted creation
    request that passed the membership check, and it is the only one. -/
theorem posted_request_cases (P : Platform) (net : Axios) (env : CreationEnv) (w : World)
    (event : JsVal) (r : HttpRequest)
    (hr : r ∈ withMethod "POST" (runCreation P net env w event).calls) :
    ∃ userId body, AcceptedRequest P env event userId body ∧
      membershipVerdict net env userId body.packageType [] = none ∧
      r = gatewayRequestOf P env userId body (w.now 0) ∧
      creationOutcome P net env w event =
        (answerOrCatch (gatewayAnswer (net.request [membershipRequest env userId]
          (gatewayRequestOf P env userId body (w.now 0)))),
         [membershipRequest env userId, gatewayRequestOf P env userId body (w.now 0)]) := by
  rw [runCreation_calls] at hr
  rcases creationOutcome_calls_cases P net env w event with h0 | ⟨userId, body, ha, h1 | h2⟩
  · rw [h0] at hr
    simp [withMethod] at hr
  · obtain ⟨response, _, hk⟩ := h1
    rw [hk] at hr
    simp [withMethod, membershipRequest] at hr
  · obtain ⟨hv, hk⟩ := h2
    rw [hk] at hr
    simp [withMethod, membershipRequest, gatewayRequestOf, gatewayRequest] at hr
    exact ⟨userId, body, ha, hv, by simpa [gatewayRequestOf, gatewayRequest] using hr, hk⟩

theorem withMethod_post_proceeds (P : Platform) (env : CreationEnv) (userId : JsVal)
    (body : CreationBody) (timestamp : Int) :
    withMethod "POST"
        [membershipRequest env userId, gatewayRequestOf P env userId body timestamp] =
      [gatewayRequestOf P env userId body timestamp] := by
  simp [withMethod, membershipRequest, gatewayRequestOf, gatewayRequest]

theorem withMethod_get_proceeds (P : Platform) (env : CreationEnv) (userId : JsVal)
    (body : CreationBody) (timestamp : Int) :
    withMethod "GET"
        [membershipRequest env userId, gatewayRequestOf P env userId body timestamp] =
      [membershipRequest env userId] := by
  simp [withMethod, membershipRequest, gatewayRequestOf, gatewayRequest]
/-! ## The request posted to the gateway -/

theorem creationRawSignature_eq_canonical (request : JsVal) :
    creationRawSignature request = creationCanonicalOf request := by
  apply String.ext
  simp [creationRawSignature, creationCanonicalOf, canonicalString, creationCanonicalNames,
    String.intercalate, String.intercalate.go, String.data_append]

theorem creationCanonicalOf_signed (P : Platform) (env : CreationEnv)
    (userId packageType paymentAmount : JsVal) (timestamp : Int) :
    creationCanonicalOf (signedMomoRequest P env userId packageType paymentAmount timestamp) =
      creationCanonicalOf (momoRequestOf env userId packageType paymentAmount timestamp) := by
  simp [creationCanonicalOf, creationCanonicalNames, signedMomoRequest, momoRequestOf,
    withSignature, getPropOpt, JsVal.lookup]

theorem signedMomoRequest_signature (P : Platform) (env : CreationEnv)
    (userId packageType paymentAmount : JsVal) (timestamp : Int) :
    getPropOpt (signedMomoRequest P env userId packageType paymentAmount timestamp) "signature" =
      .str (P.hmacSha256Hex (envStr env.MOMO_SECRET_KEY)
        (creationRawSignature (momoRequestOf env userId packageType paymentAmount timestamp))) := by
  simp [signedMomoRequest, momoRequestOf, withSignature, getPropOpt, JsVal.lookup]

theorem signedMomoRequest_amount (P : Platform) (env : CreationEnv)
    (userId packageType paymentAmount : JsVal) (timestamp : Int) :
    getPropOpt (signedMomoRequest P env userId packageType paymentAmount timestamp) "amount" =
      .str paymentAmount.toStr := by
  simp [signedMomoRequest, momoRequestOf, withSignature, getPropOpt, JsVal.lookup]

theorem signedMomoRequest_lang (P : Platform) (env : CreationEnv)
    (userId packageType paymentAmount : JsVal) (timestamp : Int) :
    getPropOpt (signedMomoRequest P env userId packageType paymentAmount timestamp) "lang" =
      .str "vi" := by
  simp [signedMomoRequest, momoRequestOf, withSignature, getPropOpt, JsVal.lookup]

theorem strictEq_str {v : JsVal} {p : String} : v.strictEq (.str p) = true ↔ v = .str p := by
  cases v <;> simp [JsVal.strictEq]

theorem getProp_of_value {v : JsVal} (h1 : v ≠ .null) (h2 : v ≠ .undefined) (name : String) :
    getProp v name = .ok (getPropOpt v name) := by
  cases v <;> simp [getProp, getPropOpt] at h1 h2 ⊢

theorem creationOutcome_proceeds {P : Platform} {env : CreationEnv} {event userId : JsVal}
    {body : CreationBody} (h : AcceptedRequest P env event userId body) (net : Axios)
    (w : World) (hgo : membershipVerdict net env userId body.packageType [] = none) :
    creationOutcome P net env w event =
      (answerOrCatch (gatewayAnswer (net.request [membershipRequest env userId]
          (gatewayRequestOf P env userId body (w.now 0)))),
       [membershipRequest env userId, gatewayRequestOf P env userId body (w.now 0)]) := by
  simp [creationOutcome, creationTryOutcome_accepted h, hgo]

theorem creationOutcome_same_package {P : Platform} {env : CreationEnv} {event userId : JsVal}
    {body : CreationBody} (h : AcceptedRequest P env event userId body) (net : Axios)
    (w : World) (response : ApiResponse)
    (hv : membershipVerdict net env userId body.packageType [] = some response) :
    creationOutcome P net env w event = (.ok response, [membershipRequest env userId]) := by
  simp [creationOutcome, creationTryOutcome_accepted h, hv, answerOrCatch]

theorem catchAnswer_status (status : Nat) (data : JsVal) (h1 : data ≠ .null)
    (h2 : data ≠ .undefined) :
    catchAnswer (axiosStatusError status data) =
      .ok (jsonResponse (.num status)
        (.obj [("resultCode", (getPropOpt data "resultCode").orElse (.num 500)),
               ("message", (getPropOpt data "message").orElse (.str "MoMo API Error")),
               ("details", data)])) := by
  cases data <;>
    simp [catchAnswer, axiosStatusError, JsVal.truthy, getProp, getPropOpt, JsVal.lookup, bind,
      Except.bind, pure, Except.pure] at h1 h2 ⊢

/-! ## The claims on the creation handler -/

/-- C12: for every request that the creation handler posts to the gateway, in
    any invocation, the string that the handler signs is the canonical message
    of the ten fields `accessKey`, `amount`, `extraData`, `ipnUrl`, `orderId`,
    `orderInfo`, `partnerCode`, `redirectUrl`, `requestId`, `requestType`, in that
    order, joined by `&`, the values being those of the request object that is
    posted; the names are strictly ascending; the field `lang` of the request is
    not one of them.  Such a request is posted for every accepted request that
    passes the membership check. -/
theorem creation_canonical_string (P : Platform) (net : Axios) (env : CreationEnv) (w : World)
    (event : JsVal) (r : HttpRequest)
    (hr : r ∈ withMethod "POST" (runCreation P net env w event).calls) :
    (∃ userId body, r = gatewayRequestOf P env userId body (w.now 0) ∧
      creationRawSignature
          (momoRequestOf env userId body.packageType
            (paymentAmountOf body.amount body.packageType) (w.now 0)) =
        canonicalString (creationCanonicalNames.map (fun name =>
          (name, (getPropOpt r.bodyJson name).toStr))) ∧
      getPropOpt r.bodyJson "signature" =
        .str (P.hmacSha256Hex (envStr env.MOMO_SECRET_KEY)
          (creationRawSignature
            (momoRequestOf env userId body.packageType
              (paymentAmountOf body.amount body.packageType) (w.now 0))))) ∧
    creationCanonicalNames.length = 10 ∧
    strictlyAscending creationCanonicalNames = true ∧
    "lang" ∉ creationCanonicalNames ∧
    getPropOpt r.bodyJson "lang" = .str "vi" ∧
    ∀ (userId : JsVal) (body : CreationBody), AcceptedRequest P env event userId body →
      membershipVerdict net env userId body.packageType [] = none →
      (runCreation P net env w event).calls =
        [membershipRequest env userId, gatewayRequestOf P env userId body (w.now 0)] := by
  obtain ⟨userId, body, _, _, e, _⟩ := posted_request_cases P net env w event r hr
  subst e
  refine ⟨⟨userId, body, rfl, ?_, ?_⟩, rfl, by decide, by decide, ?_, ?_⟩
  · rw [creationRawSignature_eq_canonical]
    exact (creationCanonicalOf_signed P env userId body.packageType _ (w.now 0)).symm
  · exact signedMomoRequest_signature P env userId body.packageType _ (w.now 0)
  · exact signedMomoRequest_lang P env userId body.packageType _ (w.now 0)
  · intro userId2 body2 h hgo
    rw [runCreation_calls, creationOutcome_proceeds h net w hgo]

/-- Witness of C12: the request `packageType: "VIP"` of user `u1`, a `BASIC` member. -/
theorem creation_canonical_string_witness :
    gatewayRequestOf node creationTestEnv (.str "u1") vipBody (okWorld.now 0) ∈
      withMethod "POST" (runCreation node okNet creationTestEnv okWorld vipEvent).calls ∧
    ((∃ userId body,
      gatewayRequestOf node creationTestEnv (.str "u1") vipBody (okWorld.now 0) =
        gatewayRequestOf node creationTestEnv userId body (okWorld.now 0) ∧
      creationRawSignature
          (momoRequestOf creationTestEnv userId body.packageType
            (paymentAmountOf body.amount body.packageType) (okWorld.now 0)) =
        canonicalString (creationCanonicalNames.map (fun name =>
          (name, (getPropOpt (gatewayRequestOf node creationTestEnv (.str "u1") vipBody
            (okWorld.now 0)).bodyJson name).toStr))) ∧
      getPropOpt (gatewayRequestOf node creationTestEnv (.str "u1") vipBody
          (okWorld.now 0)).bodyJson "signature" =
        .str (node.hmacSha256Hex (envStr creationTestEnv.MOMO_SECRET_KEY)
          (creationRawSignature
            (momoRequestOf creationTestEnv userId body.packageType
              (paymentAmountOf body.amount body.packageType) (okWorld.now 0))))) ∧
    creationCanonicalNames.length = 10 ∧
    strictlyAscending creationCanonicalNames = true ∧
    "lang" ∉ creationCanonicalNames ∧
    getPropOpt (gatewayRequestOf node creationTestEnv (.str "u1") vipBody
      (okWorld.now 0)).bodyJson "lang" = .str "vi" ∧
    ∀ (userId : JsVal) (body : CreationBody),
      AcceptedRequest node creationTestEnv vipEvent userId body →
      membershipVerdict okNet creationTestEnv userId body.packageType [] = none →
      (runCreation node okNet creationTestEnv okWorld vipEvent).calls =
        [membershipRequest creationTestEnv userId,
         gatewayRequestOf node creationTestEnv userId body (okWorld.now 0)]) :=
  have hr : gatewayRequestOf node creationTestEnv (.str "u1") vipBody (okWorld.now 0) ∈
      withMethod "POST" (runCreation node okNet creationTestEnv okWorld vipEvent).calls := by
    rw [runCreation_calls, creationOutcome_proceeds vipEvent_accepted okNet okWorld rfl,
      withMethod_post_proceeds]
    exact List.mem_singleton.2 rfl
  ⟨hr, creation_canonical_string node okNet creationTestEnv okWorld vipEvent _ hr⟩

/-- C14: for every request that the creation handler posts to the gateway, in
    any invocation, rebuilding the canonical message of the creation direction
    from the fields of the request object that is posted and computing its hex
    HMAC-SHA256 with `MOMO_SECRET_KEY` yields the `signature` field of that
    request: the check succeeds.  Such a request is posted, and it is the only
    POST, for every accepted request that passes the membership check. -/
theorem creation_sign_then_verify (P : Platform) (net : Axios) (env : CreationEnv) (w : World)
    (event : JsVal) (r : HttpRequest)
    (hr : r ∈ withMethod "POST" (runCreation P net env w event).calls) :
    getPropOpt r.bodyJson "signature" =
      .str (P.hmacSha256Hex (envStr env.MOMO_SECRET_KEY) (creationCanonicalOf r.bodyJson)) ∧
    creationVerify P (envStr env.MOMO_SECRET_KEY) r.bodyJson = true ∧
    withMethod "POST" (runCreation P net env w event).calls = [r] ∧
    ∀ (userId : JsVal) (body : CreationBody), AcceptedRequest P env event userId body →
      membershipVerdict net env userId body.packageType [] = none →
      withMethod "POST" (runCreation P net env w event).calls =
        [gatewayRequestOf P env userId body (w.now 0)] := by
  obtain ⟨userId, body, _, _, e0, hk⟩ := posted_request_cases P net env w event r hr
  subst e0
  have e : getPropOpt (gatewayRequestOf P env userId body (w.now 0)).bodyJson "signature" =
      .str (P.hmacSha256Hex (envStr env.MOMO_SECRET_KEY)
        (creationCanonicalOf (gatewayRequestOf P env userId body (w.now 0)).bodyJson)) := by
    have e1 := signedMomoRequest_signature P env userId body.packageType
      (paymentAmountOf body.amount body.packageType) (w.now 0)
    rw [creationRawSignature_eq_canonical,
      ← creationCanonicalOf_signed P env userId body.packageType _ (w.now 0)] at e1
    exact e1
  refine ⟨e, ?_, ?_, ?_⟩
  · rw [creationVerify, e]
    exact strictEqStr_eq_true.2 rfl
  · rw [runCreation_calls, hk, withMethod_post_proceeds]
  · intro userId2 body2 h hgo
    rw [runCreation_calls, creationOutcome_proceeds h net w hgo, withMethod_post_proceeds]

/-- Witness of C14: the request `packageType: "VIP"` of user `u1`; the check
    also succeeds on the request as the gateway parses it from the JSON text
    that is sent. -/
theorem creation_sign_then_verify_witness :
    gatewayRequestOf node creationTestEnv (.str "u1") vipBody (okWorld.now 0) ∈
      withMethod "POST" (runCreation node okNet creationTestEnv okWorld vipEvent).calls ∧
    (∃ received, node.jsonParse (jsonStringify
        (gatewayRequestOf node creationTestEnv (.str "u1") vipBody (okWorld.now 0)).bodyJson) =
          .ok received ∧
      creationVerify node "K951B6PE1waDMi640xX08PD3vg6EkVlz" received = true) ∧
    (getPropOpt (gatewayRequestOf node creationTestEnv (.str "u1") vipBody
        (okWorld.now 0)).bodyJson "signature" =
      .str (node.hmacSha256Hex (envStr creationTestEnv.MOMO_SECRET_KEY)
        (creationCanonicalOf (gatewayRequestOf node creationTestEnv (.str "u1") vipBody
          (okWorld.now 0)).bodyJson)) ∧
    creationVerify node (envStr creationTestEnv.MOMO_SECRET_KEY)
      (gatewayRequestOf node creationTestEnv (.str "u1") vipBody (okWorld.now 0)).bodyJson =
        true ∧
    withMethod "POST" (runCreation node okNet creationTestEnv okWorld vipEvent).calls =
      [gatewayRequestOf node creationTestEnv (.str "u1") vipBody (okWorld.now 0)] ∧
    ∀ (userId : JsVal) (body : CreationBody),
      AcceptedRequest node creationTestEnv vipEvent userId body →
      membershipVerdict okNet creationTestEnv userId body.packageType [] = none →
      withMethod "POST" (runCreation node okNet creationTestEnv okWorld vipEvent).calls =
        [gatewayRequestOf node creationTestEnv userId body (okWorld.now 0)]) :=
  have hr : gatewayRequestOf node creationTestEnv (.str "u1") vipBody (okWorld.now 0) ∈
      withMethod "POST" (runCreation node okNet creationTestEnv okWorld vipEvent).calls := by
    rw [runCreation_calls, creationOutcome_proceeds vipEvent_accepted okNet okWorld rfl,
      withMethod_post_proceeds]
    exact List.mem_singleton.2 rfl
  ⟨hr, ⟨_, rfl, by decide!⟩,
    creation_sign_then_verify node okNet creationTestEnv okWorld vipEvent _ hr⟩

/-- C15 as stated fails, in two ways.  When the MoMo credentials are not
    configured, a request without a `sub` claim is answered 500, not 401: the
    test of the environment comes first.  And in the configured handler a
    request of an authenticated principal whose body is the JSON text `null`,
    hence without a `packageType`, is answered 500, not 400: reading the
    `packageType` of `null` throws.  No call is made in either case. -/
theorem unconfigured_or_null_body_counterexample :
    (creationEnvMissing unconfiguredEnv = true ∧
      authorizerClaim anonymousEvent "sub" = .ok .undefined ∧
      (runCreation node okNet unconfiguredEnv okWorld anonymousEvent).statusCode? =
        some (.num 500) ∧
      (runCreation node okNet unconfiguredEnv okWorld anonymousEvent).calls = []) ∧
    (creationEnvMissing creationTestEnv = false ∧
      authorizerClaim nullBodyEvent "sub" = .ok (.str "u1") ∧
      getProp nullBodyEvent "body" = .ok (.str "null") ∧
      node.jsonParse "null" = .ok .null ∧
      (runCreation node okNet creationTestEnv okWorld nullBodyEvent).statusCode? =
        some (.num 500) ∧
      (runCreation node okNet creationTestEnv okWorld nullBodyEvent).calls = []) := by
  refine ⟨⟨rfl, rfl, ?_, ?_⟩, ⟨rfl, rfl, rfl, rfl, ?_, ?_⟩⟩
  · exact runCreation_statusCode node okNet unconfiguredEnv okWorld anonymousEvent
      (jsonResponse (.num 500)
        (.obj [("resultCode", .num 500), ("message", .str "Internal server error"),
               ("error", .str "Missing MoMo credentials in environment variables")])) rfl
  · rw [runCreation_calls]
    rfl
  · exact runCreation_statusCode node okNet creationTestEnv okWorld nullBodyEvent
      (jsonResponse (.num 500)
        (.obj [("resultCode", .num 500), ("message", .str "Internal server error"),
               ("error", .str "Cannot read properties of null (reading packageType)")])) rfl
  · rw [runCreation_calls]
    rfl

/-- C15, amended: in the configured creation handler, a request without an
    authenticated principal (`sub` absent, or falsy) is answered 401, and a
    request of an authenticated principal whose body is read (it is absent, or
    JSON for a value other than `null`) and whose `packageType` is absent
    (falsy) or not one of `BASIC`, `VIP`, `PREMIUM` is answered 400; in both cases
    no call is made, neither to the gateway nor to the membership endpoint. -/
theorem unauthenticated_or_invalid_package_rejected (P : Platform) (net : Axios)
    (env : CreationEnv) (w : World) (event userId : JsVal)
    (henv : creationEnvMissing env = false)
    (hsub : authorizerClaim event "sub" = .ok userId)
    (hcase : userId.truthy = false ∨
      ∃ body, readCreationBody P event = .ok body ∧
        (body.packageType.truthy = false ∨ includesPackage body.packageType = false)) :
    (runCreation P net env w event).calls = [] ∧
    (runCreation P net env w event).statusCode? =
      some (.num (if userId.truthy then 400 else 401)) ∧
    ∃ s, runCreation P net env w event =
      .ok (if userId.truthy then invalidPackageResponse else unauthorizedResponse) s := by
  have key : creationOutcome P net env w event =
      (.ok (if userId.truthy then invalidPackageResponse else unauthorizedResponse), []) := by
    by_cases hu : userId.truthy = true
    · rcases hcase with hf | ⟨body, hb, hp⟩
      · rw [hu] at hf
        exact absurd hf (by simp)
      · simp [creationOutcome, creationTryOutcome, henv, hsub, hu, hb, hp, answerOrCatch]
    · simp [creationOutcome, creationTryOutcome, henv, hsub, hu, answerOrCatch]
  refine ⟨?_, ?_, ?_⟩
  · rw [runCreation_calls, key]
  · rw [runCreation_statusCode P net env w event _ (by rw [key])]
    by_cases hu : userId.truthy = true <;>
      simp [hu, invalidPackageResponse, unauthorizedResponse, jsonResponse]
  · exact runCreation_returns P net env w event _ (by rw [key])

/-- Witness of C15: the request without a `sub` claim, answered 401, and the
    request `packageType: "GOLD"` of user `u1`, answered 400. -/
theorem unauthenticated_or_invalid_package_rejected_witness :
    (creationEnvMissing creationTestEnv = false ∧
      authorizerClaim anonymousEvent "sub" = .ok .undefined ∧
      JsVal.undefined.truthy = false ∧
      (runCreation node okNet creationTestEnv okWorld anonymousEvent).calls = [] ∧
      (runCreation node okNet creationTestEnv okWorld anonymousEvent).statusCode? =
        some (.num 401)) ∧
    (authorizerClaim goldRequestEvent "sub" = .ok (.str "u1") ∧
      readCreationBody node goldRequestEvent = .ok goldRequestBody ∧
      includesPackage goldRequestBody.packageType = false ∧
      (runCreation node okNet creationTestEnv okWorld goldRequestEvent).calls = [] ∧
      (runCreation node okNet creationTestEnv okWorld goldRequestEvent).statusCode? =
        some (.num 400)) :=
  have h1 := unauthenticated_or_invalid_package_rejected node okNet creationTestEnv okWorld
    anonymousEvent .undefined rfl rfl (Or.inl rfl)
  have h2 := unauthenticated_or_invalid_package_rejected node okNet creationTestEnv okWorld
    goldRequestEvent (.str "u1") rfl rfl (Or.inr ⟨goldRequestBody, rfl, Or.inr rfl⟩)
  ⟨⟨rfl, rfl, rfl, h1.1, h1.2.1⟩, ⟨rfl, rfl, rfl, h2.1, h2.2.1⟩⟩

/-- C16, the code on an explicit amount of 0: the body of this accepted request
    supplies the amount 0 for the package `VIP`; the amount placed in the gateway
    request is the table price `"30000"`, not the decimal string `"0"` of the
    amount that was provided, because `amount || packageAmounts[packageType]`
    takes the default for every falsy amount. -/
theorem zero_amount_gets_table_price :
    readCreationBody node vipZeroEvent = .ok vipZeroBody ∧
    vipZeroBody.amount = .num 0 ∧
    paymentAmountOf vipZeroBody.amount vipZeroBody.packageType = .num 30000 ∧
    (runCreation node okNet creationTestEnv okWorld vipZeroEvent).calls =
      [membershipRequest creationTestEnv (.str "u1"),
       gatewayRequestOf node creationTestEnv (.str "u1") vipZeroBody (okWorld.now 0)] ∧
    getPropOpt (gatewayRequestOf node creationTestEnv (.str "u1") vipZeroBody
      (okWorld.now 0)).bodyJson "amount" = .str "30000" ∧
    (JsVal.num 0).toStr = "0" ∧ JsVal.str "30000" ≠ JsVal.str "0" := by
  refine ⟨rfl, rfl, rfl, ?_, rfl, rfl, fun h => absurd (JsVal.str.inj h) (by decide)⟩
  rw [runCreation_calls, creationOutcome_proceeds vipZeroEvent_accepted okNet okWorld rfl]

/-- C17 as stated fails: the body of this request of an authenticated principal
    is not JSON; the handler answers status 500, which is not a 4xx status, and
    makes no call. -/
theorem malformed_body_counterexample :
    authorizerClaim malformedEvent "sub" = .ok (.str "u1") ∧
    getProp malformedEvent "body" = .ok (.str "packageType=VIP") ∧
    node.jsonParse "packageType=VIP" = .error (.plain "Unexpected token in JSON") ∧
    (runCreation node okNet creationTestEnv okWorld malformedEvent).statusCode? =
      some (.num 500) ∧
    (runCreation node okNet creationTestEnv okWorld malformedEvent).calls = [] := by
  refine ⟨rfl, rfl, rfl, ?_, ?_⟩
  · exact runCreation_statusCode node okNet creationTestEnv okWorld malformedEvent
      (jsonResponse (.num 500)
        (.obj [("resultCode", .num 500), ("message", .str "Internal server error"),
               ("error", .str "Unexpected token in JSON")])) rfl
  · rw [runCreation_calls]
    rfl

/-- C17, amended: for every creation request of an authenticated principal whose
    body is not parseable as JSON, the configured handler surfaces the error to
    the caller with status code 500 (`Internal server error`, with the message of
    the parser) and makes no call, neither to the gateway nor to the membership
    endpoint. -/
theorem malformed_body_answered_500 (P : Platform) (net : Axios) (env : CreationEnv)
    (w : World) (event userId raw : JsVal) (e : JsError)
    (henv : creationEnvMissing env = false)
    (hsub : authorizerClaim event "sub" = .ok userId)
    (hu : userId.truthy = true)
    (hraw : getProp event "body" = .ok raw)
    (hparse : jsonParse P (raw.orElse (.str "\x7b\x7d")) = .error e)
    (hplain : e.response = .undefined ∧ e.code = .undefined) :
    (runCreation P net env w event).calls = [] ∧
    (runCreation P net env w event).statusCode? = some (.num 500) ∧
    ∃ s, runCreation P net env w event =
      .ok (jsonResponse (.num 500)
        (.obj [("resultCode", .num 500), ("message", .str "Internal server error"),
               ("error", .str e.message)])) s := by
  have hb : readCreationBody P event = .error e := by
    simp [readCreationBody, hraw, hparse, bind, Except.bind]
  have key : creationOutcome P net env w event =
      (.ok (jsonResponse (.num 500)
        (.obj [("resultCode", .num 500), ("message", .str "Internal server error"),
               ("error", .str e.message)])), []) := by
    have hcatch : catchAnswer e =
        .ok (jsonResponse (.num 500)
          (.obj [("resultCode", .num 500), ("message", .str "Internal server error"),
                 ("error", .str e.message)])) := by
      simp [catchAnswer, hplain.1, hplain.2, JsVal.truthy, JsVal.strictEqStr]
    simp [creationOutcome, creationTryOutcome, henv, hsub, hu, hb, answerOrCatch, hcatch]
  refine ⟨?_, ?_, ?_⟩
  · rw [runCreation_calls, key]
  · rw [runCreation_statusCode P net env w event _ (by rw [key])]
    rfl
  · exact runCreation_returns P net env w event _ (by rw [key])

/-- Witness of the amended C17: the request whose body is `packageType=VIP`. -/
theorem malformed_body_answered_500_witness :
    (runCreation node okNet creationTestEnv okWorld malformedEvent).calls = [] ∧
    (runCreation node okNet creationTestEnv okWorld malformedEvent).statusCode? =
      some (.num 500) ∧
    ∃ s, runCreation node okNet creationTestEnv okWorld malformedEvent =
      .ok (jsonResponse (.num 500)
        (.obj [("resultCode", .num 500), ("message", .str "Internal server error"),
               ("error", .str (JsError.plain "Unexpected token in JSON").message)])) s :=
  malformed_body_answered_500 node okNet creationTestEnv okWorld malformedEvent (.str "u1")
    (.str "packageType=VIP") (.plain "Unexpected token in JSON") rfl rfl rfl rfl rfl ⟨rfl, rfl⟩

/-- C18 as stated fails: the gateway answers this accepted request with status
    400 and an error payload; the handler answers with the status of the
    gateway, 400, which is not a 5xx status. -/
theorem gateway_status_counterexample :
    gatewayRefusesNet.request [membershipRequest creationTestEnv (.str "u1")]
        (gatewayRequestOf node creationTestEnv (.str "u1") vipBody (okWorld.now 0)) =
      .response 400 (.obj [("resultCode", .num 11), ("message", .str "Access denied.")]) ∧
    (runCreation node gatewayRefusesNet creationTestEnv okWorld vipEvent).calls =
      [membershipRequest creationTestEnv (.str "u1"),
       gatewayRequestOf node creationTestEnv (.str "u1") vipBody (okWorld.now 0)] ∧
    (runCreation node gatewayRefusesNet creationTestEnv okWorld vipEvent).statusCode? =
      some (.num 400) := by
  have key := creationOutcome_proceeds vipEvent_accepted gatewayRefusesNet okWorld rfl
  refine ⟨rfl, ?_, ?_⟩
  · rw [runCreation_calls, key]
  · exact runCreation_statusCode node gatewayRefusesNet creationTestEnv okWorld vipEvent
      (jsonResponse (.num 400)
        (.obj [("resultCode", .num 11), ("message", .str "Access denied."),
               ("details", (.obj [("resultCode", .num 11),
                 ("message", .str "Access denied.")]))]))
      (by rw [key]; rfl)

/-- C18, amended: for every invocation in which the gateway call is made (`r`
    is the request that is posted; the requests made before it are the `GET` of
    the membership lookup), when the gateway call times out (error code
    `ECONNABORTED`, no response) the result has status code 504; when the gateway
    answers with a status outside 200 to 299 and a payload other than `null`,
    the result has the status code of the gateway and a body with the payload as
    `details`, with `resultCode` and `message` taken from the payload when they
    are truthy, 500 and `MoMo API Error` otherwise. -/
theorem gateway_failure_mapping (P : Platform) (net : Axios) (env : CreationEnv) (w : World)
    (event : JsVal) (r : HttpRequest)
    (hr : r ∈ withMethod "POST" (runCreation P net env w event).calls) :
    (∀ message : String,
      net.request (withMethod "GET" (runCreation P net env w event).calls) r =
        .noResponse "ECONNABORTED" message →
      (runCreation P net env w event).statusCode? = some (.num 504)) ∧
    (∀ (status : Nat) (data : JsVal),
      net.request (withMethod "GET" (runCreation P net env w event).calls) r =
        .response status data →
      ¬ (200 ≤ status ∧ status ≤ 299) → data ≠ .null → data ≠ .undefined →
      (runCreation P net env w event).statusCode? = some (.num status) ∧
      ∃ s, runCreation P net env w event =
        .ok (jsonResponse (.num status)
          (.obj [("resultCode", (getPropOpt data "resultCode").orElse (.num 500)),
                 ("message", (getPropOpt data "message").orElse (.str "MoMo API Error")),
                 ("details", data)])) s) := by
  obtain ⟨userId, body, _, _, e0, key⟩ := posted_request_cases P net env w event r hr
  subst e0
  have hget : withMethod "GET" (runCreation P net env w event).calls =
      [membershipRequest env userId] := by
    rw [runCreation_calls, key, withMethod_get_proceeds]
  rw [hget]
  refine ⟨?_, ?_⟩
  · intro message ho
    exact runCreation_statusCode P net env w event
      (jsonResponse (.num 504)
        (.obj [("resultCode", .num 504),
               ("message", .str "Request timeout - MoMo API did not respond in time")]))
      (by simp [key, ho, gatewayAnswer, answerOrCatch, catchAnswer, JsVal.truthy,
        JsVal.strictEqStr])
  · intro status data ho hs h1 h2
    have hk : (creationOutcome P net env w event).1 =
        .ok (jsonResponse (.num status)
          (.obj [("resultCode", (getPropOpt data "resultCode").orElse (.num 500)),
                 ("message", (getPropOpt data "message").orElse (.str "MoMo API Error")),
                 ("details", data)])) := by
      simp [key, ho, gatewayAnswer, hs, answerOrCatch, catchAnswer_status status data h1 h2]
    exact ⟨runCreation_statusCode P net env w event _ hk,
      runCreation_returns P net env w event _ hk⟩

/-- Witness of the amended C18: the request `packageType: "VIP"` when the
    gateway does not answer in time. -/
theorem gateway_failure_mapping_witness :
    gatewayRequestOf node creationTestEnv (.str "u1") vipBody (okWorld.now 0) ∈
      withMethod "POST"
        (runCreation node gatewayTimeoutNet creationTestEnv okWorld vipEvent).calls ∧
    gatewayTimeoutNet.request
        (withMethod "GET"
          (runCreation node gatewayTimeoutNet creationTestEnv okWorld vipEvent).calls)
        (gatewayRequestOf node creationTestEnv (.str "u1") vipBody (okWorld.now 0)) =
      .noResponse "ECONNABORTED" "timeout of 30000ms exceeded" ∧
    (runCreation node gatewayTimeoutNet creationTestEnv okWorld vipEvent).statusCode? =
      some (.num 504) ∧
    ((∀ message : String,
      gatewayTimeoutNet.request
          (withMethod "GET"
            (runCreation node gatewayTimeoutNet creationTestEnv okWorld vipEvent).calls)
          (gatewayRequestOf node creationTestEnv (.str "u1") vipBody (okWorld.now 0)) =
        .noResponse "ECONNABORTED" message →
      (runCreation node gatewayTimeoutNet creationTestEnv okWorld vipEvent).statusCode? =
        some (.num 504)) ∧
    (∀ (status : Nat) (data : JsVal),
      gatewayTimeoutNet.request
          (withMethod "GET"
            (runCreation node gatewayTimeoutNet creationTestEnv okWorld vipEvent).calls)
          (gatewayRequestOf node creationTestEnv (.str "u1") vipBody (okWorld.now 0)) =
        .response status data →
      ¬ (200 ≤ status ∧ status ≤ 299) → data ≠ .null → data ≠ .undefined →
      (runCreation node gatewayTimeoutNet creationTestEnv okWorld vipEvent).statusCode? =
        some (.num status) ∧
      ∃ s, runCreation node gatewayTimeoutNet creationTestEnv okWorld vipEvent =
        .ok (jsonResponse (.num status)
          (.obj [("resultCode", (getPropOpt data "resultCode").orElse (.num 500)),
                 ("message", (getPropOpt data "message").orElse (.str "MoMo API Error")),
                 ("details", data)])) s)) :=
  have hk := creationOutcome_proceeds vipEvent_accepted gatewayTimeoutNet okWorld rfl
  have hr : gatewayRequestOf node creationTestEnv (.str "u1") vipBody (okWorld.now 0) ∈
      withMethod "POST"
        (runCreation node gatewayTimeoutNet creationTestEnv okWorld vipEvent).calls := by
    rw [runCreation_calls, hk, withMethod_post_proceeds]
    exact List.mem_singleton.2 rfl
  have hans : gatewayTimeoutNet.request
        (withMethod "GET"
          (runCreation node gatewayTimeoutNet creationTestEnv okWorld vipEvent).calls)
        (gatewayRequestOf node creationTestEnv (.str "u1") vipBody (okWorld.now 0)) =
      .noResponse "ECONNABORTED" "timeout of 30000ms exceeded" := by
    rw [runCreation_calls, hk, withMethod_get_proceeds]
    rfl
  ⟨hr, hans,
    (gateway_failure_mapping node gatewayTimeoutNet creationTestEnv okWorld vipEvent _ hr).1 _
      hans,
    gateway_failure_mapping node gatewayTimeoutNet creationTestEnv okWorld vipEvent _ hr⟩

/-- C19: in every invocation in which the membership lookup is made (for user
    `userId` and the body `body` read from the event), the check is not fatal and
    rejects a purchase of the current package only.  When the lookup fails (no
    answer, or an answer outside 200 to 299), the handler goes on and posts to
    the gateway the request that depends on the user, the body and the clock
    only.  When the lookup succeeds, the request is rejected with 400, without a
    gateway call, exactly when the current membership (`BASIC` when the answer
    names none) equals the requested `packageType`; otherwise the same gateway
    request is posted. -/
theorem membership_check_non_fatal (P : Platform) (net : Axios) (env : CreationEnv) (w : World)
    (event userId : JsVal) (body : CreationBody)
    (hsub : authorizerClaim event "sub" = .ok userId)
    (hbody : readCreationBody P event = .ok body)
    (hcall : membershipRequest env userId ∈ (runCreation P net env w event).calls) :
    (((∃ code message, net.request [] (membershipRequest env userId) =
          .noResponse code message) ∨
        (∃ status data, net.request [] (membershipRequest env userId) =
          .response status data ∧ ¬ (200 ≤ status ∧ status ≤ 299))) →
      (runCreation P net env w event).calls =
        [membershipRequest env userId, gatewayRequestOf P env userId body (w.now 0)]) ∧
    (∀ (status : Nat) (data : JsVal),
      net.request [] (membershipRequest env userId) = .response status data →
      200 ≤ status ∧ status ≤ 299 →
      (currentMembershipOf data = body.packageType →
        (runCreation P net env w event).calls = [membershipRequest env userId] ∧
        (runCreation P net env w event).statusCode? = some (.num 400)) ∧
      (currentMembershipOf data ≠ body.packageType →
        (runCreation P net env w event).calls =
          [membershipRequest env userId, gatewayRequestOf P env userId body (w.now 0)])) := by
  have h : AcceptedRequest P env event userId body := by
    rw [runCreation_calls] at hcall
    rcases creationOutcome_calls_cases P net env w event with h0 | ⟨userId2, body2, ha, _⟩
    · rw [h0] at hcall
      simp at hcall
    · have e1 : userId2 = userId := Except.ok.inj (ha.2.1.symm.trans hsub)
      have e2 : body2 = body := Except.ok.inj (ha.2.2.2.1.symm.trans hbody)
      rw [← e1, ← e2]
      exact ha
  obtain ⟨p, hp, _⟩ := includesPackage_str h.2.2.2.2.2.1
  refine ⟨?_, ?_⟩
  · intro hfail
    have hgo : membershipVerdict net env userId body.packageType [] = none := by
      rcases hfail with ⟨code, message, ho⟩ | ⟨status, data, ho, hs⟩
      · simp [membershipVerdict, ho]
      · simp [membershipVerdict, ho, hs]
    rw [runCreation_calls, creationOutcome_proceeds h net w hgo]
  · intro status data ho hs
    refine ⟨?_, ?_⟩
    · intro heq
      have hq : (currentMembershipOf data).strictEq body.packageType = true := by
        rw [hp] at heq ⊢
        exact strictEq_str.2 heq
      have hv : membershipVerdict net env userId body.packageType [] =
          some (samePackageResponse body.packageType) := by
        simp [membershipVerdict, ho, hs, hq]
      have key := creationOutcome_same_package h net w _ hv
      refine ⟨by rw [runCreation_calls, key], ?_⟩
      rw [runCreation_statusCode P net env w event _ (by rw [key])]
      rfl
    · intro hne
      have hq : (currentMembershipOf data).strictEq body.packageType = false := by
        cases hc : (currentMembershipOf data).strictEq body.packageType with
        | false => rfl
        | true =>
          rw [hp] at hc hne
          exact absurd (strictEq_str.1 hc) hne
      have hgo : membershipVerdict net env userId body.packageType [] = none := by
        simp [membershipVerdict, ho, hs, hq]
      rw [runCreation_calls, creationOutcome_proceeds h net w hgo]

/-- Witness of C19: the request `packageType: "VIP"` when the membership lookup
    times out. -/
theorem membership_check_non_fatal_witness :
    authorizerClaim vipEvent "sub" = .ok (.str "u1") ∧
    readCreationBody node vipEvent = .ok vipBody ∧
    membershipRequest creationTestEnv (.str "u1") ∈
      (runCreation node lookupDownNet creationTestEnv okWorld vipEvent).calls ∧
    lookupDownNet.request [] (membershipRequest creationTestEnv (.str "u1")) =
      .noResponse "ECONNABORTED" "timeout of 5000ms exceeded" ∧
    (runCreation node lookupDownNet creationTestEnv okWorld vipEvent).calls =
      [membershipRequest creationTestEnv (.str "u1"),
       gatewayRequestOf node creationTestEnv (.str "u1") vipBody (okWorld.now 0)] ∧
    (∀ (status : Nat) (data : JsVal),
      lookupDownNet.request [] (membershipRequest creationTestEnv (.str "u1")) =
        .response status data →
      200 ≤ status ∧ status ≤ 299 →
      (currentMembershipOf data = vipBody.packageType →
        (runCreation node lookupDownNet creationTestEnv okWorld vipEvent).calls =
          [membershipRequest creationTestEnv (.str "u1")] ∧
        (runCreation node lookupDownNet creationTestEnv okWorld vipEvent).statusCode? =
          some (.num 400)) ∧
      (currentMembershipOf data ≠ vipBody.packageType →
        (runCreation node lookupDownNet creationTestEnv okWorld vipEvent).calls =
          [membershipRequest creationTestEnv (.str "u1"),
           gatewayRequestOf node creationTestEnv (.str "u1") vipBody (okWorld.now 0)])) :=
  have hcall : membershipRequest creationTestEnv (.str "u1") ∈
      (runCreation node lookupDownNet creationTestEnv okWorld vipEvent).calls := by
    rw [runCreation_calls, creationOutcome_proceeds vipEvent_accepted lookupDownNet okWorld rfl]
    exact List.mem_cons_self _ _
  ⟨rfl, rfl, hcall, rfl,
    (membership_check_non_fatal node lookupDownNet creationTestEnv okWorld vipEvent (.str "u1")
      vipBody rfl rfl hcall).1 (Or.inl ⟨_, _, rfl⟩),
    (membership_check_non_fatal node lookupDownNet creationTestEnv okWorld vipEvent (.str "u1")
      vipBody rfl rfl hcall).2⟩

/-- C27, the code on a gateway error without a payload: the gateway answers
    this accepted request with status 502 and the JSON body `null`; inside the
    `catch` block the read of `error.response.data.resultCode` throws, so the
    handler throws and returns no response. -/
theorem gateway_null_payload_throws :
    AcceptedRequest node creationTestEnv vipEvent (.str "u1") vipBody ∧
    gatewayNullNet.request [membershipRequest creationTestEnv (.str "u1")]
        (gatewayRequestOf node creationTestEnv (.str "u1") vipBody (okWorld.now 0)) =
      .response 502 .null ∧
    catchAnswer (axiosStatusError 502 .null) =
      .error (.plain "Cannot read properties of null (reading resultCode)") ∧
    (∃ s, runCreation node gatewayNullNet creationTestEnv okWorld vipEvent =
      .threw (.plain "Cannot read properties of null (reading resultCode)") s) ∧
    (runCreation node gatewayNullNet creationTestEnv okWorld vipEvent).statusCode? = none := by
  have key := creationOutcome_proceeds vipEvent_accepted gatewayNullNet okWorld rfl
  have hk : (creationOutcome node gatewayNullNet creationTestEnv okWorld vipEvent).1 =
      .error (.plain "Cannot read properties of null (reading resultCode)") := by
    rw [key]
    rfl
  obtain ⟨s, hs⟩ := runCreation_throws node gatewayNullNet creationTestEnv okWorld vipEvent _ hk
  exact ⟨vipEvent_accepted, rfl, rfl, ⟨s, hs⟩, by rw [hs]; rfl⟩

/-! ## Request validation of the upload lambda -/

namespace FileUpload

/-- C26, the code on a size of zero.  A request that provides `fileSize: 0` passes
    validation with no error, although the check `size <= 0` of `validateRequest`
    carries the message `fileSize must be greater than 0`: the size is examined
    only when it is truthy, and the number 0 is falsy.  The same size written as
    the text `"0"`, and the size `-1`, are both refused with that message. -/
theorem zero_fileSize_passes_validation :
    parseBody node zeroSizeEvent =
        .ok (some (.obj [("contentType", .str "image/png"), ("fileSize", .num 0)])) ∧
      verdictOf (validateRequest node zeroSizeEvent) = some (true, []) ∧
      parseBody node zeroTextEvent =
        .ok (some (.obj [("contentType", .str "image/png"), ("fileSize", .str "0")])) ∧
      parseInt (.str "0") = .ok (some 0) ∧
      verdictOf (validateRequest node zeroTextEvent) =
        some (false, ["fileSize must be greater than 0"]) ∧
      parseBody node negativeSizeEvent =
        .ok (some (.obj [("contentType", .str "image/png"), ("fileSize", .num (-1))])) ∧
      parseInt (.num (-1)) = .ok (some (-1)) ∧
      verdictOf (validateRequest node negativeSizeEvent) =
        some (false, ["fileSize must be greater than 0"]) :=
  ⟨rfl, by decide, rfl, rfl, by decide, rfl, rfl, by decide⟩

end FileUpload
/-! ## The coach administration lambda -/

namespace ManageCoaches

theorem getProp_of_getProp {event method : JsVal} {name : String}
    (hm : getProp event "httpMethod" = .ok method) :
    getProp event name = .ok (getPropOpt event name) := by
  cases event <;> simp_all [getProp, getPropOpt]

theorem pathOf_of_getProp {event method : JsVal}
    (hm : getProp event "httpMethod" = .ok method) :
    pathOf event = .ok ((getPropOpt event "path").orElse (getPropOpt event "resource")) := by
  simp [pathOf, getProp_of_getProp hm, bind, Except.bind, pure, Except.pure]

theorem routeIs_error_iff (method path : JsVal) (verb word : String) :
    (∃ e, routeIs method path verb word = .error e) ↔
      (method.strictEqStr verb = true ∧ textOrArray path = false) := by
  unfold routeIs
  cases hv : method.strictEqStr verb <;> cases path <;>
    simp [pathIncludes, textOrArray, pure, Except.pure]

theorem groupsArrayOf_error_iff (groups : JsVal) :
    (∃ e, groupsArrayOf groups = .error e) ↔
      (groups.truthy = true ∧ textOrArray groups = false) := by
  unfold groupsArrayOf
  cases ht : groups.truthy <;> cases groups <;>
    simp_all [textOrArray, pure, Except.pure, JsVal.truthy]

theorem includesAdmin_of_groupsArrayOf {groups : JsVal} {items : List JsVal}
    (h : groupsArrayOf groups = .ok items) (hc : containsAdmin groups = false) :
    includesAdmin items = false := by
  unfold groupsArrayOf at h
  cases ht : groups.truthy
  · simp [ht, pure, Except.pure] at h
    subst h
    rfl
  · cases groups <;> simp_all [pure, Except.pure, containsAdmin, JsVal.truthy]

/-- C22 (counterexample).  Three requests of an authenticated customer, whose
    groups do not contain `admin`.  For `GET /admin/coaches` the handler answers
    200 with the list of coaches and sends `ListUsersInGroup` to Cognito.  For a
    `GET` without path, and for a request whose claim `cognito:groups` is a number,
    the handler sends nothing to Cognito but answers 500, not 403. -/
theorem public_listing_counterexample :
    (NotAdmin (customerRequest "GET" "/admin/coaches") ∧
      (runCoaches node oneCoachPool coachesTestEnv unreachedActions idleWorld
        (customerRequest "GET" "/admin/coaches")).statusCode? = some (.num 200) ∧
      (runCoaches node oneCoachPool coachesTestEnv unreachedActions idleWorld
        (customerRequest "GET" "/admin/coaches")).calls =
        [cognitoRequest "us-east-1" "ListUsersInGroup"
          (.obj [("UserPoolId", .str "us-east-1_TestPool"), ("GroupName", .str "coach"),
                 ("Limit", .num 60)])]) ∧
    (NotAdmin pathlessRequest ∧
      getProp pathlessRequest "httpMethod" = .ok (.str "GET") ∧
      pathOf pathlessRequest = .ok .undefined ∧
      (runCoaches node oneCoachPool coachesTestEnv unreachedActions idleWorld
        pathlessRequest).statusCode? = some (.num 500) ∧
      (runCoaches node oneCoachPool coachesTestEnv unreachedActions idleWorld
        pathlessRequest).calls = []) ∧
    (NotAdmin numericGroupsRequest ∧
      getProp numericGroupsRequest "httpMethod" = .ok (.str "DELETE") ∧
      pathOf numericGroupsRequest = .ok (.str "/admin/coaches") ∧
      (runCoaches node oneCoachPool coachesTestEnv unreachedActions idleWorld
        numericGroupsRequest).statusCode? = some (.num 500) ∧
      (runCoaches node oneCoachPool coachesTestEnv unreachedActions idleWorld
        numericGroupsRequest).calls = []) :=
  ⟨⟨⟨_, rfl, Or.inr rfl⟩, rfl, rfl⟩, ⟨⟨_, rfl, Or.inr rfl⟩, rfl, rfl, rfl, rfl⟩,
    ⟨⟨_, rfl, Or.inr rfl⟩, rfl, rfl, rfl, rfl⟩⟩

/-- C22 (amended).  For every request that is not OPTIONS and not the public
    listing (a `GET` whose path includes `coaches`), and that is not from an admin
    (the authorizer claims are missing, or `cognito:groups` does not contain
    `admin`), the handler sends nothing to Cognito, whatever the pool, the
    environment and the admin actions are.  It returns the 403 response with the
    message of the admin check, except in two cases, in which it returns a 500
    response: a `GET` whose path (`event.path || event.resource`) is neither a
    string nor an array, and a request with claims whose `cognito:groups` is truthy
    and neither a string nor an array. -/
theorem non_admin_refused (P : Platform) (cognito : Cognito) (env : CoachesEnv)
    (actions : AdminActions) (w : World) (event method : JsVal)
    (hm : getProp event "httpMethod" = .ok method)
    (ho : method.strictEqStr "OPTIONS" = false)
    (hr : ¬ PublicListing event)
    (hna : NotAdmin event) :
    (runCoaches P cognito env actions w event).calls = [] ∧
    ∃ path claims, pathOf event = .ok path ∧ claimsOf event = .ok claims ∧
      (Unreadable method path claims →
        (runCoaches P cognito env actions w event).statusCode? = some (.num 500)) ∧
      (¬ Unreadable method path claims →
        ∃ error, (error = "No authorization claims found" ∨
            error = "Access denied. Admin role required.") ∧
          (runCoaches P cognito env actions w event).value? =
            some (createResponse 403
              (.obj [("success", .bool false), ("error", .str error)])) ∧
          (runCoaches P cognito env actions w event).statusCode? = some (.num 403)) := by
  have hp := pathOf_of_getProp hm
  obtain ⟨claims, hc, hna⟩ := hna
  generalize (getPropOpt event "path").orElse (getPropOpt event "resource") = path at hp
  suffices key : (runCoaches P cognito env actions w event).calls = [] ∧
      (Unreadable method path claims →
        (runCoaches P cognito env actions w event).statusCode? = some (.num 500)) ∧
      (¬ Unreadable method path claims →
        ∃ error, (error = "No authorization claims found" ∨
            error = "Access denied. Admin role required.") ∧
          (runCoaches P cognito env actions w event).value? =
            some (createResponse 403
              (.obj [("success", .bool false), ("error", .str error)])) ∧
          (runCoaches P cognito env actions w event).statusCode? = some (.num 403)) from
    ⟨key.1, path, claims, hp, hc, key.2⟩
  cases hroute : routeIs method path "GET" "coaches" with
  | error e =>
    have hU : Unreadable method path claims :=
      Or.inl ((routeIs_error_iff method path "GET" "coaches").1 ⟨e, hroute⟩)
    refine ⟨?_, fun _ => ?_, fun h => absurd hU h⟩ <;>
      simp [runCoaches, handler, handlerTry, handlerCatch, hm, ho, hp, hroute, bind,
        Js.andThen, Js.ofExcept, Js.ret, Js.throwErr, Js.console, Js.tryCatch, pure,
        Res.statusCode?, Res.calls, Res.state, requestsOf, createResponse]
  | ok b =>
    have hb : b = false := by
      cases b with
      | false => rfl
      | true => exact absurd ⟨method, path, hm, hp, hroute⟩ hr
    subst hb
    have hnoroute : ¬ (method.strictEqStr "GET" = true ∧ textOrArray path = false) := by
      intro h
      obtain ⟨e, he⟩ := (routeIs_error_iff method path "GET" "coaches").2 h
      rw [hroute] at he
      cases he
    cases ht : claims.truthy with
    | false =>
      have hv : verifyAdminAccess event =
          .ok { authorized := false, error := .str "No authorization claims found",
                email := .undefined } := by
        simp [verifyAdminAccess, hc, ht, bind, Except.bind, pure, Except.pure]
      have hU : ¬ Unreadable method path claims := by
        rintro (h | h)
        · exact hnoroute h
        · rw [ht] at h
          cases h.1
      refine ⟨?_, fun h => absurd h hU, fun _ => ⟨_, Or.inl rfl, ?_, ?_⟩⟩ <;>
        simp [runCoaches, handler, handlerTry, handlerCatch, hm, ho, hp, hroute, hv, bind,
          Js.andThen, Js.ofExcept, Js.ret, Js.throwErr, Js.console, Js.tryCatch, pure,
          Res.value?, Res.statusCode?, Res.calls, Res.state, requestsOf, createResponse]
    | true =>
      have hna2 : containsAdmin (getPropOpt claims "cognito:groups") = false := by
        rcases hna with h | h
        · rw [ht] at h
          cases h
        · exact h
      have hg : getProp claims "cognito:groups" = .ok (getPropOpt claims "cognito:groups") := by
        cases claims <;> simp_all [getProp, getPropOpt, JsVal.truthy]
      cases hgroups : groupsArrayOf (getPropOpt claims "cognito:groups") with
      | error e =>
        have hv : verifyAdminAccess event = .error e := by
          simp [verifyAdminAccess, hc, ht, hg, hgroups, bind, Except.bind, pure, Except.pure]
        have hU : Unreadable method path claims :=
          Or.inr ⟨ht, (groupsArrayOf_error_iff _).1 ⟨e, hgroups⟩⟩
        refine ⟨?_, fun _ => ?_, fun h => absurd hU h⟩ <;>
          simp [runCoaches, handler, handlerTry, handlerCatch, hm, ho, hp, hroute, hv, bind,
            Js.andThen, Js.ofExcept, Js.ret, Js.throwErr, Js.console, Js.tryCatch, pure,
            Res.statusCode?, Res.calls, Res.state, requestsOf, createResponse]
      | ok items =>
        have hi := includesAdmin_of_groupsArrayOf hgroups hna2
        have hv : verifyAdminAccess event =
            .ok { authorized := false, error := .str "Access denied. Admin role required.",
                  email := .undefined } := by
          simp [verifyAdminAccess, hc, ht, hg, hgroups, hi, bind, Except.bind, pure,
            Except.pure]
        have hU : ¬ Unreadable method path claims := by
          rintro (h | h)
          · exact hnoroute h
          · obtain ⟨e, he⟩ := (groupsArrayOf_error_iff _).2 h.2
            rw [hgroups] at he
            cases he
        refine ⟨?_, fun h => absurd h hU, fun _ => ⟨_, Or.inr rfl, ?_, ?_⟩⟩ <;>
          simp [runCoaches, handler, handlerTry, handlerCatch, hm, ho, hp, hroute, hv, bind,
            Js.andThen, Js.ofExcept, Js.ret, Js.throwErr, Js.console, Js.tryCatch, pure,
            Res.value?, Res.statusCode?, Res.calls, Res.state, requestsOf, createResponse]

/-- C22 (witness).  A customer who asks to remove a coach is refused, and
    nothing is sent to Cognito. -/
theorem non_admin_refused_witness :
    getProp (customerRequest "DELETE" "/admin/coaches") "httpMethod" = .ok (.str "DELETE") ∧
      (JsVal.str "DELETE").strictEqStr "OPTIONS" = false ∧
      ¬ PublicListing (customerRequest "DELETE" "/admin/coaches") ∧
      NotAdmin (customerRequest "DELETE" "/admin/coaches") ∧
      (runCoaches node oneCoachPool coachesTestEnv unreachedActions idleWorld
        (customerRequest "DELETE" "/admin/coaches")).statusCode? = some (.num 403) ∧
      (runCoaches node oneCoachPool coachesTestEnv unreachedActions idleWorld
          (customerRequest "DELETE" "/admin/coaches")).calls = [] ∧
      ∃ path claims, pathOf (customerRequest "DELETE" "/admin/coaches") = .ok path ∧
        claimsOf (customerRequest "DELETE" "/admin/coaches") = .ok claims ∧
        (Unreadable (.str "DELETE") path claims →
          (runCoaches node oneCoachPool coachesTestEnv unreachedActions idleWorld
            (customerRequest "DELETE" "/admin/coaches")).statusCode? = some (.num 500)) ∧
        (¬ Unreadable (.str "DELETE") path claims →
          ∃ error, (error = "No authorization claims found" ∨
              error = "Access denied. Admin role required.") ∧
            (runCoaches node oneCoachPool coachesTestEnv unreachedActions idleWorld
              (customerRequest "DELETE" "/admin/coaches")).value? =
              some (createResponse 403
                (.obj [("success", .bool false), ("error", .str error)])) ∧
            (runCoaches node oneCoachPool coachesTestEnv unreachedActions idleWorld
              (customerRequest "DELETE" "/admin/coaches")).statusCode? = some (.num 403)) :=
  have hpublic : ¬ PublicListing (customerRequest "DELETE" "/admin/coaches") := by
    rintro ⟨method, path, hm, hp, h⟩
    have e1 : method = .str "DELETE" := (Except.ok.inj hm).symm
    have e2 : path = .str "/admin/coaches" := (Except.ok.inj hp).symm
    rw [e1, e2] at h
    have hf : routeIs (.str "DELETE") (.str "/admin/coaches") "GET" "coaches" = .ok false := rfl
    rw [hf] at h
    cases h
  ⟨rfl, rfl, hpublic, ⟨_, rfl, Or.inr rfl⟩, rfl,
    (non_admin_refused node oneCoachPool coachesTestEnv unreachedActions idleWorld
      (customerRequest "DELETE" "/admin/coaches") (.str "DELETE") rfl rfl hpublic
      ⟨_, rfl, Or.inr rfl⟩).1,
    (non_admin_refused node oneCoachPool coachesTestEnv unreachedActions idleWorld
      (customerRequest "DELETE" "/admin/coaches") (.str "DELETE") rfl rfl hpublic
      ⟨_, rfl, Or.inr rfl⟩).2⟩

end ManageCoaches
/-! ## The user listing lambda -/

namespace ListUsers

theorem removeDuplicates_spec (allUsers : List MappedUser) :
    ∀ (uniqueUsers : List MappedUser) (seenSubs : List (Option String)),
      ∃ kept, removeDuplicates allUsers uniqueUsers seenSubs = uniqueUsers ++ kept ∧
        kept.Sublist allUsers ∧
        (∀ v ∈ kept, v.sub ∉ seenSubs) ∧
        kept.Pairwise (fun a b => a.sub ≠ b.sub) ∧
        (∀ u ∈ allUsers, u.sub ∉ seenSubs → ∃ v ∈ kept, v.sub = u.sub) ∧
        (∀ v ∈ kept, allUsers.find? (fun u => u.sub == v.sub) = some v) := by
  induction allUsers with
  | nil =>
    intro uniqueUsers seenSubs
    exact ⟨[], by simp [removeDuplicates]⟩
  | cons user rest ih =>
    intro uniqueUsers seenSubs
    by_cases hs : user.sub ∈ seenSubs
    · obtain ⟨kept, h1, h2, h3, h4, h5, h6⟩ := ih uniqueUsers seenSubs
      refine ⟨kept, ?_, h2.cons _, h3, h4, ?_, ?_⟩
      · simp [removeDuplicates, hs, h1]
      · intro u hu hn
        rcases List.mem_cons.mp hu with rfl | hu
        · exact absurd hs hn
        · exact h5 u hu hn
      · intro v hv
        have hne : ¬ user.sub = v.sub := fun e => h3 v hv (e ▸ hs)
        simp [List.find?_cons, hne, h6 v hv]
    · obtain ⟨kept, h1, h2, h3, h4, h5, h6⟩ := ih (uniqueUsers ++ [user]) (seenSubs ++ [user.sub])
      have hk : ∀ v ∈ kept, v.sub ∉ seenSubs ∧ v.sub ≠ user.sub := by
        intro v hv
        have := h3 v hv
        simp only [List.mem_append, List.mem_singleton, not_or] at this
        exact this
      refine ⟨user :: kept, ?_, h2.cons₂ _, ?_, ?_, ?_, ?_⟩
      · simp [removeDuplicates, hs, h1]
      · intro v hv
        rcases List.mem_cons.mp hv with rfl | hv
        · exact hs
        · exact (hk v hv).1
      · exact List.Pairwise.cons (fun v hv e => (hk v hv).2 e.symm) h4
      · intro u hu hn
        rcases List.mem_cons.mp hu with rfl | hu
        · exact ⟨u, List.mem_cons_self _ _, rfl⟩
        · by_cases he : u.sub = user.sub
          · exact ⟨user, List.mem_cons_self _ _, he.symm⟩
          · obtain ⟨v, hv, e⟩ := h5 u hu (by
              simp only [List.mem_append, List.mem_singleton, not_or]
              exact ⟨hn, he⟩)
            exact ⟨v, List.mem_cons_of_mem _ hv, e⟩
      · intro v hv
        rcases List.mem_cons.mp hv with rfl | hv
        · simp [List.find?_cons]
        · have hne : ¬ user.sub = v.sub := fun e => (hk v hv).2 e.symm
          simp [List.find?_cons, hne, h6 v hv]

theorem mapUserAttributes_str (toUpperCase : String → String) (u : UserType) (g : String) :
    ∃ m, mapUserAttributes toUpperCase u (.str g) = .ok m ∧ m.role = groupRole toUpperCase g :=
  ⟨_, rfl, rfl⟩

theorem mapM_mapUserAttributes_str (toUpperCase : String → String) (g : String)
    (users : List UserType) :
    ∃ l, users.mapM (fun u => mapUserAttributes toUpperCase u (.str g)) = .ok l ∧
      ∀ m ∈ l, m.role = groupRole toUpperCase g := by
  induction users with
  | nil => exact ⟨[], rfl, by simp⟩
  | cons u rest ih =>
    obtain ⟨l, hl, hr⟩ := ih
    obtain ⟨m, hm, hmr⟩ := mapUserAttributes_str toUpperCase u g
    refine ⟨m :: l, ?_, ?_⟩
    · rw [List.mapM_cons, hm, hl]
      rfl
    · intro x hx
      rcases List.mem_cons.mp hx with rfl | hx
      · exact hmr
      · exact hr x hx

theorem mapUsers_str (toUpperCase : String → String) (res : ListUsersInGroupOutput)
    (g : String) :
    ∃ l, mapUsers toUpperCase res (.str g) = .ok l ∧
      ∀ m ∈ l, m.role = groupRole toUpperCase g :=
  mapM_mapUserAttributes_str toUpperCase g (res.Users.getD [])

theorem groupListing_role (toUpperCase : String → String) (cognito : Cognito)
    (env : ListUsersEnv) (before : List HttpRequest) (g : String) :
    ∀ m ∈ groupListing toUpperCase cognito env before g, m.role = groupRole toUpperCase g := by
  intro m hm
  unfold groupListing at hm
  cases hf : cognito.listUsersInGroup before
      (cognitoRequest "us-east-1" "ListUsersInGroup" (groupInput env g)) with
  | resolves res =>
    obtain ⟨l, hl, hr⟩ := mapUsers_str toUpperCase res g
    simp only [hf, hl] at hm
    exact hr m hm
  | rejects message =>
    simp [hf] at hm

theorem listGroup_spec (toUpperCase : String → String) (cognito : Cognito) (env : ListUsersEnv)
    (allUsers : List MappedUser) (g : String) (w : World) (s : St) :
    ∃ s1, listGroup toUpperCase cognito env allUsers g w s =
        .ok (allUsers ++ groupListing toUpperCase cognito env (requestsOf s.effects) g) s1 ∧
      requestsOf s1.effects = requestsOf s.effects ++
        [cognitoRequest "us-east-1" "ListUsersInGroup" (groupInput env g)] := by
  cases hf : cognito.listUsersInGroup (requestsOf s.effects)
      (cognitoRequest "us-east-1" "ListUsersInGroup" (groupInput env g)) with
  | resolves res =>
    obtain ⟨l, hl, _⟩ := mapUsers_str toUpperCase res g
    simp [listGroup, groupListing, Js.tryCatch_run, Js.andThen_run, sendListUsersInGroup, hf, hl,
      requestsOf]
  | rejects message =>
    simp [listGroup, groupListing, Js.tryCatch_run, Js.andThen_run, sendListUsersInGroup, hf,
      requestsOf]

theorem listGroups_spec (toUpperCase : String → String) (cognito : Cognito) (env : ListUsersEnv)
    (groups : List String) :
    ∀ (allUsers : List MappedUser) (w : World) (s : St),
      ∃ s1, listGroups toUpperCase cognito env groups allUsers w s =
        .ok (allUsers ++
          concatenatedListings toUpperCase cognito env (requestsOf s.effects) groups) s1 := by
  induction groups with
  | nil =>
    intro allUsers w s
    exact ⟨s, by simp [listGroups, concatenatedListings]⟩
  | cons g rest ih =>
    intro allUsers w s
    obtain ⟨s1, h1, hr⟩ := listGroup_spec toUpperCase cognito env allUsers g w s
    obtain ⟨s2, h2⟩ := ih (allUsers ++
      groupListing toUpperCase cognito env (requestsOf s.effects) g) w s1
    refine ⟨s2, ?_⟩
    simp [listGroups, concatenatedListings, Js.andThen_run, h1, h2, hr]

theorem getProp_of_truthy (v : JsVal) (name : String) (h : v.truthy = true) :
    getProp v name = .ok (getPropOpt v name) := by
  cases v <;> simp_all [getProp, getPropOpt, JsVal.truthy]

theorem orElse_obj_truthy (v : JsVal) (fields : List (String × JsVal)) :
    (v.orElse (.obj fields)).truthy = true := by
  unfold JsVal.orElse
  split
  · assumption
  · rfl

theorem runListUsers_all_groups (P : Platform) (toUpperCase : String → String)
    (cognito : Cognito) (env : ListUsersEnv) (w : World) (event query : JsVal)
    (hq : getProp event "queryStringParameters" = .ok query)
    (hg : (getPropOpt (query.orElse (.obj [])) "group").truthy = false) :
    (runListUsers P toUpperCase cognito env w event).value? =
      some (respond 200 (allGroupsBody P (removeDuplicates
        (concatenatedListings toUpperCase cognito env [] ["customer", "coach", "admin"])
        [] []))) := by
  have ht := orElse_obj_truthy query []
  obtain ⟨s1, h1⟩ := listGroups_spec toUpperCase cognito env ["customer", "coach", "admin"] [] w
    { effects := [.console .log "admin-list-users event:"], clockReads := 0 }
  simp only [requestsOf, List.nil_append] at h1
  simp [runListUsers, handler, handlerTry, Js.tryCatch_run, Js.andThen_run, hq,
    getProp_of_truthy _ _ ht, hg, h1, Res.value?]

theorem find_append_left {α : Type} (p : α → Bool) (l1 l2 : List α) (v : α)
    (h : (l1 ++ l2).find? p = some v) (hex : ∃ u ∈ l1, p u = true) : v ∈ l1 := by
  induction l1 with
  | nil =>
    obtain ⟨u, hu, _⟩ := hex
    simp at hu
  | cons x rest ih =>
    cases hx : p x with
    | true =>
      simp only [List.cons_append, List.find?_cons, hx, Option.some.injEq] at h
      simp [h]
    | false =>
      obtain ⟨u, hu, hpu⟩ := hex
      have hrest : ∃ u ∈ rest, p u = true := by
        rcases List.mem_cons.mp hu with rfl | hu
        · simp [hx] at hpu
        · exact ⟨u, hu, hpu⟩
      simp only [List.cons_append, List.find?_cons, hx] at h
      exact List.mem_cons_of_mem _ (ih h hrest)

theorem find_append_right {α : Type} (p : α → Bool) (l1 l2 : List α) (v : α)
    (h : (l1 ++ l2).find? p = some v) (hno : ∀ u ∈ l1, p u = false) :
    l2.find? p = some v := by
  induction l1 with
  | nil => simpa using h
  | cons x rest ih =>
    have hx : p x = false := hno x (List.mem_cons_self _ _)
    simp only [List.cons_append, List.find?_cons, hx] at h
    exact ih h (fun u hu => hno u (List.mem_cons_of_mem _ hu))

/-- C25.  In a listing without a group filter the handler returns the 200
    response whose body holds `users`, `total` and `nextToken: null`, where
    `total` is the length of `users`; no two entries of `users` have the same
    `sub`; every `sub` of the concatenated customer, coach and admin listings has
    an entry; each entry is the first one with its `sub` in the concatenation;
    `users` is a subsequence of the concatenation; and so an entry has the role
    of the earliest group that lists its `sub`. -/
theorem all_groups_listing_deduplicated (P : Platform) (toUpperCase : String → String)
    (cognito : Cognito) (env : ListUsersEnv) (w : World) (event query : JsVal)
    (hq : getProp event "queryStringParameters" = .ok query)
    (hg : (getPropOpt (query.orElse (.obj [])) "group").truthy = false) :
    ∃ users : List MappedUser,
      (runListUsers P toUpperCase cognito env w event).value? =
        some (respond 200
          (.obj [("users", .arr (users.map (MappedUser.toJson P))),
                 ("total", .num users.length), ("nextToken", .null)])) ∧
      users.Pairwise (fun a b => a.sub ≠ b.sub) ∧
      (∀ u ∈ concatenatedListings toUpperCase cognito env [] ["customer", "coach", "admin"],
        ∃ v ∈ users, v.sub = u.sub) ∧
      (∀ v ∈ users,
        (concatenatedListings toUpperCase cognito env [] ["customer", "coach", "admin"]).find?
          (fun u => u.sub == v.sub) = some v) ∧
      users.Sublist
        (concatenatedListings toUpperCase cognito env [] ["customer", "coach", "admin"]) ∧
      (∀ v ∈ users,
        ((∃ u ∈ groupListing toUpperCase cognito env [] "customer", u.sub = v.sub) →
          v.role = groupRole toUpperCase "customer") ∧
        ((∀ u ∈ groupListing toUpperCase cognito env [] "customer", u.sub ≠ v.sub) →
          (∃ u ∈ groupListing toUpperCase cognito env
              [cognitoRequest "us-east-1" "ListUsersInGroup" (groupInput env "customer")]
              "coach", u.sub = v.sub) →
          v.role = groupRole toUpperCase "coach") ∧
        ((∀ u ∈ groupListing toUpperCase cognito env [] "customer", u.sub ≠ v.sub) →
          (∀ u ∈ groupListing toUpperCase cognito env
              [cognitoRequest "us-east-1" "ListUsersInGroup" (groupInput env "customer")]
              "coach", u.sub ≠ v.sub) →
          v.role = groupRole toUpperCase "admin")) := by
  obtain ⟨kept, h1, h2, _, h4, h5, h6⟩ := removeDuplicates_spec
    (concatenatedListings toUpperCase cognito env [] ["customer", "coach", "admin"]) [] []
  simp only [List.nil_append] at h1
  refine ⟨kept, ?_, h4, fun u hu => h5 u hu (by simp), h6, h2, ?_⟩
  · rw [runListUsers_all_groups P toUpperCase cognito env w event query hq hg, h1]
    rfl
  · intro v hv
    have hf := h6 v hv
    simp only [concatenatedListings, List.nil_append, List.append_nil] at hf
    refine ⟨?_, ?_, ?_⟩
    · rintro ⟨u, hu, e⟩
      have hm := find_append_left _ _ _ _ hf ⟨u, hu, by simp [e]⟩
      exact groupListing_role _ _ _ _ _ v hm
    · intro hno ⟨u, hu, e⟩
      have hf2 := find_append_right _ _ _ _ hf (fun x hx => by simpa using hno x hx)
      have hm := find_append_left _ _ _ _ hf2 ⟨u, hu, by simp [e]⟩
      exact groupListing_role _ _ _ _ _ v hm
    · intro hno hno2
      have hf2 := find_append_right _ _ _ _ hf (fun x hx => by simpa using hno x hx)
      have hf3 := find_append_right _ _ _ _ hf2 (fun x hx => by simpa using hno2 x hx)
      exact groupListing_role _ _ _ _ _ v (List.mem_of_find?_eq_some hf3)

/-- C25 (witness).  A pool in which `bob` is a customer and a coach, and the
    listing of the admin group fails: `bob` is listed once, as a customer. -/
theorem all_groups_listing_deduplicated_witness :
    getProp listAllEvent "queryStringParameters" = .ok .null ∧
    (getPropOpt (JsVal.null.orElse (.obj [])) "group").truthy = false ∧
    (runListUsers node asciiUpperCase overlappingPool listUsersTestEnv idleWorld
        listAllEvent).value? =
      some (respond 200 (allGroupsBody node
        [mappedPoolUser "s-ann" "ann@example.com" "ann" "CUSTOMER",
         mappedPoolUser "s-bob" "bob@example.com" "bob" "CUSTOMER",
         mappedPoolUser "s-cleo" "cleo@example.com" "cleo" "COACH"])) ∧
    ∃ users : List MappedUser,
      (runListUsers node asciiUpperCase overlappingPool listUsersTestEnv idleWorld
          listAllEvent).value? =
        some (respond 200
          (.obj [("users", .arr (users.map (MappedUser.toJson node))),
                 ("total", .num users.length), ("nextToken", .null)])) ∧
      users.Pairwise (fun a b => a.sub ≠ b.sub) ∧
      (∀ u ∈ concatenatedListings asciiUpperCase overlappingPool listUsersTestEnv []
          ["customer", "coach", "admin"],
        ∃ v ∈ users, v.sub = u.sub) ∧
      (∀ v ∈ users,
        (concatenatedListings asciiUpperCase overlappingPool listUsersTestEnv []
          ["customer", "coach", "admin"]).find? (fun u => u.sub == v.sub) = some v) ∧
      users.Sublist
        (concatenatedListings asciiUpperCase overlappingPool listUsersTestEnv []
          ["customer", "coach", "admin"]) ∧
      (∀ v ∈ users,
        ((∃ u ∈ groupListing asciiUpperCase overlappingPool listUsersTestEnv [] "customer",
            u.sub = v.sub) →
          v.role = groupRole asciiUpperCase "customer") ∧
        ((∀ u ∈ groupListing asciiUpperCase overlappingPool listUsersTestEnv [] "customer",
            u.sub ≠ v.sub) →
          (∃ u ∈ groupListing asciiUpperCase overlappingPool listUsersTestEnv
              [cognitoRequest "us-east-1" "ListUsersInGroup"
                (groupInput listUsersTestEnv "customer")]
              "coach", u.sub = v.sub) →
          v.role = groupRole asciiUpperCase "coach") ∧
        ((∀ u ∈ groupListing asciiUpperCase overlappingPool listUsersTestEnv [] "customer",
            u.sub ≠ v.sub) →
          (∀ u ∈ groupListing asciiUpperCase overlappingPool listUsersTestEnv
              [cognitoRequest "us-east-1" "ListUsersInGroup"
                (groupInput listUsersTestEnv "customer")]
              "coach", u.sub ≠ v.sub) →
          v.role = groupRole asciiUpperCase "admin")) :=
  ⟨rfl, rfl, rfl,
    all_groups_listing_deduplicated node asciiUpperCase overlappingPool listUsersTestEnv
      idleWorld listAllEvent .null rfl rfl⟩

end ListUsers

end Momo
